import Mathlib

/-!
The quest lifecycle and progression engine of gamelive.

A shallow embedding of `src/server.js` (the leveling calculator, the recurrence
planner, and the quest / step request handlers over a relational store) together
with theorems about it.

Conventions of the embedding

* JavaScript numbers that hold database integers (levels, xp, rewards, order
  indices, time values in milliseconds) are exact mathematical integers (`Int`).
* A nullable column or an optional JSON field is an `Option`.
* A table is the list of its rows in insertion order.
-/

namespace GameLive

/-! ## Leveling calculator (`calculateLevel`, server.js 424-437) -/

/-- The `{ level, xp }` part of a character row that `calculateLevel` reads and returns. -/
structure LevelXp where
  level : Int
  xp : Int
  deriving DecidableEq, Repr

/-- The expression `100 + (currentLevel - 1) * 50` bound to `xpToNext` inside the loop. -/
def xpToNext (currentLevel : Int) : Int := 100 + (currentLevel - 1) * 50

/-- The `while (true)` loop of `calculateLevel` on the two loop variables, computed
on exact integers. JavaScript computes on doubles: `calculateLevel.loopOnDoubles`
is the loop with every arithmetic result rounded as a double is, and the two
agree as long as the numbers are safe integers (`calculateLevel.loopOnDoubles_spec`).
The exact loop is defined for every pair of integers: while the level is negative
the level rises towards zero, afterwards the threshold is at least 50 and the xp
falls. -/
def calculateLevel.loop (currentLevel currentXp : Int) : LevelXp :=
  if xpToNext currentLevel ≤ currentXp then
    calculateLevel.loop (currentLevel + 1) (currentXp - xpToNext currentLevel)
  else
    { level := currentLevel, xp := currentXp }
termination_by ((-currentLevel).toNat, currentXp.toNat)
decreasing_by
  all_goals simp_wf
  rw [Prod.lex_def]
  unfold xpToNext at *
  simp only
  omega

/-- Function `calculateLevel({ level, xp }, earnedXp)` on exact integers: the value
the source computes while its numbers are safe integers (see
`calculateLevel.onDoubles` for the computation on doubles). -/
def calculateLevel (character : LevelXp) (earnedXp : Int) : LevelXp :=
  calculateLevel.loop character.level (character.xp + earnedXp)

/-- Sum of the thresholds of the `n` levels `L, L+1, ..., L+n-1`. -/
def spentXp (L : Int) : Nat → Int
  | 0 => 0
  | n + 1 => spentXp L n + xpToNext (L + n)

/-- The spacing of the doubles around the magnitude `a`: the power of two `u`, found
by doubling from `candidate`, with `a < u * 2^53` (so that `a / u` has at most 53
bits). -/
def doubleSpacing.search : Nat → Nat → Nat → Nat
  | 0, _, candidate => candidate
  | fuel + 1, a, candidate =>
    if a < candidate * 2 ^ 53 then candidate
    else doubleSpacing.search fuel a (2 * candidate)

/-- The spacing of the doubles around the magnitude `a`: 1 below `2^53`, 2 from
`2^53` to `2^54`, 4 from `2^54` to `2^55`, and so on. -/
def doubleSpacing (a : Nat) : Nat := doubleSpacing.search a a 1

/-- The integer nearest to `x` that a double can hold, ties going to the even
significand (IEEE 754 round to nearest, ties to even, with a significand of 53
bits): every integer of magnitude up to `2^53` is kept, a larger one is rounded to
a multiple of the spacing of the doubles at its magnitude. -/
def roundNearestEven (x : Int) : Int :=
  if x.natAbs ≤ 2 ^ 53 then x
  else
    let ulp : Nat := doubleSpacing x.natAbs
    let q : Nat := x.natAbs / ulp
    let r : Nat := x.natAbs % ulp
    let m : Nat := if 2 * r < ulp then q else if ulp < 2 * r then q + 1 else q + q % 2
    x.sign * ((m * ulp : Nat) : Int)

/-- The power `2^1024`, written as a product of four factors `2^256`: the magnitude
from which a rounded value is no finite double. -/
def doubleOverflow : Nat := 2 ^ 256 * 2 ^ 256 * 2 ^ 256 * 2 ^ 256

/-- The double that a sum, difference or product of doubles holding integers
yields when its exact value is `x`: the rounded value, or `none` when that is
beyond the finite doubles (JavaScript then yields an infinity, which is not an
integer). -/
def toDouble (x : Int) : Option Int :=
  if (roundNearestEven x).natAbs < doubleOverflow then some (roundNearestEven x) else none

/-- The `while (true)` loop of `calculateLevel` as JavaScript runs it, on numbers
that are doubles holding integers: each arithmetic result is rounded by
`toDouble`. `fuel` bounds the number of tests of the loop condition; the result is
`none` when the loop has not left within `fuel` tests or a value has become
infinite. -/
def calculateLevel.loopOnDoubles : Nat → Int → Int → Option LevelXp
  | 0, _, _ => none
  | fuel + 1, currentLevel, currentXp =>
    match toDouble (currentLevel - 1) with
    | none => none
    | some levelsBelow =>
      match toDouble (levelsBelow * 50) with
      | none => none
      | some growth =>
        match toDouble (100 + growth) with
        | none => none
        | some xpToNext =>
          if currentXp ≥ xpToNext then
            match toDouble (currentXp - xpToNext), toDouble (currentLevel + 1) with
            | some nextXp, some nextLevel => calculateLevel.loopOnDoubles fuel nextLevel nextXp
            | _, _ => none
          else
            some { level := currentLevel, xp := currentXp }

/-- Function `calculateLevel({ level, xp }, earnedXp)` as JavaScript runs it on
doubles holding integers, with at most `fuel` tests of the loop condition. -/
def calculateLevel.onDoubles (fuel : Nat) (character : LevelXp) (earnedXp : Int) :
    Option LevelXp :=
  match toDouble (character.xp + earnedXp) with
  | none => none
  | some currentXp => calculateLevel.loopOnDoubles fuel character.level currentXp

/-! ## The `Date` built-in, as far as `computeNextDueAt` uses it

`Date` is a platform object; its methods are embedded from their ECMAScript
definitions (ECMA-262, "Date Objects"), with the abstract operations keeping their
names. A valid `Date` is represented by its time value, the number of milliseconds
since 1970-01-01T00:00:00Z, and an invalid one (time value NaN) by `none`. The
host's time zone is a parameter (`Zone`): its offset may depend on the instant.
The numbers involved stay below `2^53` in magnitude, so doubles hold them
exactly. -/

namespace JSDate

def msPerDay : Int := 86400000

/-- `Day(t) = floor(t / msPerDay)`. -/
def Day (t : Int) : Int := t / msPerDay

/-- `TimeWithinDay(t) = t modulo msPerDay`. -/
def TimeWithinDay (t : Int) : Int := t % msPerDay

/-- Leap years of the proleptic Gregorian calendar, as a day count 0 or 1. -/
def leapDay (y : Int) : Int :=
  if y % 4 ≠ 0 then 0 else if y % 100 ≠ 0 then 1 else if y % 400 ≠ 0 then 0 else 1

/-- `DaysInYear(y)`. -/
def DaysInYear (y : Int) : Int := 365 + leapDay y

/-- `DayFromYear(y)`: the day number of the first day of year `y`. -/
def DayFromYear (y : Int) : Int :=
  365 * (y - 1970) + (y - 1969) / 4 - (y - 1901) / 100 + (y - 1601) / 400

/-- The year containing day number `d`: ECMAScript specifies it as the largest `y`
with `DayFromYear(y) ≤ d`; it is computed from an estimate that is off by at most
one year (see `YearFromDay_spec` and `YearFromDay_unique`). -/
def YearFromDay (d : Int) : Int :=
  let e := 1970 + (400 * d) / 146097
  if DayFromYear (e + 1) ≤ d then e + 1 else if DayFromYear e ≤ d then e else e - 1

/-- `YearFromTime(t)`. -/
def YearFromTime (t : Int) : Int := YearFromDay (Day t)

/-- `InLeapYear(t)`. -/
def InLeapYear (t : Int) : Int := leapDay (YearFromTime t)

/-- `DayWithinYear(t) = Day(t) - DayFromYear(YearFromTime(t))`. -/
def DayWithinYear (t : Int) : Int := Day t - DayFromYear (YearFromTime t)

/-- The month (0 = January) of day `dwy` within a year with `leap` leap days:
the table of `MonthFromTime`. -/
def monthOfDayWithinYear (dwy leap : Int) : Int :=
  if dwy < 31 then 0
  else if dwy < 59 + leap then 1
  else if dwy < 90 + leap then 2
  else if dwy < 120 + leap then 3
  else if dwy < 151 + leap then 4
  else if dwy < 181 + leap then 5
  else if dwy < 212 + leap then 6
  else if dwy < 243 + leap then 7
  else if dwy < 273 + leap then 8
  else if dwy < 304 + leap then 9
  else if dwy < 334 + leap then 10
  else 11

/-- `MonthFromTime(t)`. -/
def MonthFromTime (t : Int) : Int := monthOfDayWithinYear (DayWithinYear t) (InLeapYear t)

/-- The day within the year on which month `m` (0 = January) starts. -/
def monthStart (m leap : Int) : Int :=
  if m = 0 then 0
  else if m = 1 then 31
  else if m = 2 then 59 + leap
  else if m = 3 then 90 + leap
  else if m = 4 then 120 + leap
  else if m = 5 then 151 + leap
  else if m = 6 then 181 + leap
  else if m = 7 then 212 + leap
  else if m = 8 then 243 + leap
  else if m = 9 then 273 + leap
  else if m = 10 then 304 + leap
  else 334 + leap

/-- `DateFromTime(t)`: the day of the month, from 1. The table of the standard
(`DayWithinYear(t) + 1`, `- 30`, `- 58 - leap`, ...) is `dwy - monthStart + 1`. -/
def DateFromTime (t : Int) : Int :=
  DayWithinYear t - monthStart (MonthFromTime t) (InLeapYear t) + 1

/-- Number of days of month `m` (0 = January) of year `y`. -/
def DaysInMonth (y m : Int) : Int :=
  if m = 1 then 28 + leapDay y
  else if m = 3 ∨ m = 5 ∨ m = 8 ∨ m = 10 then 30
  else 31

/-- `MakeDay(year, month, date)`: the day number of the first day of the month
`month` (any integer; months beyond 0..11 carry into the year) plus `date - 1`. -/
def MakeDay (year month date : Int) : Int :=
  let ym := year + month / 12
  let mn := month % 12
  DayFromYear ym + monthStart mn (leapDay ym) + date - 1

/-- `MakeDate(day, time) = day × msPerDay + time`. -/
def MakeDate (day time : Int) : Int := day * msPerDay + time

/-- The host's time zone as ECMAScript reads it through `LocalTZA(t, isUTC)`:
`offsetAtUtc t` is the offset of local time from UTC, in milliseconds, in effect at
the UTC time value `t` (`isUTC` true); `offsetAtLocal t` is the offset in effect at
the local time value `t` (`isUTC` false), which for a local time that a transition
skips or repeats is the offset before the transition. -/
structure Zone where
  offsetAtUtc : Int → Int
  offsetAtLocal : Int → Int

/-- A zone whose offset from UTC is the constant `tza` (UTC itself is `fixed 0`). -/
def Zone.fixed (tza : Int) : Zone :=
  { offsetAtUtc := fun _ => tza, offsetAtLocal := fun _ => tza }

/-- `LocalTime(t) = t + LocalTZA(t, true)`. -/
def LocalTime (zone : Zone) (t : Int) : Int := t + zone.offsetAtUtc t

/-- `UTC(t) = t - LocalTZA(t, false)`. -/
def UTC (zone : Zone) (t : Int) : Int := t - zone.offsetAtLocal t

/-- `TimeClip(time)`: the time value itself, or NaN (`none`) when its magnitude
exceeds 8.64 × 10^15 milliseconds. -/
def TimeClip (time : Int) : Option Int :=
  if -8640000000000000 ≤ time ∧ time ≤ 8640000000000000 then some time else none

/-- `Date.prototype.getDate()` of a valid Date. -/
def getDate (zone : Zone) (t : Int) : Int := DateFromTime (LocalTime zone t)

/-- `Date.prototype.getMonth()` of a valid Date. -/
def getMonth (zone : Zone) (t : Int) : Int := MonthFromTime (LocalTime zone t)

/-- The value `UTC(newDate)` that `setDate(date)` computes before it applies
`TimeClip`. -/
def setDate.unclipped (zone : Zone) (t date : Int) : Int :=
  let lt := LocalTime zone t
  UTC zone (MakeDate (MakeDay (YearFromTime lt) (MonthFromTime lt) date) (TimeWithinDay lt))

/-- `Date.prototype.setDate(date)` on a valid Date: the new time value
`TimeClip(UTC(newDate))`, which is NaN (`none`) outside the range of `Date`. -/
def setDate (zone : Zone) (t date : Int) : Option Int :=
  TimeClip (setDate.unclipped zone t date)

/-- The value `UTC(newDate)` that `setMonth(month)` computes before it applies
`TimeClip`; with no `date` argument the day of the month is kept as `DateFromTime`,
and `MakeDay` carries it over when the month is shorter. -/
def setMonth.unclipped (zone : Zone) (t month : Int) : Int :=
  let lt := LocalTime zone t
  UTC zone (MakeDate (MakeDay (YearFromTime lt) month (DateFromTime lt)) (TimeWithinDay lt))

/-- `Date.prototype.setMonth(month)` on a valid Date: the new time value, NaN
(`none`) outside the range of `Date`. -/
def setMonth (zone : Zone) (t month : Int) : Option Int :=
  TimeClip (setMonth.unclipped zone t month)

/-- The calendar reading of a time value in the local zone: what `getFullYear()`,
`getMonth()`, `getDate()` return, and the milliseconds since local midnight. -/
structure Civil where
  year : Int
  month : Int
  date : Int
  timeOfDay : Int
  deriving DecidableEq, Repr

/-- Calendar reading of the time value `t` in the zone `zone`. -/
def toCivil (zone : Zone) (t : Int) : Civil :=
  { year := YearFromTime (LocalTime zone t)
    month := MonthFromTime (LocalTime zone t)
    date := DateFromTime (LocalTime zone t)
    timeOfDay := TimeWithinDay (LocalTime zone t) }

/-- The time value whose local calendar reading is `c` (for a date that exists). -/
def ofCivil (zone : Zone) (c : Civil) : Int :=
  UTC zone (MakeDate (MakeDay c.year c.month c.date) c.timeOfDay)

end JSDate

/-! ## Recurrence planner (`computeNextDueAt`, server.js 439-450) -/

/-- Function `computeNextDueAt(dueAt, repeatType)` on a host with the time zone
`zone`. `dueAt` is the `due_at` column as the driver returns it, the time value of
a `Date` (always truthy) or `none` for `null`; `now` is what `new Date()` reads
from the clock. The result is the time value of the returned `Date`, `none` when
that `Date` is invalid. `new Date(base.getTime())` clips its argument. -/
def computeNextDueAt (zone : JSDate.Zone) (now : Int) (dueAt : Option Int)
    (repeatType : String) : Option Int :=
  let base := match dueAt with
    | some d => d
    | none => now
  match JSDate.TimeClip base with
  | none => none
  | some next =>
    if repeatType = "daily" then
      JSDate.setDate zone next (JSDate.getDate zone next + 1)
    else if repeatType = "weekly" then
      JSDate.setDate zone next (JSDate.getDate zone next + 7)
    else if repeatType = "monthly" then
      JSDate.setMonth zone next (JSDate.getMonth zone next + 1)
    else
      some next

/-- The time value `computeNextDueAt` returns on a host whose zone has the constant
offset `tza`, with the clipping of time values to the range of `Date` left aside:
the result of `computeNextDueAt (JSDate.Zone.fixed tza)` whenever that is a valid
`Date` (see `computeNextDueAt_fixed`). The request handlers are modelled for such a
host and for time stamps well inside the range of `Date`. -/
def computeNextDueAt.fixedOffset (tza now : Int) (dueAt : Option Int) (repeatType : String) :
    Int :=
  let base := match dueAt with
    | some d => d
    | none => now
  let next := base
  if repeatType = "daily" then
    JSDate.setDate.unclipped (JSDate.Zone.fixed tza) next
      (JSDate.getDate (JSDate.Zone.fixed tza) next + 1)
  else if repeatType = "weekly" then
    JSDate.setDate.unclipped (JSDate.Zone.fixed tza) next
      (JSDate.getDate (JSDate.Zone.fixed tza) next + 7)
  else if repeatType = "monthly" then
    JSDate.setMonth.unclipped (JSDate.Zone.fixed tza) next
      (JSDate.getMonth (JSDate.Zone.fixed tza) next + 1)
  else
    next

/-! ## The relational store

The store is the external collaborator reached through `pool.query` and
`client.query`. Its tables are lists of rows in insertion order; the columns are
those the statements in `server.js` name. -/

/-- Row of `characters`. -/
structure Character where
  id : Nat
  user_id : Nat
  name : String
  age : Int
  height_cm : Int
  weight_kg : Int
  hair_style : String
  hair_color : String
  outfit_top : String
  outfit_bottom : String
  outfit_shoes : String
  level : Int
  xp : Int
  updated_at : Int
  deriving DecidableEq, Repr

/-- Row of `quests`. Time stamps are time values in milliseconds. -/
structure Quest where
  id : Nat
  user_id : Nat
  character_id : Option Nat
  title : String
  description : Option String
  xp_reward : Int
  status : String
  due_at : Option Int
  repeat_type : Option String
  repeat_interval : Int
  completed_at : Option Int
  created_at : Int
  updated_at : Int
  deriving DecidableEq, Repr

/-- Row of `quest_steps`. -/
structure QuestStep where
  id : Nat
  quest_id : Nat
  title : String
  is_done : Bool
  order_index : Int
  deriving DecidableEq, Repr

/-- The three tables. -/
structure Db where
  characters : List Character
  quests : List Quest
  quest_steps : List QuestStep
  deriving DecidableEq, Repr

/-- Modelled from the spec: the table definitions are not under `src/`. Ids are
handed out by the store, one generator per table, and are never reused; this is
the next id of `quests` and of `quest_steps`. The generators live outside
transactions (a rollback does not rewind them). -/
structure Seqs where
  quest : Nat
  step : Nat
  deriving DecidableEq, Repr

/-- What a request handler reads from its surroundings: the offset `tza` of the
host's zone from UTC (the handlers are modelled for a host whose zone has a
constant offset), the store clock read by `NOW()`, the process clock read by
`new Date()`, and for each
storage round trip of the request (numbered from 0 in the order they are issued)
whether the store rejects it. -/
structure Env where
  tza : Int
  dbNow : Int
  jsNow : Int
  fail : Nat → Bool

/-- A store connection: the committed tables, the tables as seen inside the open
transaction (if one is open), the id generators, and the number of round trips
issued so far on behalf of the current request. -/
structure Conn where
  committed : Db
  tx : Option Db
  seqs : Seqs
  issued : Nat

/-- The tables a statement on this connection sees. -/
def Conn.view (c : Conn) : Db :=
  match c.tx with
  | some w => w
  | none => c.committed

/-- Where the effect of a statement goes: into the open transaction or, with no
transaction open (autocommit), straight into the committed tables. -/
def Conn.store (c : Conn) (db : Db) : Conn :=
  match c.tx with
  | some _ => { c with tx := some db }
  | none => { c with committed := db }

/-- One `await client.query(...)` / `await pool.query(...)` round trip running the
statement `stmt`. The result `none` stands for a rejected promise, that is an
exception thrown at the `await`; a rejected statement has no effect. -/
def Conn.query {α : Type} (c : Conn) (fail : Nat → Bool)
    (stmt : Db → Seqs → α × Db × Seqs) : Option α × Conn :=
  if fail c.issued then
    (none, { c with issued := c.issued + 1 })
  else
    (some (stmt c.view c.seqs).1,
      { c.store (stmt c.view c.seqs).2.1 with
        seqs := (stmt c.view c.seqs).2.2, issued := c.issued + 1 })

/-- Statement `BEGIN`. -/
def Conn.begin (c : Conn) (fail : Nat → Bool) : Option Unit × Conn :=
  if fail c.issued then
    (none, { c with issued := c.issued + 1 })
  else
    (some (), { c with tx := some c.view, issued := c.issued + 1 })

/-- Statement `COMMIT`. -/
def Conn.commit (c : Conn) (fail : Nat → Bool) : Option Unit × Conn :=
  if fail c.issued then
    (none, { c with issued := c.issued + 1 })
  else
    (some (), { c with committed := c.view, tx := none, issued := c.issued + 1 })

/-- Statement `ROLLBACK`. -/
def Conn.rollback (c : Conn) (fail : Nat → Bool) : Option Unit × Conn :=
  if fail c.issued then
    (none, { c with issued := c.issued + 1 })
  else
    (some (), { c with tx := none, issued := c.issued + 1 })

/-- Sequencing of awaited calls inside one `try` block: a thrown exception
(`none`) skips the rest. -/
def andThen {α β : Type} (r : Option α × Conn) (k : α → Conn → Option β × Conn) :
    Option β × Conn :=
  match r.1 with
  | some a => k a r.2
  | none => (none, r.2)

/-! ### Statements -/

/-- Rows of `SELECT * FROM quests WHERE id = $1 AND user_id = $2`, first row. -/
def selectQuest (questId userId : Nat) (db : Db) : Option Quest :=
  db.quests.find? (fun q => decide (q.id = questId ∧ q.user_id = userId))

/-- Rows of `SELECT * FROM characters WHERE id = $1`, first row (`$1` may be null,
which matches nothing). -/
def selectCharacter (characterId : Option Nat) (db : Db) : Option Character :=
  match characterId with
  | some cid => db.characters.find? (fun ch => decide (ch.id = cid))
  | none => none

/-- Scalar subquery `(SELECT id FROM characters WHERE user_id = $1)`. -/
def characterIdOf (userId : Nat) (db : Db) : Option Nat :=
  (db.characters.find? (fun ch => decide (ch.user_id = userId))).map (fun ch => ch.id)

/-- Statement `UPDATE quests SET status = 'done', completed_at = NOW(),
updated_at = NOW() WHERE id = $1`. -/
def markQuestDone (questId : Nat) (now : Int) (db : Db) : Db :=
  { db with quests := db.quests.map (fun q =>
      if q.id = questId then
        { q with status := "done", completed_at := some now, updated_at := now }
      else q) }

/-- Statement `UPDATE characters SET level = $1, xp = $2, updated_at = NOW()
WHERE id = $3 RETURNING *`: the new tables and the first returned row. -/
def updateCharacterLevel (level xp : Int) (characterId : Nat) (now : Int) (db : Db) :
    Option Character × Db :=
  let db1 := { db with characters := db.characters.map (fun ch =>
      if ch.id = characterId then
        { ch with level := level, xp := xp, updated_at := now }
      else ch) }
  (db1.characters.find? (fun ch => decide (ch.id = characterId)), db1)

/-- Statement `INSERT INTO quests (user_id, character_id, title, description,
xp_reward, status, due_at, repeat_type, repeat_interval) VALUES (...,'active',...)
RETURNING *`. The columns the statement does not list take their defaults, which
follow the data model of the spec (the table definitions are not under `src/`):
the id comes from the generator, `completed_at` is null ("set only on transition
to done") and the created and updated time stamps are `NOW()`. -/
def insertQuest (userId : Nat) (characterId : Option Nat) (title : String)
    (description : Option String) (xpReward : Int) (dueAt : Option Int)
    (repeatType : Option String) (repeatInterval : Int) (now : Int)
    (db : Db) (seqs : Seqs) : Quest × Db × Seqs :=
  let row : Quest :=
    { id := seqs.quest, user_id := userId, character_id := characterId, title := title,
      description := description, xp_reward := xpReward, status := "active",
      due_at := dueAt, repeat_type := repeatType, repeat_interval := repeatInterval,
      completed_at := none, created_at := now, updated_at := now }
  (row, { db with quests := db.quests ++ [row] }, { seqs with quest := seqs.quest + 1 })

/-- Statement `INSERT INTO quest_steps (quest_id, title, is_done, order_index)
VALUES ($1, $2, false, $3) RETURNING *`. -/
def insertStep (questId : Nat) (title : String) (orderIndex : Int)
    (db : Db) (seqs : Seqs) : QuestStep × Db × Seqs :=
  let row : QuestStep :=
    { id := seqs.step, quest_id := questId, title := title, is_done := false,
      order_index := orderIndex }
  (row, { db with quest_steps := db.quest_steps ++ [row] }, { seqs with step := seqs.step + 1 })

/-- Rows of `SELECT * FROM quest_steps WHERE quest_id = $1 ORDER BY order_index`.
Rows with equal `order_index` keep their insertion order. -/
def selectSteps (questId : Nat) (db : Db) : List QuestStep :=
  (db.quest_steps.filter (fun s => decide (s.quest_id = questId))).insertionSort
    (fun a b => a.order_index ≤ b.order_index)

/-- Aggregate `MAX(order_index)` over rows: null for no rows. -/
def maxOrderIndex : List QuestStep → Option Int
  | [] => none
  | s :: rest =>
    match maxOrderIndex rest with
    | none => some s.order_index
    | some m => some (max s.order_index m)

/-- Value of `SELECT COALESCE(MAX(order_index), -1) + 1 as next_index FROM
quest_steps WHERE quest_id = $1`. -/
def nextOrderIndex (questId : Nat) (db : Db) : Int :=
  (match maxOrderIndex (db.quest_steps.filter (fun s => decide (s.quest_id = questId))) with
    | some m => m
    | none => -1) + 1

/-! ## Requests and replies -/

/-- One entry of the `steps` array of a quest-creation body: an object whose
`title`, when present, is a string. -/
structure StepInput where
  title : Option String
  deriving DecidableEq, Repr

/-- JSON body of `POST /api/quests`. A field that is absent (or null) is `none`;
`title`, `description` and `repeat_type` are strings, `xp_reward` and
`repeat_interval` integers; `steps` is `none` when it is absent or not an array;
`due_at` is the time value the store parses from the supplied text. -/
structure QuestPayload where
  title : Option String
  description : Option String
  xp_reward : Option Int
  due_at : Option Int
  repeat_type : Option String
  repeat_interval : Option Int
  steps : Option (List StepInput)
  deriving DecidableEq, Repr

/-- JSON body of `PATCH /api/quests/:id`: for each patchable column, `none` when
the body does not have the field (`req.body[field] === undefined`) and otherwise
the supplied value, which for a nullable column may be null. -/
structure QuestPatch where
  title : Option String
  description : Option (Option String)
  xp_reward : Option Int
  due_at : Option (Option Int)
  repeat_type : Option (Option String)
  repeat_interval : Option Int
  status : Option String
  deriving DecidableEq, Repr

/-- JSON body of `PATCH /api/steps/:id`. -/
structure StepPatch where
  title : Option String
  is_done : Option Bool
  deriving DecidableEq, Repr

/-- Payload of a successful reply (`res.json(...)`). -/
inductive Reply where
  | items (rows : List (Quest × List QuestStep))
  | quest (quest : Quest)
  | step (step : QuestStep)
  | ok
  | completed (quest : Quest) (character : Option Character) (nextQuest : Option Quest)
  deriving DecidableEq, Repr

/-- What the client receives: a payload, or `jsonError(res, status, code, message)`. -/
inductive Response where
  | ok (reply : Reply)
  | error (status : Nat) (code : String) (message : String)
  deriving DecidableEq, Repr

/-- JavaScript truthiness of a value that is a string, null or undefined. -/
def truthy (v : Option String) : Bool :=
  match v with
  | some s => decide (s ≠ "")
  | none => false

/-- The characters `String.prototype.trim` strips: ECMAScript WhiteSpace and
LineTerminator code points. -/
def isJsWhiteSpace (ch : Char) : Bool :=
  ch.val = 0x09 || ch.val = 0x0A || ch.val = 0x0B || ch.val = 0x0C || ch.val = 0x0D ||
  ch.val = 0x20 || ch.val = 0xA0 || ch.val = 0x1680 ||
  (0x2000 ≤ ch.val && ch.val ≤ 0x200A) ||
  ch.val = 0x2028 || ch.val = 0x2029 || ch.val = 0x202F || ch.val = 0x205F ||
  ch.val = 0x3000 || ch.val = 0xFEFF

/-- The test `s.trim().length === 0`: every character of `s` is stripped. -/
def trimmedIsEmpty (s : String) : Bool := s.data.all isJsWhiteSpace

/-- Statement block `try { body } catch (error) { return jsonError(res, ...) }` of
the handlers that use `pool.query`: a thrown exception becomes the error reply. -/
def tryCatch (body : Option Response × Conn) (onError : Response) : Option Response × Conn :=
  match body.1 with
  | some response => (some response, body.2)
  | none => (some onError, body.2)

/-- Statement block `try { body } catch (error) { await client.query('ROLLBACK');
return jsonError(res, ...) }` of the transactional handlers. When the `ROLLBACK`
itself is rejected the exception leaves the handler and no reply is sent. -/
def tryCatchRollback (fail : Nat → Bool) (body : Option Response × Conn) (onError : Response) :
    Option Response × Conn :=
  match body.1 with
  | some response => (some response, body.2)
  | none => andThen (body.2.rollback fail) fun _ c => (some onError, c)

/-! ## Quest validation and creation (server.js 309-375) -/

/-- Function `validateQuestPayload(body)`: the error message, or `none` for null. -/
def validateQuestPayload (body : QuestPayload) : Option String :=
  if !truthy body.title || trimmedIsEmpty (body.title.getD "") then
    some "title is required"
  else
    let xpValue : Int := body.xp_reward.getD 10
    if xpValue < 1 ∨ xpValue > 1000 then
      some "xp_reward must be between 1 and 1000"
    else
      let repeatType : String := if truthy body.repeat_type then body.repeat_type.getD "" else "none"
      if !(["none", "daily", "weekly", "monthly"].contains repeatType) then
        some "Invalid repeat_type"
      else
        none

/-- The `for (const step of steps)` loop of quest creation: entries with a falsy
title are skipped (`continue`) without advancing `index`. -/
def createQuest.insertSteps (fail : Nat → Bool) (questId : Nat) :
    List StepInput → Int → Conn → Option Unit × Conn
  | [], _, c => (some (), c)
  | step :: rest, index, c =>
    if !truthy step.title then
      createQuest.insertSteps fail questId rest index c
    else
      andThen (c.query fail (fun db s =>
        ((), (insertStep questId (step.title.getD "") index db s).2)))
      fun _ c => createQuest.insertSteps fail questId rest (index + 1) c

/-- The `try` block of `POST /api/quests`. -/
def createQuest.body (env : Env) (userId : Nat) (body : QuestPayload) (c : Conn) :
    Option Response × Conn :=
  andThen (c.begin env.fail) fun _ c =>
  andThen (c.query env.fail (fun db s =>
    insertQuest userId (characterIdOf userId db) (body.title.getD "")
      (if truthy body.description then body.description else none)
      (body.xp_reward.getD 10)
      body.due_at
      (some (if truthy body.repeat_type then body.repeat_type.getD "" else "none"))
      (body.repeat_interval.getD 1)
      env.dbNow db s))
  fun quest c =>
  andThen
    (match body.steps with
     | some steps =>
       if steps.length > 0 then createQuest.insertSteps env.fail quest.id steps 0 c
       else (some (), c)
     | none => (some (), c))
  fun _ c =>
  andThen (c.commit env.fail) fun _ c =>
  (some (Response.ok (Reply.quest quest)), c)

/-- Handler of `POST /api/quests`. The result `none` means the handler threw
without sending a reply. -/
def createQuest (env : Env) (userId : Nat) (body : QuestPayload) (c : Conn) :
    Option Response × Conn :=
  match validateQuestPayload body with
  | some errorMessage => (some (Response.error 400 "validation_error" errorMessage), c)
  | none =>
    tryCatchRollback env.fail (createQuest.body env userId body c)
      (Response.error 500 "server_error" "Failed to create quest")

/-! ## Quest list, patch and delete (server.js 287-307, 377-422) -/

/-- Rows of the query of `GET /api/quests`: the user's quests of the given status,
newest first, each with its steps in `order_index` order. -/
def selectQuestsWithSteps (userId : Nat) (status : String) (db : Db) :
    List (Quest × List QuestStep) :=
  ((db.quests.filter (fun q => decide (q.user_id = userId ∧ q.status = status))).insertionSort
    (fun a b => b.created_at ≤ a.created_at)).map (fun q => (q, selectSteps q.id db))

/-- Handler of `GET /api/quests`; `status` is `req.query.status`. -/
def listQuests (env : Env) (userId : Nat) (status : Option String) (c : Conn) :
    Option Response × Conn :=
  let status : String := if truthy status then status.getD "" else "active"
  if !(["active", "done"].contains status) then
    (some (Response.error 400 "validation_error" "Invalid status"), c)
  else
    tryCatch
      (andThen (c.query env.fail (fun db s => (selectQuestsWithSteps userId status db, db, s)))
        fun rows c => (some (Response.ok (Reply.items rows)), c))
      (Response.error 500 "server_error" "Failed to load quests")

/-- The test `req.body[field] !== undefined` of the quest patch loop. -/
def QuestPatch.supplied (body : QuestPatch) (field : String) : Bool :=
  if field = "title" then body.title.isSome
  else if field = "description" then body.description.isSome
  else if field = "xp_reward" then body.xp_reward.isSome
  else if field = "due_at" then body.due_at.isSome
  else if field = "repeat_type" then body.repeat_type.isSome
  else if field = "repeat_interval" then body.repeat_interval.isSome
  else if field = "status" then body.status.isSome
  else false

/-- The `updates` array built by the quest patch loop (the columns to assign). -/
def QuestPatch.updates (body : QuestPatch) : List String :=
  ["title", "description", "xp_reward", "due_at", "repeat_type", "repeat_interval",
    "status"].filter body.supplied

/-- The `SET` clause of the quest patch applied to one row: the supplied columns
and `updated_at = NOW()`. -/
def QuestPatch.apply (body : QuestPatch) (now : Int) (q : Quest) : Quest :=
  { q with
    title := body.title.getD q.title
    description := body.description.getD q.description
    xp_reward := body.xp_reward.getD q.xp_reward
    due_at := body.due_at.getD q.due_at
    repeat_type := body.repeat_type.getD q.repeat_type
    repeat_interval := body.repeat_interval.getD q.repeat_interval
    status := body.status.getD q.status
    updated_at := now }

/-- Statement `UPDATE quests SET ..., updated_at = NOW() WHERE id = $1 AND
user_id = $2 RETURNING *`: first returned row and new tables. -/
def updateQuest (questId userId : Nat) (body : QuestPatch) (now : Int) (db : Db) :
    Option Quest × Db :=
  (((db.quests.filter (fun q => decide (q.id = questId ∧ q.user_id = userId))).map
      (body.apply now)).head?,
    { db with quests := db.quests.map (fun q =>
        if q.id = questId ∧ q.user_id = userId then body.apply now q else q) })

/-- Handler of `PATCH /api/quests/:id`. -/
def patchQuest (env : Env) (userId questId : Nat) (body : QuestPatch) (c : Conn) :
    Option Response × Conn :=
  if body.updates.length = 0 then
    (some (Response.error 400 "validation_error" "No fields to update"), c)
  else
    tryCatch
      (andThen (c.query env.fail (fun db s =>
          ((updateQuest questId userId body env.dbNow db).1,
            (updateQuest questId userId body env.dbNow db).2, s)))
        fun row c =>
          match row with
          | none => (some (Response.error 404 "not_found" "Quest not found"), c)
          | some quest => (some (Response.ok (Reply.quest quest)), c))
      (Response.error 500 "server_error" "Failed to update quest")

/-- Modelled from the spec: the table definitions are not under `src/`. The spec
states that deleting a quest deletes its steps "as a storage-layer constraint", so
the steps that refer to a deleted quest go with it. -/
def cascadeDeleteSteps (questId : Nat) (steps : List QuestStep) : List QuestStep :=
  steps.filter (fun s => !decide (s.quest_id = questId))

/-- Statement `DELETE FROM quests WHERE id = $1 AND user_id = $2 RETURNING id`:
first returned id and new tables. -/
def deleteQuestRow (questId userId : Nat) (db : Db) : Option Nat × Db :=
  match selectQuest questId userId db with
  | none => (none, db)
  | some _ =>
    (some questId,
      { db with
        quests := db.quests.filter (fun q => !decide (q.id = questId ∧ q.user_id = userId))
        quest_steps := cascadeDeleteSteps questId db.quest_steps })

/-- Handler of `DELETE /api/quests/:id`. -/
def deleteQuest (env : Env) (userId questId : Nat) (c : Conn) : Option Response × Conn :=
  tryCatch
    (andThen (c.query env.fail (fun db s =>
        ((deleteQuestRow questId userId db).1, (deleteQuestRow questId userId db).2, s)))
      fun row c =>
        match row with
        | none => (some (Response.error 404 "not_found" "Quest not found"), c)
        | some _ => (some (Response.ok Reply.ok), c))
    (Response.error 500 "server_error" "Failed to delete quest")

/-! ## Quest completion (server.js 452-540) -/

/-- The `for (const step of stepsResult.rows)` loop: one insert per step of the
completed quest, numbered from `index`. -/
def completeQuest.cloneSteps (fail : Nat → Bool) (nextQuestId : Nat) :
    List QuestStep → Int → Conn → Option Unit × Conn
  | [], _, c => (some (), c)
  | step :: rest, index, c =>
    andThen (c.query fail (fun db s => ((), (insertStep nextQuestId step.title index db s).2)))
    fun _ c => completeQuest.cloneSteps fail nextQuestId rest (index + 1) c

/-- The block `let nextQuest = null; if (quest.repeat_type && quest.repeat_type !==
'none') { ... }`: the value of `nextQuest` afterwards. -/
def completeQuest.spawnNext (env : Env) (questId : Nat) (quest : Quest) (c : Conn) :
    Option (Option Quest) × Conn :=
  if truthy quest.repeat_type && decide (quest.repeat_type ≠ some "none") then
    andThen (c.query env.fail (fun db s =>
      insertQuest quest.user_id quest.character_id quest.title quest.description
        quest.xp_reward
        (some (computeNextDueAt.fixedOffset env.tza env.jsNow quest.due_at (quest.repeat_type.getD "")))
        quest.repeat_type quest.repeat_interval env.dbNow db s))
    fun nextQuest c =>
    andThen (c.query env.fail (fun db s => (selectSteps questId db, db, s)))
    fun steps c =>
    andThen (completeQuest.cloneSteps env.fail nextQuest.id steps 0 c)
    fun _ c => (some (some nextQuest), c)
  else
    (some none, c)

/-- The `try` block of `POST /api/quests/:id/complete`. -/
def completeQuest.body (env : Env) (userId questId : Nat) (c : Conn) :
    Option Response × Conn :=
  andThen (c.begin env.fail) fun _ c =>
  andThen (c.query env.fail (fun db s => (selectQuest questId userId db, db, s)))
  fun questRow c =>
  match questRow with
  | none =>
    andThen (c.rollback env.fail) fun _ c =>
    (some (Response.error 404 "not_found" "Quest not found"), c)
  | some quest =>
    if quest.status = "done" then
      andThen (c.rollback env.fail) fun _ c =>
      (some (Response.error 400 "validation_error" "Quest already completed"), c)
    else
      andThen (c.query env.fail (fun db s => ((), markQuestDone questId env.dbNow db, s)))
      fun _ c =>
      andThen (c.query env.fail (fun db s => (selectCharacter quest.character_id db, db, s)))
      fun characterRow c =>
      match characterRow with
      | none =>
        andThen (c.rollback env.fail) fun _ c =>
        (some (Response.error 400 "validation_error" "Character not found for quest"), c)
      | some character =>
        andThen (c.query env.fail (fun db s =>
          ((updateCharacterLevel
              (calculateLevel { level := character.level, xp := character.xp }
                quest.xp_reward).level
              (calculateLevel { level := character.level, xp := character.xp }
                quest.xp_reward).xp
              character.id env.dbNow db).1,
            (updateCharacterLevel
              (calculateLevel { level := character.level, xp := character.xp }
                quest.xp_reward).level
              (calculateLevel { level := character.level, xp := character.xp }
                quest.xp_reward).xp
              character.id env.dbNow db).2, s)))
        fun characterUpdate c =>
        andThen (completeQuest.spawnNext env questId quest c)
        fun nextQuest c =>
        andThen (c.commit env.fail) fun _ c =>
        (some (Response.ok (Reply.completed
          { quest with status := "done", completed_at := some env.jsNow }
          characterUpdate nextQuest)), c)

/-- Handler of `POST /api/quests/:id/complete`. -/
def completeQuest (env : Env) (userId questId : Nat) (c : Conn) : Option Response × Conn :=
  tryCatchRollback env.fail (completeQuest.body env userId questId c)
    (Response.error 500 "server_error" "Failed to complete quest")

/-! ## Steps (server.js 542-616) -/

/-- Handler of `POST /api/quests/:id/steps`; `title` is `req.body.title`. -/
def addStep (env : Env) (userId questId : Nat) (title : Option String) (c : Conn) :
    Option Response × Conn :=
  if !truthy title then
    (some (Response.error 400 "validation_error" "title is required"), c)
  else
    tryCatch
      (andThen (c.query env.fail (fun db s => (selectQuest questId userId db, db, s)))
        fun quest c =>
        match quest with
        | none => (some (Response.error 404 "not_found" "Quest not found"), c)
        | some _ =>
          andThen (c.query env.fail (fun db s => (nextOrderIndex questId db, db, s)))
          fun orderIndex c =>
          andThen (c.query env.fail (insertStep questId (title.getD "") orderIndex))
          fun step c => (some (Response.ok (Reply.step step)), c))
      (Response.error 500 "server_error" "Failed to create step")

/-- The test `req.body[field] !== undefined` of the step patch loop. -/
def StepPatch.supplied (body : StepPatch) (field : String) : Bool :=
  if field = "title" then body.title.isSome
  else if field = "is_done" then body.is_done.isSome
  else false

/-- The `updates` array built by the step patch loop. -/
def StepPatch.updates (body : StepPatch) : List String :=
  ["title", "is_done"].filter body.supplied

/-- The `SET` clause of the step patch applied to one row. -/
def StepPatch.apply (body : StepPatch) (s : QuestStep) : QuestStep :=
  { s with
    title := body.title.getD s.title
    is_done := body.is_done.getD s.is_done }

/-- The row filter `id = $1 AND quest_id IN (SELECT id FROM quests WHERE user_id =
$2)` of the step statements. -/
def stepOwned (stepId userId : Nat) (db : Db) (s : QuestStep) : Bool :=
  decide (s.id = stepId) &&
    (db.quests.filter (fun q => decide (q.user_id = userId))).any
      (fun q => decide (q.id = s.quest_id))

/-- Statement `UPDATE quest_steps SET ... WHERE id = $1 AND quest_id IN (SELECT id
FROM quests WHERE user_id = $2) RETURNING *`. -/
def updateStep (stepId userId : Nat) (body : StepPatch) (db : Db) : Option QuestStep × Db :=
  (((db.quest_steps.filter (stepOwned stepId userId db)).map body.apply).head?,
    { db with quest_steps := db.quest_steps.map (fun s =>
        if stepOwned stepId userId db s then body.apply s else s) })

/-- Handler of `PATCH /api/steps/:id`. -/
def patchStep (env : Env) (userId stepId : Nat) (body : StepPatch) (c : Conn) :
    Option Response × Conn :=
  if body.updates.length = 0 then
    (some (Response.error 400 "validation_error" "No fields to update"), c)
  else
    tryCatch
      (andThen (c.query env.fail (fun db s =>
          ((updateStep stepId userId body db).1, (updateStep stepId userId body db).2, s)))
        fun row c =>
          match row with
          | none => (some (Response.error 404 "not_found" "Step not found"), c)
          | some step => (some (Response.ok (Reply.step step)), c))
      (Response.error 500 "server_error" "Failed to update step")

/-- Statement `DELETE FROM quest_steps WHERE id = $1 AND quest_id IN (SELECT id FROM
quests WHERE user_id = $2) RETURNING id`. -/
def deleteStepRow (stepId userId : Nat) (db : Db) : Option Nat × Db :=
  (((db.quest_steps.filter (stepOwned stepId userId db)).map (fun s => s.id)).head?,
    { db with quest_steps := db.quest_steps.filter (fun s => !stepOwned stepId userId db s) })

/-- Handler of `DELETE /api/steps/:id`. -/
def deleteStep (env : Env) (userId stepId : Nat) (c : Conn) : Option Response × Conn :=
  tryCatch
    (andThen (c.query env.fail (fun db s =>
        ((deleteStepRow stepId userId db).1, (deleteStepRow stepId userId db).2, s)))
      fun row c =>
        match row with
        | none => (some (Response.error 404 "not_found" "Step not found"), c)
        | some _ => (some (Response.ok Reply.ok), c))
    (Response.error 500 "server_error" "Failed to delete step")

/-! ## The server: one request at a time -/

/-- The state between requests: the committed tables and the id generators. -/
structure Server where
  db : Db
  seqs : Seqs
  deriving DecidableEq, Repr

/-- Taking a connection (`pool.connect()` or the implicit one of `pool.query`):
no transaction open, no round trip issued yet. -/
def Server.connect (s : Server) : Conn :=
  { committed := s.db, tx := none, seqs := s.seqs, issued := 0 }

/-- Giving the connection back. A transaction that was left open is never
committed. -/
def Conn.release (c : Conn) : Server := { db := c.committed, seqs := c.seqs }

/-- The routes of the quest and step surface, with the authenticated user
(`req.userId`) and the route and body parameters. -/
inductive Request where
  | listQuests (userId : Nat) (status : Option String)
  | createQuest (userId : Nat) (body : QuestPayload)
  | patchQuest (userId questId : Nat) (body : QuestPatch)
  | deleteQuest (userId questId : Nat)
  | completeQuest (userId questId : Nat)
  | addStep (userId questId : Nat) (title : Option String)
  | patchStep (userId stepId : Nat) (body : StepPatch)
  | deleteStep (userId stepId : Nat)
  deriving DecidableEq, Repr

/-- Dispatch of a request to its handler on a connection. -/
def Request.run (env : Env) (c : Conn) : Request → Option Response × Conn
  | Request.listQuests userId status => GameLive.listQuests env userId status c
  | Request.createQuest userId body => GameLive.createQuest env userId body c
  | Request.patchQuest userId questId body => GameLive.patchQuest env userId questId body c
  | Request.deleteQuest userId questId => GameLive.deleteQuest env userId questId c
  | Request.completeQuest userId questId => GameLive.completeQuest env userId questId c
  | Request.addStep userId questId title => GameLive.addStep env userId questId title c
  | Request.patchStep userId stepId body => GameLive.patchStep env userId stepId body c
  | Request.deleteStep userId stepId => GameLive.deleteStep env userId stepId c

/-- Serving one request: the reply (`none` when the handler threw without
replying) and the state afterwards. -/
def handle (env : Env) (req : Request) (s : Server) : Option Response × Server :=
  ((req.run env s.connect).1, (req.run env s.connect).2.release)

/-- The server with empty tables. -/
def Server.empty : Server :=
  { db := { characters := [], quests := [], quest_steps := [] }, seqs := { quest := 1, step := 1 } }

/-- States reachable from `s0` by serving requests that satisfy `allow`, under any
storage failures and clock readings. -/
inductive ReachableBy (allow : Request → Prop) (s0 : Server) : Server → Prop where
  | init : ReachableBy allow s0 s0
  | step {s : Server} (env : Env) (req : Request) :
      allow req → ReachableBy allow s0 s → ReachableBy allow s0 (handle env req s).2

/-- States reachable from `s0` by serving any requests. -/
def Reachable (s0 s : Server) : Prop := ReachableBy (fun _ => True) s0 s

/-! ## Vocabulary of the statements -/

/-- What the store's keys guarantee: ids are unique within each table and every id
in use, and every quest a step refers to, was handed out by a generator. -/
def Server.WF (s : Server) : Prop :=
  (s.db.quests.map (fun q => q.id)).Nodup ∧
  (∀ q ∈ s.db.quests, q.id < s.seqs.quest) ∧
  (s.db.quest_steps.map (fun st => st.id)).Nodup ∧
  (∀ st ∈ s.db.quest_steps, st.id < s.seqs.step ∧ st.quest_id < s.seqs.quest) ∧
  (s.db.characters.map (fun ch => ch.id)).Nodup

instance (s : Server) : Decidable s.WF := by
  unfold Server.WF; infer_instance

/-- The rows `INSERT INTO quest_steps` produces for the titles `titles` in turn:
ids from `firstId`, order indices from `index`, none done. -/
def numberedSteps (questId firstId : Nat) (index : Int) : List String → List QuestStep
  | [] => []
  | title :: rest =>
    { id := firstId, quest_id := questId, title := title, is_done := false,
      order_index := index } :: numberedSteps questId (firstId + 1) (index + 1) rest

/-- The steps of a quest, in table order. -/
def stepsOf (questId : Nat) (db : Db) : List QuestStep :=
  db.quest_steps.filter (fun s => decide (s.quest_id = questId))

/-- No two steps of one quest have the same order index. -/
def OrderIndexUnique (db : Db) : Prop :=
  db.quest_steps.Pairwise (fun a b => a.quest_id = b.quest_id → a.order_index ≠ b.order_index)

/-- The order indices of each quest's steps are exactly `0, ..., n - 1`. -/
def OrderIndexDense (db : Db) : Prop :=
  ∀ questId : Nat, ∀ i : Int,
    (0 ≤ i ∧ i < (stepsOf questId db).length) ↔
      ∃ st ∈ stepsOf questId db, st.order_index = i

/-- The connection `c` is inside a transaction begun on the committed tables `cm`. -/
def Conn.InTx (cm : Db) (c : Conn) : Prop := c.committed = cm ∧ c.tx.isSome = true

/-- A handler outcome that leaves the committed tables `cm` alone unless it
replies with success; an error reply comes with no transaction left open. -/
def Unchanged (cm : Db) (out : Option Response × Conn) : Prop :=
  match out.1 with
  | none => out.2.committed = cm
  | some (Response.error _ _ _) => out.2.committed = cm ∧ out.2.tx = none
  | some (Response.ok _) => True

/-- The successor row a repeating quest spawns on completion, for the id `id`. -/
def successorOf (env : Env) (quest : Quest) (id : Nat) : Quest :=
  { id := id, user_id := quest.user_id, character_id := quest.character_id,
    title := quest.title, description := quest.description, xp_reward := quest.xp_reward,
    status := "active",
    due_at := some (computeNextDueAt.fixedOffset env.tza env.jsNow quest.due_at (quest.repeat_type.getD "")),
    repeat_type := quest.repeat_type, repeat_interval := quest.repeat_interval,
    completed_at := none, created_at := env.dbNow, updated_at := env.dbNow }

/-- The character rows after awarding `earnedXp` to the character `character`. -/
def awardXp (character : Character) (earnedXp : Int) (now : Int) (rows : List Character) :
    List Character :=
  rows.map (fun ch =>
    if ch.id = character.id then
      { ch with
        level := (calculateLevel { level := character.level, xp := character.xp } earnedXp).level
        xp := (calculateLevel { level := character.level, xp := character.xp } earnedXp).xp
        updated_at := now }
    else ch)

/-- The condition `quest.repeat_type && quest.repeat_type !== 'none'`. -/
def repeats (quest : Quest) : Bool :=
  truthy quest.repeat_type && decide (quest.repeat_type ≠ some "none")

/-- The titles quest creation inserts for the `steps` array: those of the entries
with a truthy title, in order. -/
def keptTitles (steps : List StepInput) : List String :=
  (steps.filter (fun e => truthy e.title)).map (fun e => e.title.getD "")

/-- The state `s2` has the tables of `s`, and its id generators have not gone
back: what a request leaves behind when it commits nothing. -/
def Server.KeptBy (s s2 : Server) : Prop :=
  s2.db = s.db ∧ s.seqs.quest ≤ s2.seqs.quest ∧ s.seqs.step ≤ s2.seqs.step

/-- The row quest creation inserts for the body `body` in the state `s`. -/
def createdQuest (env : Env) (userId : Nat) (body : QuestPayload) (s : Server) : Quest :=
  (insertQuest userId (characterIdOf userId s.db) (body.title.getD "")
    (if truthy body.description then body.description else none)
    (body.xp_reward.getD 10) body.due_at
    (some (if truthy body.repeat_type then body.repeat_type.getD "" else "none"))
    (body.repeat_interval.getD 1) env.dbNow s.db s.seqs).1

/-- The part of the store's shape that the numbering of steps relies on: quests and
the quests of steps have ids below the generator, order indices are not negative
and are unique within a quest. -/
def Server.StepsNumbered (s : Server) : Prop :=
  (∀ q ∈ s.db.quests, q.id < s.seqs.quest) ∧
  (∀ st ∈ s.db.quest_steps, st.quest_id < s.seqs.quest ∧ 0 ≤ st.order_index) ∧
  OrderIndexUnique s.db

/-- The steps of every quest carry, in table order, the order indices
`0, 1, ..., n - 1`. -/
def Server.StepsInOrder (s : Server) : Prop :=
  (∀ q ∈ s.db.quests, q.id < s.seqs.quest) ∧
  (∀ st ∈ s.db.quest_steps, st.quest_id < s.seqs.quest) ∧
  ∀ questId : Nat,
    (stepsOf questId s.db).map (fun st => st.order_index)
      = (List.range (stepsOf questId s.db).length).map (fun i : Nat => (i : Int))

/-- Requests other than `DELETE /api/steps/:id`. -/
def Request.keepsSteps : Request → Prop
  | Request.deleteStep _ _ => False
  | _ => True

/-! ## Concrete inputs used by the examples -/

/-- An environment in which no storage round trip is rejected. -/
def exEnv : Env := { tza := 0, dbNow := 1000, jsNow := 2000, fail := fun _ => false }

/-- An environment in which the fifth round trip of a request (for completion:
the character update) is rejected. -/
def exEnvFail : Env := { tza := 0, dbNow := 1000, jsNow := 2000, fail := fun k => decide (k = 4) }

/-- A character of user 7 at level 1 with no xp. -/
def exCharacter : Character :=
  { id := 1, user_id := 7, name := "Ada", age := 30, height_cm := 170, weight_kg := 60,
    hair_style := "hair_01", hair_color := "hair_02", outfit_top := "top_01",
    outfit_bottom := "bottom_01", outfit_shoes := "shoes_01", level := 1, xp := 0,
    updated_at := 0 }

/-- An active daily quest of user 7 due at the end of 1970-01-02 (UTC). -/
def exQuest : Quest :=
  { id := 1, user_id := 7, character_id := some 1, title := "Run", description := none,
    xp_reward := 250, status := "active", due_at := some 86400000,
    repeat_type := some "daily", repeat_interval := 1, completed_at := none,
    created_at := 0, updated_at := 0 }

/-- A store with `exCharacter`, `exQuest` and two steps of that quest, stored out
of order and one of them done. -/
def exServer : Server :=
  { db :=
      { characters := [exCharacter]
        quests := [exQuest]
        quest_steps :=
          [{ id := 1, quest_id := 1, title := "stretch", is_done := true, order_index := 5 },
           { id := 2, quest_id := 1, title := "warm up", is_done := false, order_index := 2 }] }
    seqs := { quest := 2, step := 3 } }

/-- A store with `exCharacter` and no quests. -/
def exStart : Server :=
  { db := { characters := [exCharacter], quests := [], quest_steps := [] },
    seqs := { quest := 1, step := 1 } }

/-- A quest patch that supplies nothing. -/
def QuestPatch.empty : QuestPatch :=
  { title := none, description := none, xp_reward := none,
    due_at := none, repeat_type := none, repeat_interval := none,
    status := none }

/-- A creation body with the steps `a`, an empty title and `b`. -/
def exPayload : QuestPayload :=
  { title := some "Read", description := none, xp_reward := none, due_at := none,
    repeat_type := none, repeat_interval := none,
    steps := some [{ title := some "a" }, { title := some "" }, { title := some "b" }] }

/-- The store `exServer` after user 7 patched the repeat type of quest 1 to the
empty string. -/
def exBlankRepeat : Server :=
  (handle exEnv (Request.patchQuest 7 1
    { QuestPatch.empty with repeat_type := some (some "") }) exServer).2

/-- The store `exServer` after quest 1 was completed by its owner. -/
def exCompleted : Server := (handle exEnv (Request.completeQuest 7 1) exServer).2

/-- A store with one done quest of user 7 and no steps. -/
def exDone : Server :=
  { db := { characters := [exCharacter],
            quests := [{ exQuest with status := "done", completed_at := some 500 }],
            quest_steps := [] },
    seqs := { quest := 2, step := 1 } }

/-- A creation body with the three steps `a`, `b`, `c`. -/
def exPayloadThree : QuestPayload :=
  { title := some "Read", description := none, xp_reward := none, due_at := none,
    repeat_type := none, repeat_interval := none,
    steps := some [{ title := some "a" }, { title := some "b" }, { title := some "c" }] }

/-- The store `exStart` after user 7 created a quest with the steps `a`, `b`, `c`. -/
def exThreeSteps : Server := (handle exEnv (Request.createQuest 7 exPayloadThree) exStart).2

/-- The store `exThreeSteps` after user 7 deleted the middle step (id 2). -/
def exGap : Server := (handle exEnv (Request.deleteStep 7 2) exThreeSteps).2

/-- The offsets of the zone America/New_York in 2024 (standard time before and
after): five hours behind UTC, and four hours from 2024-03-10T07:00Z until
2024-11-03T06:00Z; on the local clock that is from 03:00 on March 10th until 02:00
on November 3rd, the hour skipped in March and the hour repeated in November
taking the offset before the change. -/
def exEastern : JSDate.Zone :=
  { offsetAtUtc := fun t =>
      if 1710054000000 ≤ t ∧ t < 1730613600000 then -14400000 else -18000000
    offsetAtLocal := fun t =>
      if 1710039600000 ≤ t ∧ t < 1730599200000 then -14400000 else -18000000 }

/-! ## Vocabulary of the quest field rules -/

/-- Method `String.prototype.trim`: the string without its leading and trailing
white space and line terminators. -/
def jsTrim (s : String) : String :=
  String.mk ((s.data.dropWhile isJsWhiteSpace).reverse.dropWhile isJsWhiteSpace).reverse

/-- Rule "title non-empty": the body has a title that is non-empty after trimming. -/
def QuestPayload.titleOk (body : QuestPayload) : Prop :=
  ∃ t, body.title = some t ∧ jsTrim t ≠ ""

/-- Rule "xp_reward in [1,1000]", with 10 taken for an omitted value. -/
def QuestPayload.xpOk (body : QuestPayload) : Prop :=
  1 ≤ body.xp_reward.getD 10 ∧ body.xp_reward.getD 10 ≤ 1000

/-- Rule "repeat_type is one of none, daily, weekly, monthly", with `none` taken
for an omitted value. -/
def QuestPayload.repeatOk (body : QuestPayload) : Prop :=
  body.repeat_type.getD "none" ∈ ["none", "daily", "weekly", "monthly"]

/-- The repeat type of a body with `none` taken for a value that is omitted or is
the empty string. -/
def QuestPayload.repeatOrNone (body : QuestPayload) : String :=
  match body.repeat_type with
  | none => "none"
  | some r => if r = "" then "none" else r

/-- Rule "repeat_type is one of none, daily, weekly, monthly", with `none` taken
for a value that is omitted or is the empty string. -/
def QuestPayload.repeatOkOrBlank (body : QuestPayload) : Prop :=
  body.repeatOrNone ∈ ["none", "daily", "weekly", "monthly"]

/-- A creation body whose repeat type is the empty string. -/
def exBlankRepeatPayload : QuestPayload :=
  { title := some "Read", description := none, xp_reward := none, due_at := none,
    repeat_type := some "", repeat_interval := none, steps := none }

/-- A creation body that breaks the xp rule and the repeat rule, with one step. -/
def exZeroXp : QuestPayload :=
  { title := some " Read ", description := none, xp_reward := some 0, due_at := none,
    repeat_type := some "hourly", repeat_interval := none, steps := some [{ title := some "a" }] }

/-! ## Vocabulary of ownership -/

/-- The authenticated user of a request (`req.userId`). -/
def Request.userId : Request → Nat
  | Request.listQuests userId _ => userId
  | Request.createQuest userId _ => userId
  | Request.patchQuest userId _ _ => userId
  | Request.deleteQuest userId _ => userId
  | Request.completeQuest userId _ => userId
  | Request.addStep userId _ _ => userId
  | Request.patchStep userId _ _ => userId
  | Request.deleteStep userId _ => userId

/-- The requests that may insert a row, which then takes its id from the store's
generators: quest creation, completion (the successor and its steps) and adding
a step. -/
def Request.inserts : Request → Prop
  | Request.createQuest _ _ => True
  | Request.completeQuest _ _ => True
  | Request.addStep _ _ _ => True
  | _ => False

/-- The step `st` is owned by `userId`: a step is owned through its parent quest,
so its quest id is among `SELECT id FROM quests WHERE user_id = userId`. -/
def stepOfUser (userId : Nat) (db : Db) (st : QuestStep) : Bool :=
  (db.quests.filter (fun q => decide (q.user_id = userId))).any
    (fun q => decide (q.id = st.quest_id))

/-- The rows owned by `userId`, in table order: the user's characters, the user's
quests and the steps of the user's quests. -/
def rowsOf (userId : Nat) (db : Db) : Db :=
  { characters := db.characters.filter (fun ch => decide (ch.user_id = userId))
    quests := db.quests.filter (fun q => decide (q.user_id = userId))
    quest_steps := db.quest_steps.filter (stepOfUser userId db) }

/-- Each quest's character belongs to the quest's user. -/
def CharactersOwned (db : Db) : Prop :=
  ∀ q ∈ db.quests, ∀ ch ∈ db.characters, q.character_id = some ch.id → ch.user_id = q.user_id

/-- A character of user 8. -/
def exCharacterB : Character :=
  { id := 2, user_id := 8, name := "Bob", age := 41, height_cm := 180, weight_kg := 80,
    hair_style := "hair_03", hair_color := "hair_01", outfit_top := "top_02",
    outfit_bottom := "bottom_02", outfit_shoes := "shoes_02", level := 4, xp := 20,
    updated_at := 0 }

/-- An active weekly quest of user 8. -/
def exQuestB : Quest :=
  { id := 2, user_id := 8, character_id := some 2, title := "Swim", description := none,
    xp_reward := 40, status := "active", due_at := none,
    repeat_type := some "weekly", repeat_interval := 1, completed_at := none,
    created_at := 5, updated_at := 5 }

/-- The store `exServer` of user 7 together with a character, a quest and a step
of user 8. -/
def exTwoUsers : Server :=
  { db :=
      { characters := [exCharacter, exCharacterB]
        quests := [exQuest, exQuestB]
        quest_steps :=
          [{ id := 1, quest_id := 1, title := "stretch", is_done := true, order_index := 5 },
           { id := 3, quest_id := 2, title := "goggles", is_done := false, order_index := 0 },
           { id := 2, quest_id := 1, title := "warm up", is_done := false, order_index := 2 }] }
    seqs := { quest := 3, step := 4 } }

/-- A store with the rows of user 7 of `exTwoUsers` in which user 8 has another
character and no quests. -/
def exTwoUsersOther : Server :=
  { db :=
      { characters := [{ exCharacterB with level := 9, xp := 1 }, exCharacter]
        quests := [exQuest]
        quest_steps :=
          [{ id := 1, quest_id := 1, title := "stretch", is_done := true, order_index := 5 },
           { id := 2, quest_id := 1, title := "warm up", is_done := false, order_index := 2 }] }
    seqs := { quest := 3, step := 4 } }

/-- The store `exStart` of user 7 together with the character and the quest of
user 8; the quest id generator has handed out two more ids than in `exStart`. -/
def exStartOther : Server :=
  { db := { characters := [exCharacter, exCharacterB], quests := [exQuestB], quest_steps := [] },
    seqs := { quest := 3, step := 1 } }

/-- Two connections at the same point of a request: the same number of round
trips issued, the same id generators, and tables related by `R`. -/
def Conn.Rel (R : Db → Db → Prop) (c1 c2 : Conn) : Prop :=
  c1.issued = c2.issued ∧ c1.seqs = c2.seqs ∧ R c1.view c2.view

/-- Two outcomes of a handler fragment that returned the same value (or both
threw) after the same number of round trips, and, when a value `a` was returned,
left connections related by `R a`. -/
def OutRel {α : Type} (R : α → Db → Db → Prop) (o1 o2 : Option α × Conn) : Prop :=
  o1.1 = o2.1 ∧ o1.2.issued = o2.2.issued ∧ ∀ a, o1.1 = some a → Conn.Rel (R a) o1.2 o2.2

/-- The tables agree on the rows of `userId`, and in both each quest's character
belongs to the quest's user. -/
def AgreeOn (userId : Nat) (db1 db2 : Db) : Prop :=
  rowsOf userId db1 = rowsOf userId db2 ∧ CharactersOwned db1 ∧ CharactersOwned db2

/-! ## Theorems: leveling calculator -/

theorem calculateLevel.loop_of_lt (l x : Int) (h : x < xpToNext l) :
    calculateLevel.loop l x = { level := l, xp := x } := by
  rw [calculateLevel.loop, if_neg (by omega)]

theorem calculateLevel.loop_of_le (l x : Int) (h : xpToNext l ≤ x) :
    calculateLevel.loop l x = calculateLevel.loop (l + 1) (x - xpToNext l) := by
  rw [calculateLevel.loop, if_pos h]

theorem spentXp_succ_front (L : Int) (n : Nat) :
    spentXp L (n + 1) = xpToNext L + spentXp (L + 1) n := by
  induction n with
  | zero => simp [spentXp]
  | succ k ih =>
    rw [spentXp, ih, spentXp]
    have hk : L + 1 + (k : Int) = L + ((k + 1 : Nat) : Int) := by push_cast; ring
    rw [hk]; ring

theorem xpToNext_pos (l : Int) (h : 1 ≤ l) : 100 ≤ xpToNext l := by
  unfold xpToNext; omega

/-- The loop, started at a level of at least 1 and a non-negative xp, stops at a
level `l + n` with a remainder below that level's threshold, having subtracted
exactly the thresholds of the `n` levels it passed. -/
theorem calculateLevel.loop_spec (l x : Int) (hl : 1 ≤ l) (hx : 0 ≤ x) :
    ∃ n : Nat, (calculateLevel.loop l x).level = l + n ∧
      0 ≤ (calculateLevel.loop l x).xp ∧
      (calculateLevel.loop l x).xp < xpToNext (calculateLevel.loop l x).level ∧
      (calculateLevel.loop l x).xp + spentXp l n = x := by
  induction l, x using calculateLevel.loop.induct with
  | case1 l x hle ih =>
    have hpos := xpToNext_pos l hl
    obtain ⟨n, h1, h2, h3, h4⟩ := ih (by omega) (by omega)
    rw [calculateLevel.loop_of_le l x hle]
    refine ⟨n + 1, ?_, h2, h3, ?_⟩
    · rw [h1]; push_cast; ring
    · rw [spentXp_succ_front]; omega
  | case2 l x hlt =>
    rw [calculateLevel.loop_of_lt l x (by omega)]
    exact ⟨0, by simp, hx, by simpa using hlt, by simp [spentXp]⟩

theorem roundNearestEven_of_safe (x : Int) (h0 : -9007199254740992 ≤ x)
    (h1 : x ≤ 9007199254740992) : roundNearestEven x = x := by
  unfold roundNearestEven
  rw [if_pos]
  norm_num
  omega

theorem toDouble_of_safe (x : Int) (h0 : -9007199254740992 ≤ x) (h1 : x ≤ 9007199254740992) :
    toDouble x = some x := by
  unfold toDouble
  rw [roundNearestEven_of_safe x h0 h1, if_pos]
  have : (9007199254740992 : Nat) < doubleOverflow := by decide
  omega

/-- On safe integers the loop on doubles is the loop on exact integers: started at
a level of at least 1 and a non-negative xp with `100 * level + xp ≤ 2^53`, it
leaves after `n + 1` tests of its condition, where `n` is the number of levels
gained, with the level, the remainder and the conservation of `loop_spec`. -/
theorem calculateLevel.loopOnDoubles_spec (l x : Int) (hl : 1 ≤ l) (hx : 0 ≤ x)
    (hb : 100 * l + x ≤ 9007199254740992) :
    ∃ n : Nat, (calculateLevel.loop l x).level = l + n ∧
      0 ≤ (calculateLevel.loop l x).xp ∧
      (calculateLevel.loop l x).xp < xpToNext (calculateLevel.loop l x).level ∧
      (calculateLevel.loop l x).xp + spentXp l n = x ∧
      ∀ fuel : Nat, n < fuel →
        calculateLevel.loopOnDoubles fuel l x = some (calculateLevel.loop l x) := by
  induction l, x using calculateLevel.loop.induct with
  | case1 l x hle ih =>
    have hpos := xpToNext_pos l hl
    have hth : xpToNext l = 100 + (l - 1) * 50 := rfl
    obtain ⟨n, h1, h2, h3, h4, h5⟩ := ih (by omega) (by omega) (by omega)
    rw [calculateLevel.loop_of_le l x hle]
    refine ⟨n + 1, ?_, h2, h3, ?_, ?_⟩
    · rw [h1]; push_cast; ring
    · rw [spentXp_succ_front]; omega
    · intro fuel hfuel
      cases fuel with
      | zero => omega
      | succ f =>
        have e1 : toDouble (l - 1) = some (l - 1) := toDouble_of_safe _ (by omega) (by omega)
        have e2 : toDouble ((l - 1) * 50) = some ((l - 1) * 50) :=
          toDouble_of_safe _ (by omega) (by omega)
        have e3 : toDouble (100 + (l - 1) * 50) = some (xpToNext l) :=
          toDouble_of_safe _ (by omega) (by omega)
        have e4 : toDouble (x - xpToNext l) = some (x - xpToNext l) :=
          toDouble_of_safe _ (by omega) (by omega)
        have e5 : toDouble (l + 1) = some (l + 1) := toDouble_of_safe _ (by omega) (by omega)
        have hge : x ≥ xpToNext l := hle
        simp only [calculateLevel.loopOnDoubles, e1, e2, e3, if_pos hge, e4, e5]
        exact h5 f (by omega)
  | case2 l x hlt =>
    have hth : xpToNext l = 100 + (l - 1) * 50 := rfl
    rw [calculateLevel.loop_of_lt l x (by omega)]
    refine ⟨0, by simp, hx, by simpa using hlt, by simp [spentXp], ?_⟩
    intro fuel hfuel
    cases fuel with
    | zero => omega
    | succ f =>
      have e1 : toDouble (l - 1) = some (l - 1) := toDouble_of_safe _ (by omega) (by omega)
      have e2 : toDouble ((l - 1) * 50) = some ((l - 1) * 50) :=
        toDouble_of_safe _ (by omega) (by omega)
      have e3 : toDouble (100 + (l - 1) * 50) = some (xpToNext l) :=
        toDouble_of_safe _ (by omega) (by omega)
      have hge : ¬ x ≥ xpToNext l := hlt
      simp only [calculateLevel.loopOnDoubles, e1, e2, e3, if_neg hge]

theorem calculateLevel_250_on_doubles (fuel : Nat) :
    calculateLevel.onDoubles (fuel + 3) { level := 1, xp := 0 } 250
      = some { level := 3, xp := 0 } := by
  obtain ⟨n, h1, _, _, h4, h5⟩ :=
    calculateLevel.loopOnDoubles_spec 1 250 (by decide) (by decide) (by decide)
  have hloop : calculateLevel.loop 1 250 = { level := 3, xp := 0 } := by
    rw [calculateLevel.loop_of_le _ _ (by decide), calculateLevel.loop_of_le _ _ (by decide),
      calculateLevel.loop_of_lt _ _ (by decide)]
    decide
  rw [hloop] at h1 h5
  have hn : n = 2 := by
    have : (3 : Int) = 1 + (n : Int) := h1
    omega
  subst hn
  have e0 : toDouble ((0 : Int) + 250) = some 250 := by decide
  simp only [calculateLevel.onDoubles, e0]
  exact h5 (fuel + 3) (by omega)

/-- C1 (counterexample). The stated example `(1, 0, 250)` gives `(3, 50)` does not
hold: the thresholds 100 and 150 use up all 250 xp, so the result is `(3, 0)`. -/
theorem calculateLevel_250_not_3_50 :
    calculateLevel { level := 1, xp := 0 } 250 ≠ { level := 3, xp := 50 } := by
  simp only [calculateLevel]
  rw [calculateLevel.loop_of_le _ _ (by decide), calculateLevel.loop_of_le _ _ (by decide),
    calculateLevel.loop_of_lt _ _ (by decide)]
  decide

/-- C1 (amended). For every level `L ≥ 1`, `xp ≥ 0` and `earnedXp` in `[0, 1000]`
with `100 * L + xp + earnedXp ≤ 2^53` (so that every number of the computation is a
safe integer), `calculateLevel` as JavaScript runs it on doubles leaves its loop
after `n + 1` tests and returns what the exact computation gives: a level
`newLevel = L + n ≥ L` and an xp with `0 ≤ newXp < threshold(newLevel)` such that
`newXp` plus the thresholds of the levels `L .. newLevel - 1` equals
`xp + earnedXp`; and `(1, 0, 100)` gives `(2, 0)`, `(1, 0, 250)` gives `(3, 0)`. -/
theorem calculateLevel_conserves_xp :
    (∀ L xp earnedXp : Int, 1 ≤ L → 0 ≤ xp → 0 ≤ earnedXp → earnedXp ≤ 1000 →
      100 * L + xp + earnedXp ≤ 9007199254740992 →
      ∃ n : Nat,
        (∀ fuel : Nat, n < fuel →
          calculateLevel.onDoubles fuel { level := L, xp := xp } earnedXp
            = some (calculateLevel { level := L, xp := xp } earnedXp)) ∧
        (calculateLevel { level := L, xp := xp } earnedXp).level = L + n ∧
        L ≤ (calculateLevel { level := L, xp := xp } earnedXp).level ∧
        0 ≤ (calculateLevel { level := L, xp := xp } earnedXp).xp ∧
        (calculateLevel { level := L, xp := xp } earnedXp).xp
          < xpToNext (calculateLevel { level := L, xp := xp } earnedXp).level ∧
        (calculateLevel { level := L, xp := xp } earnedXp).xp + spentXp L n
          = xp + earnedXp) ∧
    calculateLevel.onDoubles 2 { level := 1, xp := 0 } 100 = some { level := 2, xp := 0 } ∧
    calculateLevel.onDoubles 3 { level := 1, xp := 0 } 250 = some { level := 3, xp := 0 } ∧
    calculateLevel { level := 1, xp := 0 } 100 = { level := 2, xp := 0 } ∧
    calculateLevel { level := 1, xp := 0 } 250 = { level := 3, xp := 0 } := by
  refine ⟨?_, by decide, by decide, ?_, ?_⟩
  · intro L xp earnedXp hL hxp he _ hb
    obtain ⟨n, h1, h2, h3, h4, h5⟩ :=
      calculateLevel.loopOnDoubles_spec L (xp + earnedXp) hL (by omega) (by omega)
    refine ⟨n, ?_, h1, by rw [calculateLevel, h1]; omega, h2, h3, h4⟩
    intro fuel hfuel
    have e0 : toDouble (xp + earnedXp) = some (xp + earnedXp) :=
      toDouble_of_safe _ (by omega) (by omega)
    simp only [calculateLevel.onDoubles, e0]
    exact h5 fuel hfuel
  · simp only [calculateLevel]
    rw [calculateLevel.loop_of_le _ _ (by decide), calculateLevel.loop_of_lt _ _ (by decide)]
    decide
  · simp only [calculateLevel]
    rw [calculateLevel.loop_of_le _ _ (by decide), calculateLevel.loop_of_le _ _ (by decide),
      calculateLevel.loop_of_lt _ _ (by decide)]
    decide

/-- C1 at the input `(level 3, xp 120, earnedXp 1000)`. -/
theorem calculateLevel_conserves_xp_witness :
    ∃ n : Nat,
      (∀ fuel : Nat, n < fuel →
        calculateLevel.onDoubles fuel { level := 3, xp := 120 } 1000
          = some (calculateLevel { level := 3, xp := 120 } 1000)) ∧
      (calculateLevel { level := 3, xp := 120 } 1000).level = 3 + n ∧
      (3 : Int) ≤ (calculateLevel { level := 3, xp := 120 } 1000).level ∧
      0 ≤ (calculateLevel { level := 3, xp := 120 } 1000).xp ∧
      (calculateLevel { level := 3, xp := 120 } 1000).xp
        < xpToNext (calculateLevel { level := 3, xp := 120 } 1000).level ∧
      (calculateLevel { level := 3, xp := 120 } 1000).xp + spentXp 3 n = 120 + 1000 :=
  calculateLevel_conserves_xp.1 3 120 1000 (by decide) (by decide) (by decide) (by decide)
    (by decide)

/-- Beyond the safe integers the source rounds: at level `10^14`, xp `2^53` and one
earned xp the sum `2^53 + 1` is taken as `2^53`, the loop on doubles returns xp
`4007199254740942`, and that remainder plus the one threshold spent is one short
of `xp + earnedXp`. On doubles, too, `(1, 0, 250)` does not give `(3, 50)`. -/
theorem calculateLevel_rounds :
    calculateLevel.onDoubles 2 { level := 100000000000000, xp := 9007199254740992 } 1
      = some { level := 100000000000001, xp := 4007199254740942 } ∧
    (4007199254740942 : Int) + spentXp 100000000000000 1 ≠ 9007199254740992 + 1 ∧
    ∀ fuel : Nat,
      calculateLevel.onDoubles (fuel + 3) { level := 1, xp := 0 } 250
        ≠ some { level := 3, xp := 50 } := by
  refine ⟨by decide, by decide, ?_⟩
  intro fuel
  rw [calculateLevel_250_on_doubles fuel]
  decide

/-! ## Theorems: the calendar and the recurrence planner -/

namespace JSDate

theorem DayFromYear_succ (y : Int) : DayFromYear (y + 1) = DayFromYear y + DaysInYear y := by
  unfold DayFromYear DaysInYear leapDay
  split_ifs <;> omega

theorem leapDay_range (y : Int) : 0 ≤ leapDay y ∧ leapDay y ≤ 1 := by
  unfold leapDay
  split_ifs <;> omega

theorem DayFromYear_mono {y z : Int} (h : y ≤ z) : DayFromYear y ≤ DayFromYear z := by
  unfold DayFromYear
  omega

/-- The computed year is the year of the standard: its first day is not after `d`
and the first day of the following year is. -/
theorem YearFromDay_spec (d : Int) :
    DayFromYear (YearFromDay d) ≤ d ∧ d < DayFromYear (YearFromDay d + 1) := by
  have hlo : DayFromYear (1970 + (400 * d) / 146097 - 1) ≤ d := by
    unfold DayFromYear; omega
  have hhi : d < DayFromYear (1970 + (400 * d) / 146097 + 1 + 1) := by
    unfold DayFromYear; omega
  unfold YearFromDay
  simp only
  split_ifs with h1 h2
  · exact ⟨h1, hhi⟩
  · exact ⟨h2, by omega⟩
  · refine ⟨hlo, ?_⟩
    have : 1970 + 400 * d / 146097 - 1 + 1 = 1970 + 400 * d / 146097 := by ring
    rw [this]; omega

/-- The year of the standard is unique, so `YearFromDay` is the largest year that
starts on or before `d`. -/
theorem YearFromDay_unique {d y : Int} (hlo : DayFromYear y ≤ d)
    (hhi : d < DayFromYear (y + 1)) : YearFromDay d = y := by
  obtain ⟨h1, h2⟩ := YearFromDay_spec d
  by_contra hne
  rcases lt_or_gt_of_ne hne with hlt | hgt
  · have := DayFromYear_mono (show YearFromDay d + 1 ≤ y by omega)
    omega
  · have := DayFromYear_mono (show y + 1 ≤ YearFromDay d by omega)
    omega

theorem DayWithinYear_range (t : Int) :
    0 ≤ DayWithinYear t ∧ DayWithinYear t < 365 + InLeapYear t := by
  obtain ⟨h1, h2⟩ := YearFromDay_spec (Day t)
  rw [DayFromYear_succ] at h2
  unfold DayWithinYear InLeapYear YearFromTime DaysInYear at *
  omega

theorem monthOfDayWithinYear_range (dwy leap : Int) :
    0 ≤ monthOfDayWithinYear dwy leap ∧ monthOfDayWithinYear dwy leap ≤ 11 := by
  unfold monthOfDayWithinYear
  omega

theorem MonthFromTime_range (t : Int) : 0 ≤ MonthFromTime t ∧ MonthFromTime t ≤ 11 :=
  monthOfDayWithinYear_range _ _

/-- Day number of a time value, from its calendar fields. -/
theorem Day_eq_MakeDay (t : Int) :
    MakeDay (YearFromTime t) (MonthFromTime t) (DateFromTime t) = Day t := by
  obtain ⟨h0, h11⟩ := MonthFromTime_range t
  have hq : MonthFromTime t / 12 = 0 := by omega
  have hr : MonthFromTime t % 12 = MonthFromTime t := by omega
  unfold MakeDay
  simp only [hq, hr, add_zero]
  unfold DateFromTime DayWithinYear InLeapYear
  omega

theorem MakeDay_add (y m d k : Int) : MakeDay y m (d + k) = MakeDay y m d + k := by
  unfold MakeDay; simp only; omega

theorem MakeDate_Day (t : Int) : MakeDate (Day t) (TimeWithinDay t) = t := by
  unfold MakeDate Day TimeWithinDay msPerDay; omega

theorem Day_MakeDate (day time : Int) (h0 : 0 ≤ time) (h1 : time < msPerDay) :
    Day (MakeDate day time) = day := by
  unfold MakeDate Day msPerDay at *; omega

theorem TimeWithinDay_MakeDate (day time : Int) (h0 : 0 ≤ time) (h1 : time < msPerDay) :
    TimeWithinDay (MakeDate day time) = time := by
  unfold MakeDate TimeWithinDay msPerDay at *; omega

theorem TimeWithinDay_range (t : Int) : 0 ≤ TimeWithinDay t ∧ TimeWithinDay t < msPerDay := by
  unfold TimeWithinDay msPerDay; omega

/-- Moving the day of the month by `k` moves the time value by `k` whole days. -/
theorem setDate_getDate_add (tza t k : Int) :
    setDate.unclipped (Zone.fixed tza) t (getDate (Zone.fixed tza) t + k) = t + k * msPerDay := by
  unfold setDate.unclipped getDate
  simp only
  rw [MakeDay_add, Day_eq_MakeDay]
  unfold MakeDate UTC LocalTime Zone.fixed Day TimeWithinDay msPerDay
  simp only
  omega

end JSDate

namespace JSDate

theorem DateFromTime_range (t : Int) :
    1 ≤ DateFromTime t ∧ DateFromTime t ≤ DaysInMonth (YearFromTime t) (MonthFromTime t) := by
  obtain ⟨h0, h1⟩ := DayWithinYear_range t
  obtain ⟨l0, l1⟩ := leapDay_range (YearFromTime t)
  unfold DateFromTime MonthFromTime DaysInMonth InLeapYear at *
  generalize DayWithinYear t = dwy at *
  generalize leapDay (YearFromTime t) = leap at *
  unfold monthOfDayWithinYear monthStart
  constructor <;> omega

theorem DaysInMonth_range (y m : Int) : 28 ≤ DaysInMonth y m ∧ DaysInMonth y m ≤ 31 := by
  obtain ⟨l0, l1⟩ := leapDay_range y
  unfold DaysInMonth
  split_ifs <;> omega

/-- Reading back the calendar fields of an existing date gives that date. -/
theorem toCivil_MakeDate (y m dt tod : Int) (hm0 : 0 ≤ m) (hm1 : m ≤ 11)
    (hd0 : 1 ≤ dt) (hd1 : dt ≤ DaysInMonth y m) (ht0 : 0 ≤ tod) (ht1 : tod < msPerDay) :
    YearFromTime (MakeDate (MakeDay y m dt) tod) = y ∧
    MonthFromTime (MakeDate (MakeDay y m dt) tod) = m ∧
    DateFromTime (MakeDate (MakeDay y m dt) tod) = dt ∧
    TimeWithinDay (MakeDate (MakeDay y m dt) tod) = tod := by
  obtain ⟨l0, l1⟩ := leapDay_range y
  have hq : m / 12 = 0 := by omega
  have hr : m % 12 = m := by omega
  have hday : Day (MakeDate (MakeDay y m dt) tod) = DayFromYear y + monthStart m (leapDay y) + dt - 1 := by
    rw [Day_MakeDate _ _ ht0 ht1]
    unfold MakeDay
    simp only [hq, hr, add_zero]
  have hdwy : 0 ≤ monthStart m (leapDay y) + dt - 1 ∧
      monthStart m (leapDay y) + dt - 1 < 365 + leapDay y := by
    unfold DaysInMonth at hd1
    unfold monthStart
    constructor <;> omega
  have hyear : YearFromTime (MakeDate (MakeDay y m dt) tod) = y := by
    unfold YearFromTime
    rw [hday]
    apply YearFromDay_unique
    · omega
    · rw [DayFromYear_succ]; unfold DaysInYear; omega
  have hmonth : MonthFromTime (MakeDate (MakeDay y m dt) tod) = m := by
    unfold MonthFromTime DayWithinYear InLeapYear
    rw [hyear, hday]
    have : DayFromYear y + monthStart m (leapDay y) + dt - 1 - DayFromYear y
        = monthStart m (leapDay y) + dt - 1 := by ring
    rw [this]
    unfold DaysInMonth at hd1
    generalize leapDay y = leap at *
    unfold monthOfDayWithinYear monthStart
    omega
  refine ⟨hyear, hmonth, ?_, TimeWithinDay_MakeDate _ _ ht0 ht1⟩
  unfold DateFromTime DayWithinYear InLeapYear
  rw [hmonth, hyear, hday]
  ring

end JSDate

namespace JSDate

theorem LocalTime_UTC (tza t : Int) : LocalTime (Zone.fixed tza) (UTC (Zone.fixed tza) t) = t := by
  unfold LocalTime UTC Zone.fixed; simp only; omega

theorem MakeDay_carry (y m dt : Int) (hm0 : 0 ≤ m) (hm1 : m ≤ 11) :
    MakeDay y (m + 1) dt
      = MakeDay (if m = 11 then y + 1 else y) (if m = 11 then 0 else m + 1) dt := by
  unfold MakeDay
  simp only
  by_cases h : m = 11
  · subst h; simp
  · have h1 : (m + 1) / 12 = 0 := by omega
    have h2 : (m + 1) % 12 = m + 1 := by omega
    simp only [if_neg h, h1, h2]

theorem MakeDay_overflow (y m dt : Int) (hm0 : 0 ≤ m) (hm1 : m ≤ 10) :
    MakeDay y m dt = MakeDay y (m + 1) (dt - DaysInMonth y m) := by
  have h1 : m / 12 = 0 := by omega
  have h2 : m % 12 = m := by omega
  have h3 : (m + 1) / 12 = 0 := by omega
  have h4 : (m + 1) % 12 = m + 1 := by omega
  unfold MakeDay
  simp only [h1, h2, h3, h4, add_zero]
  unfold DaysInMonth
  generalize leapDay y = leap
  unfold monthStart
  omega

/-- Calendar reading of `setMonth(getMonth() + 1)`: the time of day is kept and the
month moves to the next one (December to January of the next year); when the day
of the month does not exist there, the date carries over into the month after. -/
theorem setMonth_getMonth_succ (tza t : Int) :
    (toCivil (Zone.fixed tza) (setMonth.unclipped (Zone.fixed tza) t (getMonth (Zone.fixed tza) t + 1))).timeOfDay = (toCivil (Zone.fixed tza) t).timeOfDay ∧
    (toCivil (Zone.fixed tza) (setMonth.unclipped (Zone.fixed tza) t (getMonth (Zone.fixed tza) t + 1))).year
      = (if (toCivil (Zone.fixed tza) t).month = 11 then (toCivil (Zone.fixed tza) t).year + 1 else (toCivil (Zone.fixed tza) t).year) ∧
    (if (toCivil (Zone.fixed tza) t).date ≤
          DaysInMonth (if (toCivil (Zone.fixed tza) t).month = 11 then (toCivil (Zone.fixed tza) t).year + 1
                       else (toCivil (Zone.fixed tza) t).year)
                      (if (toCivil (Zone.fixed tza) t).month = 11 then 0 else (toCivil (Zone.fixed tza) t).month + 1)
     then
      (toCivil (Zone.fixed tza) (setMonth.unclipped (Zone.fixed tza) t (getMonth (Zone.fixed tza) t + 1))).month
        = (if (toCivil (Zone.fixed tza) t).month = 11 then 0 else (toCivil (Zone.fixed tza) t).month + 1) ∧
      (toCivil (Zone.fixed tza) (setMonth.unclipped (Zone.fixed tza) t (getMonth (Zone.fixed tza) t + 1))).date = (toCivil (Zone.fixed tza) t).date
     else
      (toCivil (Zone.fixed tza) (setMonth.unclipped (Zone.fixed tza) t (getMonth (Zone.fixed tza) t + 1))).month = (toCivil (Zone.fixed tza) t).month + 2 ∧
      (toCivil (Zone.fixed tza) (setMonth.unclipped (Zone.fixed tza) t (getMonth (Zone.fixed tza) t + 1))).date
        = (toCivil (Zone.fixed tza) t).date - DaysInMonth (toCivil (Zone.fixed tza) t).year ((toCivil (Zone.fixed tza) t).month + 1)) := by
  unfold toCivil setMonth.unclipped getMonth
  simp only [LocalTime_UTC]
  generalize LocalTime (Zone.fixed tza) t = lt
  obtain ⟨hm0, hm1⟩ := MonthFromTime_range lt
  obtain ⟨hd0, hd1⟩ := DateFromTime_range lt
  obtain ⟨ht0, ht1⟩ := TimeWithinDay_range lt
  generalize YearFromTime lt = Y at *
  generalize MonthFromTime lt = M at *
  generalize DateFromTime lt = dt at *
  generalize TimeWithinDay lt = tod at *
  rw [MakeDay_carry Y M dt hm0 hm1]
  have hdim := DaysInMonth_range Y M
  by_cases hfit : dt ≤ DaysInMonth (if M = 11 then Y + 1 else Y) (if M = 11 then 0 else M + 1)
  · obtain ⟨a, b, c, d⟩ := toCivil_MakeDate (if M = 11 then Y + 1 else Y)
      (if M = 11 then 0 else M + 1) dt tod (by split_ifs <;> omega) (by split_ifs <;> omega)
      hd0 hfit ht0 ht1
    rw [if_pos hfit]
    exact ⟨d, a, b, c⟩
  · rw [if_neg hfit]
    have hM : M ≠ 11 := by
      intro h; subst h
      simp [DaysInMonth] at hfit
      omega
    simp only [if_neg hM] at hfit ⊢
    have hM10 : M + 1 ≤ 10 := by
      by_contra hc
      have : M = 10 := by omega
      subst this
      simp [DaysInMonth] at hfit
      omega
    have hdn := DaysInMonth_range Y (M + 1)
    have hdn2 := DaysInMonth_range Y (M + 1 + 1)
    rw [MakeDay_overflow Y (M + 1) dt (by omega) hM10]
    obtain ⟨a, b, c, d⟩ := toCivil_MakeDate Y (M + 1 + 1) (dt - DaysInMonth Y (M + 1)) tod
      (by omega) (by omega) (by omega) (by omega) ht0 ht1
    refine ⟨d, a, ?_, c⟩
    rw [b]; ring

/-- January 31st plus one month is March 3rd, or March 2nd in a leap year. -/
theorem setMonth_jan31 (tza y tod : Int) (ht0 : 0 ≤ tod) (ht1 : tod < msPerDay) :
    setMonth.unclipped (Zone.fixed tza) (ofCivil (Zone.fixed tza) { year := y, month := 0, date := 31, timeOfDay := tod })
        (getMonth (Zone.fixed tza) (ofCivil (Zone.fixed tza) { year := y, month := 0, date := 31, timeOfDay := tod }) + 1)
      = ofCivil (Zone.fixed tza) { year := y, month := 2, date := 3 - leapDay y, timeOfDay := tod } := by
  obtain ⟨a, b, c, d⟩ := toCivil_MakeDate y 0 31 tod (by omega) (by omega) (by omega)
    (by simp [DaysInMonth]) ht0 ht1
  unfold setMonth.unclipped getMonth ofCivil
  simp only [LocalTime_UTC, a, b, c, d]
  congr 2
  unfold MakeDay
  simp [monthStart]
  ring

end JSDate

theorem computeNextDueAt_daily (tza now D : Int) :
    computeNextDueAt.fixedOffset tza now (some D) "daily" = D + JSDate.msPerDay := by
  simp [computeNextDueAt.fixedOffset, JSDate.setDate_getDate_add]

theorem computeNextDueAt_weekly (tza now D : Int) :
    computeNextDueAt.fixedOffset tza now (some D) "weekly" = D + 7 * JSDate.msPerDay := by
  simp [computeNextDueAt.fixedOffset, JSDate.setDate_getDate_add]

theorem computeNextDueAt_monthly (tza now D : Int) :
    computeNextDueAt.fixedOffset tza now (some D) "monthly"
      = JSDate.setMonth.unclipped (JSDate.Zone.fixed tza) D
          (JSDate.getMonth (JSDate.Zone.fixed tza) D + 1) := by
  simp [computeNextDueAt.fixedOffset]

namespace JSDate

theorem TimeClip_of_range (t : Int) (h0 : -8640000000000000 ≤ t) (h1 : t ≤ 8640000000000000) :
    TimeClip t = some t := by
  unfold TimeClip
  rw [if_pos ⟨h0, h1⟩]

/-- One month on from a date is as many days on as the month of the date has. -/
theorem MakeDay_succ_month (y m dt : Int) (hm0 : 0 ≤ m) (hm1 : m ≤ 11) :
    MakeDay y (m + 1) dt = MakeDay y m dt + DaysInMonth y m := by
  have h1 : m / 12 = 0 := by omega
  have h2 : m % 12 = m := by omega
  by_cases h : m = 11
  · subst h
    unfold MakeDay
    simp only [show ((11 : Int) + 1) / 12 = 1 by decide, show ((11 : Int) + 1) % 12 = 0 by decide,
      show (11 : Int) / 12 = 0 by decide, show (11 : Int) % 12 = 11 by decide, add_zero]
    rw [DayFromYear_succ]
    obtain ⟨l0, l1⟩ := leapDay_range y
    obtain ⟨k0, k1⟩ := leapDay_range (y + 1)
    unfold DaysInYear DaysInMonth monthStart
    simp
    omega
  · have h3 : (m + 1) / 12 = 0 := by omega
    have h4 : (m + 1) % 12 = m + 1 := by omega
    unfold MakeDay
    simp only [h1, h2, h3, h4, add_zero]
    unfold DaysInMonth
    generalize leapDay y = leap
    unfold monthStart
    omega

/-- In a zone with a constant offset, `setMonth(getMonth() + 1)` moves the time
value on by the number of days of the month it is in. -/
theorem setMonth_getMonth_days (tza t : Int) :
    setMonth.unclipped (Zone.fixed tza) t (getMonth (Zone.fixed tza) t + 1)
      = t + DaysInMonth (toCivil (Zone.fixed tza) t).year (toCivil (Zone.fixed tza) t).month
          * msPerDay := by
  unfold setMonth.unclipped getMonth toCivil
  simp only
  generalize hlt : LocalTime (Zone.fixed tza) t = lt
  obtain ⟨hm0, hm1⟩ := MonthFromTime_range lt
  rw [MakeDay_succ_month _ _ _ hm0 hm1, Day_eq_MakeDay]
  have hdim := DaysInMonth_range (YearFromTime lt) (MonthFromTime lt)
  generalize DaysInMonth (YearFromTime lt) (MonthFromTime lt) = dim at *
  rw [← hlt]
  unfold MakeDate UTC LocalTime Zone.fixed Day TimeWithinDay msPerDay
  simp only
  omega

end JSDate

theorem computeNextDueAt_fixed (tza now : Int) (dueAt : Option Int) (repeatType : String)
    (h0 : -8640000000000000 ≤ dueAt.getD now) (h1 : dueAt.getD now ≤ 8640000000000000) :
    computeNextDueAt (JSDate.Zone.fixed tza) now dueAt repeatType
      = JSDate.TimeClip (computeNextDueAt.fixedOffset tza now dueAt repeatType) := by
  cases dueAt with
  | none =>
    simp only [Option.getD_none] at h0 h1
    unfold computeNextDueAt computeNextDueAt.fixedOffset
    simp only [JSDate.TimeClip_of_range _ h0 h1, JSDate.setDate, JSDate.setMonth]
    split_ifs <;> first | rfl | exact (JSDate.TimeClip_of_range _ h0 h1).symm
  | some d =>
    simp only [Option.getD_some] at h0 h1
    unfold computeNextDueAt computeNextDueAt.fixedOffset
    simp only [JSDate.TimeClip_of_range _ h0 h1, JSDate.setDate, JSDate.setMonth]
    split_ifs <;> first | rfl | exact (JSDate.TimeClip_of_range _ h0 h1).symm

theorem computeNextDueAt_daily_fixed (tza now D : Int) (h0 : -8640000000000000 ≤ D)
    (h1 : D + JSDate.msPerDay ≤ 8640000000000000) :
    computeNextDueAt (JSDate.Zone.fixed tza) now (some D) "daily" = some (D + JSDate.msPerDay) := by
  have hm : JSDate.msPerDay = 86400000 := rfl
  rw [computeNextDueAt_fixed tza now (some D) "daily" h0 (by simp only [Option.getD_some]; omega),
    computeNextDueAt_daily]
  exact JSDate.TimeClip_of_range _ (by omega) h1

theorem computeNextDueAt_weekly_fixed (tza now D : Int) (h0 : -8640000000000000 ≤ D)
    (h1 : D + 7 * JSDate.msPerDay ≤ 8640000000000000) :
    computeNextDueAt (JSDate.Zone.fixed tza) now (some D) "weekly"
      = some (D + 7 * JSDate.msPerDay) := by
  have hm : JSDate.msPerDay = 86400000 := rfl
  rw [computeNextDueAt_fixed tza now (some D) "weekly" h0 (by simp only [Option.getD_some]; omega),
    computeNextDueAt_weekly]
  exact JSDate.TimeClip_of_range _ (by omega) h1

theorem computeNextDueAt_monthly_fixed (tza now D : Int) (h0 : -8640000000000000 ≤ D)
    (h1 : D + 31 * JSDate.msPerDay ≤ 8640000000000000) :
    computeNextDueAt (JSDate.Zone.fixed tza) now (some D) "monthly"
      = some (JSDate.setMonth.unclipped (JSDate.Zone.fixed tza) D
          (JSDate.getMonth (JSDate.Zone.fixed tza) D + 1)) := by
  have hm : JSDate.msPerDay = 86400000 := rfl
  rw [computeNextDueAt_fixed tza now (some D) "monthly" h0
    (by simp only [Option.getD_some]; omega), computeNextDueAt_monthly]
  have hd := JSDate.setMonth_getMonth_days tza D
  obtain ⟨d0, d1⟩ := JSDate.DaysInMonth_range (JSDate.toCivil (JSDate.Zone.fixed tza) D).year
    (JSDate.toCivil (JSDate.Zone.fixed tza) D).month
  generalize JSDate.DaysInMonth (JSDate.toCivil (JSDate.Zone.fixed tza) D).year
    (JSDate.toCivil (JSDate.Zone.fixed tza) D).month = dim at *
  apply JSDate.TimeClip_of_range
  · rw [hd, hm]; omega
  · rw [hd, hm]; omega

theorem computeNextDueAt_seven_daily (tza now D : Int) (h0 : -8640000000000000 ≤ D)
    (h1 : D + 7 * JSDate.msPerDay ≤ 8640000000000000) :
    (fun o : Option Int =>
        o.bind (fun d => computeNextDueAt (JSDate.Zone.fixed tza) now (some d) "daily"))^[7]
      (some D) = some (D + 7 * JSDate.msPerDay) := by
  have hm : JSDate.msPerDay = 86400000 := rfl
  have e : ∀ k : Int, 0 ≤ k → k ≤ 6 →
      computeNextDueAt (JSDate.Zone.fixed tza) now (some (D + k * JSDate.msPerDay)) "daily"
        = some (D + (k + 1) * JSDate.msPerDay) := by
    intro k hk0 hk6
    rw [computeNextDueAt_daily_fixed tza now _ (by rw [hm]; omega) (by rw [hm]; omega)]
    congr 1
    ring
  have e0 := e 0 (by omega) (by omega)
  have e1 := e 1 (by omega) (by omega)
  have e2 := e 2 (by omega) (by omega)
  have e3 := e 3 (by omega) (by omega)
  have e4 := e 4 (by omega) (by omega)
  have e5 := e 5 (by omega) (by omega)
  have e6 := e 6 (by omega) (by omega)
  norm_num at e0 e1 e2 e3 e4 e5 e6
  simp only [Function.iterate_succ, Function.iterate_zero, Function.comp_apply, Option.some_bind,
    id_eq, e0, e1, e2, e3, e4, e5, e6]

/-- C9, as stated, fails where the zone of the host changes its offset and at the
end of the range of `Date`. In the zone of New York: the day after 02:30 on
2024-03-09 is given as 03:30 on March 10th, because 02:30 is skipped that day, so
the time of day is not kept; from 02:30 on March 5th `weekly` gives 02:30 on March
12th while seven `daily` steps give 03:30; and from noon on March 9th `daily` gives
a time value 23 hours, not 24 hours, later. In any zone the last time value of
`Date` has no next day: the result is an invalid `Date`. -/
theorem computeNextDueAt_daylight_saving :
    (computeNextDueAt exEastern 0 (some 1709969400000) "daily" = some 1710055800000 ∧
      JSDate.toCivil exEastern 1709969400000
        = { year := 2024, month := 2, date := 9, timeOfDay := 9000000 } ∧
      JSDate.toCivil exEastern 1710055800000
        = { year := 2024, month := 2, date := 10, timeOfDay := 12600000 }) ∧
    (computeNextDueAt exEastern 0 (some 1709623800000) "weekly" = some 1710225000000 ∧
      (fun o : Option Int =>
          o.bind (fun d => computeNextDueAt exEastern 0 (some d) "daily"))^[7]
        (some 1709623800000) = some 1710228600000) ∧
    computeNextDueAt exEastern 0 (some 1710003600000) "daily"
      = some (1710003600000 + 82800000) ∧
    computeNextDueAt (JSDate.Zone.fixed 0) 0 (some 8640000000000000) "daily" = none := by
  refine ⟨⟨by decide, by decide, by decide⟩, ⟨by decide, by decide⟩, by decide, by decide⟩

/-- C9, amended. With a previous due timestamp `D`, `computeNextDueAt` does not
read the clock, in any zone. On a host whose zone has a constant offset from UTC,
and for `D` at least 31 days inside the range of `Date`: `daily` returns `D` one
calendar day later and `weekly` seven days later (seven `daily` steps), both at
the same time of day; `monthly` keeps the time of day and moves to the next
calendar month, keeping the day of the month when it exists there and otherwise
carrying the excess days into the month after (January 31st gives March 3rd, March
2nd in a leap year) instead of clamping; without a previous due timestamp the same
is applied to the current time. -/
theorem computeNextDueAt_calendar :
    (∀ (zone : JSDate.Zone) (now now' D : Int) (kind : String),
      computeNextDueAt zone now (some D) kind = computeNextDueAt zone now' (some D) kind) ∧
    (∀ tza now D : Int, -8639997321600000 ≤ D → D ≤ 8639997321600000 →
      ∃ r, computeNextDueAt (JSDate.Zone.fixed tza) now (some D) "daily" = some r ∧
        r = D + JSDate.msPerDay ∧
        JSDate.Day (JSDate.LocalTime (JSDate.Zone.fixed tza) r)
          = JSDate.Day (JSDate.LocalTime (JSDate.Zone.fixed tza) D) + 1 ∧
        (JSDate.toCivil (JSDate.Zone.fixed tza) r).timeOfDay
          = (JSDate.toCivil (JSDate.Zone.fixed tza) D).timeOfDay) ∧
    (∀ tza now D : Int, -8639997321600000 ≤ D → D ≤ 8639997321600000 →
      ∃ r, computeNextDueAt (JSDate.Zone.fixed tza) now (some D) "weekly" = some r ∧
        r = D + 7 * JSDate.msPerDay ∧
        JSDate.Day (JSDate.LocalTime (JSDate.Zone.fixed tza) r)
          = JSDate.Day (JSDate.LocalTime (JSDate.Zone.fixed tza) D) + 7 ∧
        (JSDate.toCivil (JSDate.Zone.fixed tza) r).timeOfDay
          = (JSDate.toCivil (JSDate.Zone.fixed tza) D).timeOfDay ∧
        (fun o : Option Int =>
            o.bind (fun d => computeNextDueAt (JSDate.Zone.fixed tza) now (some d) "daily"))^[7]
          (some D) = some r) ∧
    (∀ tza now D : Int, -8639997321600000 ≤ D → D ≤ 8639997321600000 →
      ∃ r, computeNextDueAt (JSDate.Zone.fixed tza) now (some D) "monthly" = some r ∧
        (JSDate.toCivil (JSDate.Zone.fixed tza) r).timeOfDay
          = (JSDate.toCivil (JSDate.Zone.fixed tza) D).timeOfDay ∧
        (JSDate.toCivil (JSDate.Zone.fixed tza) r).year
          = (if (JSDate.toCivil (JSDate.Zone.fixed tza) D).month = 11
             then (JSDate.toCivil (JSDate.Zone.fixed tza) D).year + 1
             else (JSDate.toCivil (JSDate.Zone.fixed tza) D).year) ∧
        (if (JSDate.toCivil (JSDate.Zone.fixed tza) D).date ≤
              JSDate.DaysInMonth
                (if (JSDate.toCivil (JSDate.Zone.fixed tza) D).month = 11
                 then (JSDate.toCivil (JSDate.Zone.fixed tza) D).year + 1
                 else (JSDate.toCivil (JSDate.Zone.fixed tza) D).year)
                (if (JSDate.toCivil (JSDate.Zone.fixed tza) D).month = 11 then 0
                 else (JSDate.toCivil (JSDate.Zone.fixed tza) D).month + 1)
         then
          (JSDate.toCivil (JSDate.Zone.fixed tza) r).month
            = (if (JSDate.toCivil (JSDate.Zone.fixed tza) D).month = 11 then 0
               else (JSDate.toCivil (JSDate.Zone.fixed tza) D).month + 1) ∧
          (JSDate.toCivil (JSDate.Zone.fixed tza) r).date
            = (JSDate.toCivil (JSDate.Zone.fixed tza) D).date
         else
          (JSDate.toCivil (JSDate.Zone.fixed tza) r).month
            = (JSDate.toCivil (JSDate.Zone.fixed tza) D).month + 2 ∧
          (JSDate.toCivil (JSDate.Zone.fixed tza) r).date
            = (JSDate.toCivil (JSDate.Zone.fixed tza) D).date
              - JSDate.DaysInMonth (JSDate.toCivil (JSDate.Zone.fixed tza) D).year
                  ((JSDate.toCivil (JSDate.Zone.fixed tza) D).month + 1))) ∧
    (∀ tza now y tod : Int, 0 ≤ tod → tod < JSDate.msPerDay →
      -8639997321600000 ≤ JSDate.ofCivil (JSDate.Zone.fixed tza)
        { year := y, month := 0, date := 31, timeOfDay := tod } →
      JSDate.ofCivil (JSDate.Zone.fixed tza)
        { year := y, month := 0, date := 31, timeOfDay := tod } ≤ 8639997321600000 →
      computeNextDueAt (JSDate.Zone.fixed tza) now
          (some (JSDate.ofCivil (JSDate.Zone.fixed tza)
            { year := y, month := 0, date := 31, timeOfDay := tod }))
          "monthly"
        = some (JSDate.ofCivil (JSDate.Zone.fixed tza)
            { year := y, month := 2, date := 3 - JSDate.leapDay y, timeOfDay := tod })) ∧
    (JSDate.leapDay 2023 = 0 ∧ JSDate.leapDay 2024 = 1) ∧
    (∀ (zone : JSDate.Zone) (now now' : Int) (kind : String),
      computeNextDueAt zone now none kind = computeNextDueAt zone now' (some now) kind) := by
  have hm : JSDate.msPerDay = 86400000 := rfl
  refine ⟨?_, ?_, ?_, ?_, ?_, ?_, ?_⟩
  · intro zone now now' D kind
    rfl
  · intro tza now D h0 h1
    refine ⟨D + JSDate.msPerDay,
      computeNextDueAt_daily_fixed tza now D (by omega) (by rw [hm]; omega), rfl, ?_, ?_⟩
    · unfold JSDate.Day JSDate.LocalTime JSDate.Zone.fixed JSDate.msPerDay
      simp only
      omega
    · unfold JSDate.toCivil JSDate.TimeWithinDay JSDate.LocalTime JSDate.Zone.fixed
        JSDate.msPerDay
      simp only
      omega
  · intro tza now D h0 h1
    refine ⟨D + 7 * JSDate.msPerDay,
      computeNextDueAt_weekly_fixed tza now D (by omega) (by rw [hm]; omega), rfl, ?_, ?_,
      computeNextDueAt_seven_daily tza now D (by omega) (by rw [hm]; omega)⟩
    · unfold JSDate.Day JSDate.LocalTime JSDate.Zone.fixed JSDate.msPerDay
      simp only
      omega
    · unfold JSDate.toCivil JSDate.TimeWithinDay JSDate.LocalTime JSDate.Zone.fixed
        JSDate.msPerDay
      simp only
      omega
  · intro tza now D h0 h1
    exact ⟨_, computeNextDueAt_monthly_fixed tza now D (by omega) (by rw [hm]; omega),
      JSDate.setMonth_getMonth_succ tza D⟩
  · intro tza now y tod ht0 ht1 h0 h1
    rw [computeNextDueAt_monthly_fixed tza now _ (by omega) (by rw [hm]; omega),
      JSDate.setMonth_jan31 tza y tod ht0 ht1]
  · constructor <;> decide
  · intro zone now now' kind
    rfl

/-- C9 at 2024-01-31T12:00 in a zone one hour ahead of UTC: one month later is
2024-03-02T12:00. -/
theorem computeNextDueAt_calendar_witness :
    computeNextDueAt (JSDate.Zone.fixed 3600000) 0
        (some (JSDate.ofCivil (JSDate.Zone.fixed 3600000)
          { year := 2024, month := 0, date := 31, timeOfDay := 43200000 }))
        "monthly"
      = some (JSDate.ofCivil (JSDate.Zone.fixed 3600000)
          { year := 2024, month := 2, date := 3 - JSDate.leapDay 2024, timeOfDay := 43200000 }) :=
  computeNextDueAt_calendar.2.2.2.2.1 3600000 0 2024 43200000 (by decide) (by decide)
    (by decide) (by decide)

/-! ## Theorems: connections and transactions -/

theorem andThen_some {α β : Type} (a : α) (c : Conn) (k : α → Conn → Option β × Conn) :
    andThen (some a, c) k = k a c := rfl

theorem andThen_none {α β : Type} (c : Conn) (k : α → Conn → Option β × Conn) :
    andThen ((none : Option α), c) k = (none, c) := rfl

theorem Conn.InTx.after_query {α : Type} {cm : Db} {c : Conn} (h : c.InTx cm) (fail : Nat → Bool)
    (stmt : Db → Seqs → α × Db × Seqs) : (c.query fail stmt).2.InTx cm := by
  obtain ⟨h1, h2⟩ := h
  unfold Conn.query
  split
  · exact ⟨h1, h2⟩
  · cases htx : c.tx with
    | none => simp [htx] at h2
    | some w => simp [Conn.InTx, Conn.store, htx, h1]

theorem Conn.InTx.after_begin {c : Conn} (fail : Nat → Bool) :
    (c.begin fail).1 = some () → (c.begin fail).2.InTx c.committed := by
  unfold Conn.begin
  split
  · simp
  · simp [Conn.InTx]

theorem Conn.begin_committed (c : Conn) (fail : Nat → Bool) :
    (c.begin fail).2.committed = c.committed := by
  unfold Conn.begin
  split <;> rfl

theorem Conn.rollback_committed (c : Conn) (fail : Nat → Bool) :
    (c.rollback fail).2.committed = c.committed := by
  unfold Conn.rollback
  split <;> rfl

theorem Conn.rollback_tx (c : Conn) (fail : Nat → Bool) :
    (c.rollback fail).1 = some () → (c.rollback fail).2.tx = none := by
  unfold Conn.rollback
  split <;> simp

theorem Conn.commit_failed (c : Conn) (fail : Nat → Bool) :
    (c.commit fail).1 = none → (c.commit fail).2.committed = c.committed := by
  unfold Conn.commit
  split <;> simp

/-- Sequencing rule: if the first call leaves the connection inside the
transaction and every continuation leaves the committed tables alone, so does
the sequence. -/
theorem Unchanged.of_andThen {α : Type} {cm : Db} (r : Option α × Conn)
    (k : α → Conn → Option Response × Conn) (hr : r.2.InTx cm)
    (hk : ∀ a, r.1 = some a → Unchanged cm (k a r.2)) : Unchanged cm (andThen r k) := by
  obtain ⟨r1, r2⟩ := r
  cases r1 with
  | none => exact hr.1
  | some a => exact hk a rfl

/-- An explicit `ROLLBACK` followed by an error reply. -/
theorem Unchanged.rollback_reply {cm : Db} {c : Conn} (h : c.committed = cm) (fail : Nat → Bool)
    (status : Nat) (code message : String) :
    Unchanged cm (GameLive.andThen (c.rollback fail)
      fun _ c => (some (Response.error status code message), c)) := by
  have h1 := Conn.rollback_committed c fail
  have h2 := Conn.rollback_tx c fail
  revert h1 h2
  generalize c.rollback fail = r
  obtain ⟨r1, r2⟩ := r
  intro h1 h2
  cases r1 with
  | none => simpa [GameLive.andThen, Unchanged, h] using h1
  | some a =>
    simp only [GameLive.andThen, Unchanged]
    exact ⟨by simpa [h] using h1, h2 rfl⟩

/-- A `COMMIT` followed by a success reply. -/
theorem Unchanged.commit_reply {cm : Db} {c : Conn} (h : c.InTx cm) (fail : Nat → Bool)
    (reply : Reply) :
    Unchanged cm (GameLive.andThen (c.commit fail)
      fun _ c => (some (Response.ok reply), c)) := by
  have h6 := Conn.commit_failed c fail
  revert h6
  generalize c.commit fail = r6
  obtain ⟨r61, r62⟩ := r6
  intro h6
  cases r61 with
  | none => simp only [andThen_none, Unchanged]; rw [h6 rfl]; exact h.1
  | some _ => simp only [andThen_some, Unchanged]

theorem completeQuest.cloneSteps_inTx {cm : Db} (fail : Nat → Bool) (nextQuestId : Nat)
    (steps : List QuestStep) (index : Int) (c : Conn) (h : c.InTx cm) :
    (completeQuest.cloneSteps fail nextQuestId steps index c).2.InTx cm := by
  induction steps generalizing index c with
  | nil => exact h
  | cons step rest ih =>
    unfold completeQuest.cloneSteps
    have hq := h.after_query fail (fun db s => ((), (insertStep nextQuestId step.title index db s).2))
    revert hq
    generalize c.query fail (fun db s => ((), (insertStep nextQuestId step.title index db s).2)) = r
    obtain ⟨r1, r2⟩ := r
    intro hq
    cases r1 with
    | none => exact hq
    | some a => exact ih (index + 1) r2 hq

theorem andThen_inTx {α β : Type} {cm : Db} (r : Option α × Conn)
    (k : α → Conn → Option β × Conn) (hr : r.2.InTx cm)
    (hk : ∀ a, r.1 = some a → (k a r.2).2.InTx cm) : (andThen r k).2.InTx cm := by
  obtain ⟨r1, r2⟩ := r
  cases r1 with
  | none => exact hr
  | some a => exact hk a rfl

theorem completeQuest.spawnNext_inTx {cm : Db} (env : Env) (questId : Nat) (quest : Quest)
    (c : Conn) (h : c.InTx cm) : (completeQuest.spawnNext env questId quest c).2.InTx cm := by
  unfold completeQuest.spawnNext
  split
  · apply andThen_inTx _ _ (h.after_query _ _)
    intro nextQuest _
    apply andThen_inTx _ _ ((h.after_query _ _).after_query _ _)
    intro steps _
    apply andThen_inTx _ _ (completeQuest.cloneSteps_inTx _ _ _ _ _ ((h.after_query _ _).after_query _ _))
    intro _ _
    exact completeQuest.cloneSteps_inTx _ _ _ _ _ ((h.after_query _ _).after_query _ _)
  · exact h

/-- The `try` block of completion leaves the committed tables alone unless it
replies with success. -/
theorem completeQuest.body_unchanged (env : Env) (userId questId : Nat) (c : Conn) :
    Unchanged c.committed (completeQuest.body env userId questId c) := by
  unfold completeQuest.body
  have hb := Conn.InTx.after_begin (c := c) env.fail
  have hbc := Conn.begin_committed c env.fail
  revert hb hbc
  generalize c.begin env.fail = r0
  obtain ⟨b1, c1⟩ := r0
  intro hb hbc
  cases b1 with
  | none => exact hbc
  | some u =>
    have h1 : c1.InTx c.committed := hb rfl
    simp only [andThen_some]
    apply Unchanged.of_andThen _ _ (h1.after_query _ _)
    intro questRow _
    have h2 := h1.after_query env.fail (fun db s => (selectQuest questId userId db, db, s))
    cases questRow with
    | none => exact Unchanged.rollback_reply h2.1 _ _ _ _
    | some quest =>
      simp only
      split
      · exact Unchanged.rollback_reply h2.1 _ _ _ _
      · apply Unchanged.of_andThen _ _ (h2.after_query _ _)
        intro _ _
        have h3 := h2.after_query env.fail (fun db s => ((), markQuestDone questId env.dbNow db, s))
        apply Unchanged.of_andThen _ _ (h3.after_query _ _)
        intro characterRow _
        have h4 := h3.after_query env.fail (fun db s => (selectCharacter quest.character_id db, db, s))
        cases characterRow with
        | none => exact Unchanged.rollback_reply h4.1 _ _ _ _
        | some character =>
          simp only
          apply Unchanged.of_andThen _ _ (h4.after_query _ _)
          intro characterUpdate _
          apply Unchanged.of_andThen _ _ (completeQuest.spawnNext_inTx _ _ _ _ (h4.after_query _ _))
          intro nextQuest _
          exact Unchanged.commit_reply
            (completeQuest.spawnNext_inTx _ _ _ _ (h4.after_query _ _)) _ _

theorem Unchanged.of_tryCatchRollback {cm : Db} (fail : Nat → Bool)
    (body : Option Response × Conn) (status : Nat) (code message : String)
    (h : Unchanged cm body) :
    Unchanged cm (GameLive.tryCatchRollback fail body (Response.error status code message)) := by
  obtain ⟨b1, b2⟩ := body
  cases b1 with
  | none =>
    simp only [GameLive.tryCatchRollback]
    exact Unchanged.rollback_reply h fail status code message
  | some resp => exact h

theorem completeQuest_unchanged (env : Env) (userId questId : Nat) (c : Conn) :
    Unchanged c.committed (completeQuest env userId questId c) :=
  Unchanged.of_tryCatchRollback _ _ _ _ _ (completeQuest.body_unchanged env userId questId c)

/-! ## Theorems: execution without storage failures -/

theorem Conn.query_tx {α : Type} (fail : Nat → Bool) (hf : ∀ k, fail k = false)
    (cm w : Db) (sq : Seqs) (n : Nat) (stmt : Db → Seqs → α × Db × Seqs) :
    Conn.query { committed := cm, tx := some w, seqs := sq, issued := n } fail stmt
      = (some (stmt w sq).1,
          { committed := cm, tx := some (stmt w sq).2.1, seqs := (stmt w sq).2.2,
            issued := n + 1 }) := by
  simp [Conn.query, hf, Conn.view, Conn.store]

theorem Conn.query_auto {α : Type} (fail : Nat → Bool) (hf : ∀ k, fail k = false)
    (cm : Db) (sq : Seqs) (n : Nat) (stmt : Db → Seqs → α × Db × Seqs) :
    Conn.query { committed := cm, tx := none, seqs := sq, issued := n } fail stmt
      = (some (stmt cm sq).1,
          { committed := (stmt cm sq).2.1, tx := none, seqs := (stmt cm sq).2.2,
            issued := n + 1 }) := by
  simp [Conn.query, hf, Conn.view, Conn.store]

theorem Conn.begin_ok (fail : Nat → Bool) (hf : ∀ k, fail k = false)
    (cm : Db) (sq : Seqs) (n : Nat) :
    Conn.begin { committed := cm, tx := none, seqs := sq, issued := n } fail
      = (some (), { committed := cm, tx := some cm, seqs := sq, issued := n + 1 }) := by
  simp [Conn.begin, hf, Conn.view]

theorem Conn.commit_ok (fail : Nat → Bool) (hf : ∀ k, fail k = false)
    (cm w : Db) (sq : Seqs) (n : Nat) :
    Conn.commit { committed := cm, tx := some w, seqs := sq, issued := n } fail
      = (some (), { committed := w, tx := none, seqs := sq, issued := n + 1 }) := by
  simp [Conn.commit, hf, Conn.view]

theorem Conn.rollback_ok (fail : Nat → Bool) (hf : ∀ k, fail k = false)
    (cm : Db) (tx : Option Db) (sq : Seqs) (n : Nat) :
    Conn.rollback { committed := cm, tx := tx, seqs := sq, issued := n } fail
      = (some (), { committed := cm, tx := none, seqs := sq, issued := n + 1 }) := by
  simp [Conn.rollback, hf]

theorem numberedSteps_length (questId firstId : Nat) (index : Int) (titles : List String) :
    (numberedSteps questId firstId index titles).length = titles.length := by
  induction titles generalizing firstId index with
  | nil => rfl
  | cons t rest ih => simp [numberedSteps, ih]

theorem numberedSteps_append (questId firstId : Nat) (index : Int) (xs ys : List String) :
    numberedSteps questId firstId index (xs ++ ys)
      = numberedSteps questId firstId index xs
        ++ numberedSteps questId (firstId + xs.length) (index + xs.length) ys := by
  induction xs generalizing firstId index with
  | nil => simp [numberedSteps]
  | cons t rest ih =>
    simp only [List.cons_append, numberedSteps, ih, List.length_cons, List.cons.injEq, true_and]
    have h1 : firstId + 1 + rest.length = firstId + (rest.length + 1) := by omega
    have h2 : index + 1 + (rest.length : Int) = index + ((rest.length + 1 : Nat) : Int) := by
      push_cast; ring
    rw [← h1, ← h2]
    exact ih _ _

/-- Entry `j` of the inserted rows: the `j`-th title, not done, with the `j`-th id
and order index. -/
theorem numberedSteps_getElem? (questId firstId : Nat) (index : Int) (titles : List String)
    (j : Nat) :
    (numberedSteps questId firstId index titles)[j]?
      = titles[j]?.map (fun t =>
          { id := firstId + j, quest_id := questId, title := t, is_done := false,
            order_index := index + j }) := by
  induction titles generalizing firstId index j with
  | nil => simp [numberedSteps]
  | cons t rest ih =>
    cases j with
    | zero => simp [numberedSteps]
    | succ j =>
      simp only [numberedSteps, List.getElem?_cons_succ, ih]
      congr 1
      funext t
      congr 1
      · omega
      · push_cast; ring

theorem numberedSteps_mem {questId firstId : Nat} {index : Int} {titles : List String}
    {st : QuestStep} (h : st ∈ numberedSteps questId firstId index titles) :
    st.quest_id = questId ∧ st.is_done = false ∧ firstId ≤ st.id ∧
      st.id < firstId + titles.length ∧ index ≤ st.order_index ∧
      st.order_index < index + titles.length ∧ st.order_index - index = ((st.id - firstId : Nat) : Int) := by
  induction titles generalizing firstId index with
  | nil => simp [numberedSteps] at h
  | cons t rest ih =>
    simp only [numberedSteps, List.mem_cons] at h
    rcases h with h | h
    · subst h
      simp
    · obtain ⟨a, b, c, d, e, f, g⟩ := ih h
      refine ⟨a, b, by omega, by simp; omega, by omega, by simp; omega, ?_⟩
      omega

/-- The step cloning loop, when no insert is rejected, appends one numbered row
per step. -/
theorem completeQuest.cloneSteps_ok (fail : Nat → Bool) (hf : ∀ k, fail k = false)
    (nextQuestId : Nat) (steps : List QuestStep) (index : Int) (cm w : Db) (sq : Seqs)
    (n : Nat) :
    completeQuest.cloneSteps fail nextQuestId steps index
        { committed := cm, tx := some w, seqs := sq, issued := n }
      = (some (),
          { committed := cm,
            tx := some { w with quest_steps := (w.quest_steps ++
              numberedSteps nextQuestId sq.step index (steps.map (fun st => st.title))) },
            seqs := { sq with step := sq.step + steps.length },
            issued := n + steps.length }) := by
  induction steps generalizing index w sq n with
  | nil => simp [completeQuest.cloneSteps, numberedSteps]
  | cons step rest ih =>
    unfold completeQuest.cloneSteps
    rw [Conn.query_tx fail hf, andThen_some, ih]
    simp only [insertStep, List.map_cons, numberedSteps, List.length_cons, List.append_assoc,
      List.singleton_append]
    have h1 : sq.step + 1 + rest.length = sq.step + (rest.length + 1) := by omega
    have h2 : n + 1 + rest.length = n + (rest.length + 1) := by omega
    rw [h1, h2]

theorem selectCharacter_markQuestDone (cid : Option Nat) (questId : Nat) (now : Int) (db : Db) :
    selectCharacter cid (markQuestDone questId now db) = selectCharacter cid db := by
  cases cid <;> rfl

theorem selectSteps_congr {db db2 : Db} (questId : Nat) (h : db2.quest_steps = db.quest_steps) :
    selectSteps questId db2 = selectSteps questId db := by
  unfold selectSteps; rw [h]


theorem completeQuest.spawnNext_plain (env : Env) (questId : Nat) (quest : Quest) (c : Conn)
    (hrep : repeats quest = false) :
    completeQuest.spawnNext env questId quest c = (some none, c) := by
  unfold repeats at hrep
  simp only [completeQuest.spawnNext, hrep, Bool.false_eq_true, if_false]

theorem completeQuest.spawnNext_repeat (env : Env) (hf : ∀ k, env.fail k = false)
    (questId : Nat) (quest : Quest) (cm w : Db) (sq : Seqs) (n : Nat)
    (hrep : repeats quest = true) :
    completeQuest.spawnNext env questId quest
        { committed := cm, tx := some w, seqs := sq, issued := n }
      = (some (some (successorOf env quest sq.quest)),
          { committed := cm,
            tx := some
              { characters := w.characters,
                quests := w.quests ++ [successorOf env quest sq.quest],
                quest_steps := w.quest_steps ++
                  numberedSteps sq.quest sq.step 0
                    ((selectSteps questId w).map (fun st => st.title)) },
            seqs := { quest := sq.quest + 1, step := sq.step + (selectSteps questId w).length },
            issued := n + 1 + 1 + (selectSteps questId w).length }) := by
  unfold repeats at hrep
  simp only [completeQuest.spawnNext, hrep, if_true, Conn.query_tx _ hf, andThen_some,
    completeQuest.cloneSteps_ok _ hf]
  simp [insertQuest, successorOf, selectSteps]

/-- Completion of a quest that does not repeat, with no storage failure: the
reply and the state afterwards. -/
theorem completeQuest_run_plain (env : Env) (hf : ∀ k, env.fail k = false) (s : Server)
    (userId questId : Nat) (quest : Quest) (character : Character)
    (hq : selectQuest questId userId s.db = some quest) (hnd : quest.status ≠ "done")
    (hc : selectCharacter quest.character_id s.db = some character)
    (hrep : repeats quest = false) :
    handle env (Request.completeQuest userId questId) s
      = (some (Response.ok (Reply.completed
            { quest with status := "done", completed_at := some env.jsNow }
            ((awardXp character quest.xp_reward env.dbNow s.db.characters).find?
              (fun ch => decide (ch.id = character.id)))
            none)),
          { db :=
              { characters := awardXp character quest.xp_reward env.dbNow s.db.characters,
                quests := (markQuestDone questId env.dbNow s.db).quests,
                quest_steps := s.db.quest_steps },
            seqs := s.seqs }) := by
  simp only [handle, Request.run, completeQuest, completeQuest.body, Server.connect,
    Conn.begin_ok _ hf, andThen_some, Conn.query_tx _ hf, hq, if_neg hnd,
    selectCharacter_markQuestDone, hc, completeQuest.spawnNext_plain _ _ _ _ hrep,
    Conn.commit_ok _ hf, tryCatchRollback, Conn.release]
  rfl

/-- Completion of a repeating quest, with no storage failure: the reply and the
state afterwards. -/
theorem completeQuest_run_repeat (env : Env) (hf : ∀ k, env.fail k = false) (s : Server)
    (userId questId : Nat) (quest : Quest) (character : Character)
    (hq : selectQuest questId userId s.db = some quest) (hnd : quest.status ≠ "done")
    (hc : selectCharacter quest.character_id s.db = some character)
    (hrep : repeats quest = true) :
    handle env (Request.completeQuest userId questId) s
      = (some (Response.ok (Reply.completed
            { quest with status := "done", completed_at := some env.jsNow }
            ((awardXp character quest.xp_reward env.dbNow s.db.characters).find?
              (fun ch => decide (ch.id = character.id)))
            (some (successorOf env quest s.seqs.quest)))),
          { db :=
              { characters := awardXp character quest.xp_reward env.dbNow s.db.characters,
                quests := (markQuestDone questId env.dbNow s.db).quests ++
                  [successorOf env quest s.seqs.quest],
                quest_steps := s.db.quest_steps ++
                  numberedSteps s.seqs.quest s.seqs.step 0
                    ((selectSteps questId s.db).map (fun st => st.title)) },
            seqs := { quest := s.seqs.quest + 1,
                      step := s.seqs.step + (selectSteps questId s.db).length } }) := by
  simp only [handle, Request.run, completeQuest, completeQuest.body, Server.connect,
    Conn.begin_ok _ hf, andThen_some, Conn.query_tx _ hf, hq, if_neg hnd,
    selectCharacter_markQuestDone, hc, completeQuest.spawnNext_repeat _ hf _ _ _ _ _ _ hrep,
    Conn.commit_ok _ hf, tryCatchRollback, Conn.release]
  rfl

/-- In a table with unique ids a row is determined by its id. -/
theorem eq_of_id_eq {α : Type} (f : α → Nat) (l : List α) (hn : (l.map f).Nodup)
    {x y : α} (hx : x ∈ l) (hy : y ∈ l) (h : f x = f y) : x = y :=
  List.inj_on_of_nodup_map hn hx hy h


theorem find?_eq_some_of_unique {α : Type} (f : α → Nat) (p : α → Bool) (l : List α)
    (hn : (l.map f).Nodup) (x : α) (hx : x ∈ l) (hp : p x = true)
    (hid : ∀ y ∈ l, p y = true → f y = f x) : l.find? p = some x := by
  cases h : l.find? p with
  | none =>
    rw [List.find?_eq_none] at h
    exact absurd hp (h x hx)
  | some y =>
    have hy := List.mem_of_find?_eq_some h
    have hpy := List.find?_some h
    rw [eq_of_id_eq f l hn hy hx (hid y hy hpy)]


/-! ## Theorems: completing twice -/

theorem completeQuest_run_done (env : Env) (hf : ∀ k, env.fail k = false) (s : Server)
    (userId questId : Nat) (quest : Quest)
    (hq : selectQuest questId userId s.db = some quest) (hd : quest.status = "done") :
    handle env (Request.completeQuest userId questId) s
      = (some (Response.error 400 "validation_error" "Quest already completed"), s) := by
  simp only [handle, Request.run, completeQuest, completeQuest.body, Server.connect,
    Conn.begin_ok _ hf, andThen_some, Conn.query_tx _ hf, hq, if_pos hd,
    Conn.rollback_ok _ hf, tryCatchRollback, Conn.release]

theorem find?_map_of {α : Type} (p : α → Bool) (g h : α → α) (l : List α)
    (hp : ∀ x, p (g x) = p x) (hg : ∀ x, p x = true → g x = h x) :
    (l.map g).find? p = (l.find? p).map h := by
  induction l with
  | nil => rfl
  | cons x rest ih =>
    rw [List.map_cons, List.find?_cons, List.find?_cons, hp x]
    cases hx : p x with
    | false => exact ih
    | true => simp [hg x hx]

theorem selectQuest_markQuestDone (questId userId : Nat) (now : Int) (db : Db) :
    selectQuest questId userId (markQuestDone questId now db)
      = (selectQuest questId userId db).map (fun q =>
          { q with status := "done", completed_at := some now, updated_at := now }) := by
  unfold selectQuest markQuestDone
  apply find?_map_of
  · intro x
    by_cases h : x.id = questId <;> simp [h]
  · intro x hx
    simp only [decide_eq_true_eq] at hx
    simp [hx.1]

theorem selectQuest_append_of_some (questId userId : Nat) (db : Db) (extra : List Quest)
    (q : Quest) (h : selectQuest questId userId db = some q) (chars : List Character)
    (steps : List QuestStep) :
    selectQuest questId userId
      { characters := chars, quests := db.quests ++ extra, quest_steps := steps } = some q := by
  unfold selectQuest at *
  simp only [List.find?_append, h]
  rfl

theorem selectQuest_congr (questId userId : Nat) (db db2 : Db) (h : db2.quests = db.quests) :
    selectQuest questId userId db2 = selectQuest questId userId db := by
  unfold selectQuest; rw [h]

theorem awardXp_level (character : Character) (earnedXp now : Int) (rows : List Character)
    (ch : Character) (h : ch ∈ awardXp character earnedXp now rows)
    (hid : ch.id = character.id) :
    ch.level = (calculateLevel { level := character.level, xp := character.xp } earnedXp).level ∧
    ch.xp = (calculateLevel { level := character.level, xp := character.xp } earnedXp).xp := by
  unfold awardXp at h
  obtain ⟨c0, _, rfl⟩ := List.mem_map.1 h
  by_cases h0 : c0.id = character.id
  · simp [h0]
  · simp [h0] at hid

theorem selectCharacter_mem {cid : Option Nat} {db : Db} {ch : Character}
    (h : selectCharacter cid db = some ch) : ch ∈ db.characters ∧ cid = some ch.id := by
  cases cid with
  | none => simp [selectCharacter] at h
  | some c =>
    simp only [selectCharacter] at h
    have h1 := List.mem_of_find?_eq_some h
    have h2 := List.find?_some h
    simp at h2
    exact ⟨h1, by rw [h2]⟩

theorem selectQuest_mem {questId userId : Nat} {db : Db} {q : Quest}
    (h : selectQuest questId userId db = some q) :
    q ∈ db.quests ∧ q.id = questId ∧ q.user_id = userId := by
  unfold selectQuest at h
  have h1 := List.mem_of_find?_eq_some h
  have h2 := List.find?_some h
  simp at h2
  exact ⟨h1, h2⟩

/-- C2. In a store where the caller's quest id resolves to an active quest `q`
whose character exists, and with no storage failure, the first completion
succeeds, the second replies with the validation error `Quest already completed`
and changes nothing, and after both calls the character rows are those of one
award of `q.xp_reward`: the quest's character has the level and xp that
`calculateLevel` gives when applied once to its original level and xp. -/
theorem completeQuest_twice (env1 env2 : Env) (hf1 : ∀ k, env1.fail k = false)
    (hf2 : ∀ k, env2.fail k = false) (s : Server) (userId questId : Nat) (q : Quest)
    (ch : Character) (hq : selectQuest questId userId s.db = some q)
    (hact : q.status = "active") (hc : selectCharacter q.character_id s.db = some ch) :
    (∃ quest character next,
      (handle env1 (Request.completeQuest userId questId) s).1
        = some (Response.ok (Reply.completed quest character next))) ∧
    (handle env2 (Request.completeQuest userId questId)
        (handle env1 (Request.completeQuest userId questId) s).2).1
      = some (Response.error 400 "validation_error" "Quest already completed") ∧
    (handle env2 (Request.completeQuest userId questId)
        (handle env1 (Request.completeQuest userId questId) s).2).2
      = (handle env1 (Request.completeQuest userId questId) s).2 ∧
    (handle env2 (Request.completeQuest userId questId)
        (handle env1 (Request.completeQuest userId questId) s).2).2.db.characters
      = awardXp ch q.xp_reward env1.dbNow s.db.characters ∧
    (∃ ch2 ∈ (handle env2 (Request.completeQuest userId questId)
        (handle env1 (Request.completeQuest userId questId) s).2).2.db.characters,
      ch2.id = ch.id) ∧
    (∀ ch2 ∈ (handle env2 (Request.completeQuest userId questId)
        (handle env1 (Request.completeQuest userId questId) s).2).2.db.characters,
      ch2.id = ch.id →
      ch2.level = (calculateLevel { level := ch.level, xp := ch.xp } q.xp_reward).level ∧
      ch2.xp = (calculateLevel { level := ch.level, xp := ch.xp } q.xp_reward).xp) := by
  have hnd : q.status ≠ "done" := by rw [hact]; decide
  have hdone : ∀ extra chars steps,
      selectQuest questId userId
        { characters := chars, quests := (markQuestDone questId env1.dbNow s.db).quests ++ extra,
          quest_steps := steps }
        = some { q with status := "done", completed_at := some env1.dbNow,
                        updated_at := env1.dbNow } := by
    intro extra chars steps
    apply selectQuest_append_of_some questId userId (markQuestDone questId env1.dbNow s.db)
    rw [selectQuest_markQuestDone, hq]
    rfl
  have hmem : ∃ ch2 ∈ awardXp ch q.xp_reward env1.dbNow s.db.characters, ch2.id = ch.id := by
    refine ⟨_, List.mem_map.2 ⟨ch, (selectCharacter_mem hc).1, rfl⟩, ?_⟩
    simp
  cases hrep : repeats q with
  | false =>
    have h1 := completeQuest_run_plain env1 hf1 s userId questId q ch hq hnd hc hrep
    have h2 := completeQuest_run_done env2 hf2 (handle env1 (Request.completeQuest userId questId) s).2
      userId questId _ (by rw [h1]; simpa using hdone [] _ _) rfl
    rw [h2]
    rw [h1]
    exact ⟨⟨_, _, _, rfl⟩, rfl, rfl, rfl, hmem, fun ch2 hm hid => awardXp_level _ _ _ _ _ hm hid⟩
  | true =>
    have h1 := completeQuest_run_repeat env1 hf1 s userId questId q ch hq hnd hc hrep
    have h2 := completeQuest_run_done env2 hf2 (handle env1 (Request.completeQuest userId questId) s).2
      userId questId _ (by rw [h1]; exact hdone _ _ _) rfl
    rw [h2]
    rw [h1]
    exact ⟨⟨_, _, _, rfl⟩, rfl, rfl, rfl, hmem, fun ch2 hm hid => awardXp_level _ _ _ _ _ hm hid⟩

/-- C2 on the store `exServer`: the second completion of quest 1 by user 7 is
refused and changes nothing. -/
theorem completeQuest_twice_witness :
    (handle exEnv (Request.completeQuest 7 1)
        (handle exEnv (Request.completeQuest 7 1) exServer).2).1
      = some (Response.error 400 "validation_error" "Quest already completed") ∧
    (handle exEnv (Request.completeQuest 7 1)
        (handle exEnv (Request.completeQuest 7 1) exServer).2).2
      = (handle exEnv (Request.completeQuest 7 1) exServer).2 :=
  ⟨(completeQuest_twice exEnv exEnv (fun _ => rfl) (fun _ => rfl) exServer 7 1 exQuest
      exCharacter (by decide) (by decide) (by decide)).2.1,
    (completeQuest_twice exEnv exEnv (fun _ => rfl) (fun _ => rfl) exServer 7 1 exQuest
      exCharacter (by decide) (by decide) (by decide)).2.2.1⟩

/-- In a store with unique quest ids, the quest the caller's id resolves to is the
row with that id, provided the caller owns it. -/
theorem selectQuest_of_mem (s : Server) (hwf : s.WF) (q : Quest) (hq : q ∈ s.db.quests) :
    selectQuest q.id q.user_id s.db = some q := by
  unfold selectQuest
  apply find?_eq_some_of_unique (fun q : Quest => q.id) _ _ hwf.1 q hq
  · simp
  · intro y _ hy
    simp only [decide_eq_true_eq] at hy
    exact hy.1

/-- In a store with unique character ids, a character id resolves to its row. -/
theorem selectCharacter_of_mem (s : Server) (hwf : s.WF) (ch : Character)
    (hch : ch ∈ s.db.characters) : selectCharacter (some ch.id) s.db = some ch := by
  unfold selectCharacter
  apply find?_eq_some_of_unique (fun ch : Character => ch.id) _ _ hwf.2.2.2.2 ch hch
  · simp
  · intro y _ hy
    simp only [decide_eq_true_eq] at hy
    exact hy

/-! ## Theorems: recurrence on completion -/

theorem truthy_iff (v : Option String) : truthy v = true ↔ ∃ s, v = some s ∧ s ≠ "" := by
  cases v with
  | none => simp [truthy]
  | some s => simp [truthy]

theorem repeats_iff (quest : Quest) :
    repeats quest = true ↔ ∃ rt, quest.repeat_type = some rt ∧ rt ≠ "" ∧ rt ≠ "none" := by
  unfold repeats
  rw [Bool.and_eq_true, truthy_iff]
  constructor
  · rintro ⟨⟨rt, h1, h2⟩, h3⟩
    refine ⟨rt, h1, h2, ?_⟩
    rw [h1] at h3
    simpa using h3
  · rintro ⟨rt, h1, h2, h3⟩
    refine ⟨⟨rt, h1, h2⟩, ?_⟩
    rw [h1]
    simpa using h3

theorem selectSteps_sorted (questId : Nat) (db : Db) :
    (selectSteps questId db).Sorted (fun a b => a.order_index ≤ b.order_index) := by
  haveI : IsTotal QuestStep (fun a b => a.order_index ≤ b.order_index) :=
    ⟨fun a b => le_total a.order_index b.order_index⟩
  haveI : IsTrans QuestStep (fun a b => a.order_index ≤ b.order_index) :=
    ⟨fun _ _ _ h1 h2 => le_trans h1 h2⟩
  exact List.sorted_insertionSort _ _

theorem selectSteps_perm (questId : Nat) (db : Db) :
    (selectSteps questId db).Perm (stepsOf questId db) :=
  List.perm_insertionSort _ _

/-- The steps of a quest with a fresh id after rows numbered for it are appended. -/
theorem stepsOf_append_fresh (questId firstId : Nat) (index : Int) (titles : List String)
    (chars : List Character) (quests : List Quest) (old : List QuestStep)
    (hfresh : ∀ st ∈ old, st.quest_id < questId) :
    stepsOf questId
        { characters := chars, quests := quests,
          quest_steps := old ++ numberedSteps questId firstId index titles }
      = numberedSteps questId firstId index titles := by
  unfold stepsOf
  simp only [List.filter_append]
  have h1 : old.filter (fun s => decide (s.quest_id = questId)) = [] := by
    rw [List.filter_eq_nil_iff]
    intro st hst
    have := hfresh st hst
    simp only [decide_eq_true_eq]
    omega
  have h2 : (numberedSteps questId firstId index titles).filter
      (fun s => decide (s.quest_id = questId)) = numberedSteps questId firstId index titles := by
    rw [List.filter_eq_self]
    intro st hst
    simp [(numberedSteps_mem hst).1]
  rw [h1, h2, List.nil_append]

/-- C3. Completing (with no storage failure) an active quest `q` with
`repeat_type = 'daily'` and `due_at = D`, in a store whose keys are well formed,
inserts exactly one quest row. The new quest is active, is due at `D` plus one
day, and has the user, character, title, description, xp reward, repeat type and
repeat interval of `q`; it is the `nextQuest` of the reply. Its steps are exactly
`n` new rows, where `s_0 .. s_(n-1)` are the steps of `q` in ascending
`order_index` (`selectSteps`): row `i` has the title of `s_i`, is not done and has
order index `i`, whatever the flags and order indices of the original steps. -/
theorem completeQuest_daily_spawns (env : Env) (hf : ∀ k, env.fail k = false) (s : Server)
    (hwf : s.WF) (userId questId : Nat) (q : Quest) (ch : Character) (D : Int)
    (hq : selectQuest questId userId s.db = some q) (hact : q.status = "active")
    (hc : selectCharacter q.character_id s.db = some ch)
    (hdaily : q.repeat_type = some "daily") (hdue : q.due_at = some D) :
    (∃ quest character,
      (handle env (Request.completeQuest userId questId) s).1
        = some (Response.ok (Reply.completed quest character
            (some (successorOf env q s.seqs.quest))))) ∧
    (handle env (Request.completeQuest userId questId) s).2.db.quests
      = (markQuestDone questId env.dbNow s.db).quests ++ [successorOf env q s.seqs.quest] ∧
    (handle env (Request.completeQuest userId questId) s).2.db.quests.length
      = s.db.quests.length + 1 ∧
    (∀ old ∈ s.db.quests, old.id ≠ (successorOf env q s.seqs.quest).id) ∧
    ((successorOf env q s.seqs.quest).status = "active" ∧
      (successorOf env q s.seqs.quest).due_at = some (D + JSDate.msPerDay) ∧
      (successorOf env q s.seqs.quest).user_id = q.user_id ∧
      (successorOf env q s.seqs.quest).character_id = q.character_id ∧
      (successorOf env q s.seqs.quest).title = q.title ∧
      (successorOf env q s.seqs.quest).description = q.description ∧
      (successorOf env q s.seqs.quest).xp_reward = q.xp_reward ∧
      (successorOf env q s.seqs.quest).repeat_type = some "daily" ∧
      (successorOf env q s.seqs.quest).repeat_interval = q.repeat_interval) ∧
    (handle env (Request.completeQuest userId questId) s).2.db.quest_steps
      = s.db.quest_steps ++
          stepsOf (successorOf env q s.seqs.quest).id
            (handle env (Request.completeQuest userId questId) s).2.db ∧
    (stepsOf (successorOf env q s.seqs.quest).id
        (handle env (Request.completeQuest userId questId) s).2.db).length
      = (selectSteps questId s.db).length ∧
    (∀ i : Nat,
      (stepsOf (successorOf env q s.seqs.quest).id
          (handle env (Request.completeQuest userId questId) s).2.db)[i]?
        = (selectSteps questId s.db)[i]?.map (fun st =>
            { id := s.seqs.step + i, quest_id := (successorOf env q s.seqs.quest).id,
              title := st.title, is_done := false, order_index := (i : Int) })) ∧
    (selectSteps questId s.db).Sorted (fun a b => a.order_index ≤ b.order_index) ∧
    (selectSteps questId s.db).Perm (stepsOf questId s.db) := by
  have hnd : q.status ≠ "done" := by rw [hact]; decide
  have hrep : repeats q = true := by
    rw [repeats_iff]; exact ⟨"daily", hdaily, by decide, by decide⟩
  have hrun := completeQuest_run_repeat env hf s userId questId q ch hq hnd hc hrep
  obtain ⟨_, hqid, _, hsteps, _⟩ := hwf
  have hfresh : ∀ st ∈ s.db.quest_steps, st.quest_id < s.seqs.quest :=
    fun st hst => (hsteps st hst).2
  have hso := stepsOf_append_fresh s.seqs.quest s.seqs.step 0
    ((selectSteps questId s.db).map (fun st => st.title))
    (awardXp ch q.xp_reward env.dbNow s.db.characters)
    ((markQuestDone questId env.dbNow s.db).quests ++ [successorOf env q s.seqs.quest])
    s.db.quest_steps hfresh
  rw [hrun]
  have hid : (successorOf env q s.seqs.quest).id = s.seqs.quest := rfl
  refine ⟨⟨_, _, rfl⟩, rfl, ?_, ?_, ?_, ?_, ?_, ?_, selectSteps_sorted _ _,
    selectSteps_perm _ _⟩
  · simp [markQuestDone]
  · intro old hold
    have := hqid old hold
    rw [hid]
    omega
  · refine ⟨rfl, ?_, rfl, rfl, rfl, rfl, rfl, hdaily, rfl⟩
    simp only [successorOf, hdue, hdaily, Option.getD_some, computeNextDueAt_daily]
  · simp only [hid, hso]
  · simp only [hid, hso, numberedSteps_length, List.length_map]
  · intro i
    simp only [hid, hso]
    rw [numberedSteps_getElem?, List.getElem?_map, Option.map_map]
    congr 1
    funext st
    simp

/-- C3 on the store `exServer`, whose quest 1 is daily with two steps stored out
of order: completion appends one quest row, the successor with id 2. -/
theorem completeQuest_daily_spawns_witness :
    (handle exEnv (Request.completeQuest 7 1) exServer).2.db.quests
      = (markQuestDone 1 exEnv.dbNow exServer.db).quests
          ++ [successorOf exEnv exQuest exServer.seqs.quest] :=
  (completeQuest_daily_spawns exEnv (fun _ => rfl) exServer (by decide) 7 1 exQuest
    exCharacter 86400000 (by decide) (by decide) (by decide) (by decide) (by decide)).2.1

/-! ## Theorems: when a successor is spawned -/

/-- C4 (counterexample). After user 7 patches the repeat type of the active quest 1
to the empty string, the repeat type is present and different from `'none'`, yet
completing the quest replies with `nextQuest` null. -/
theorem completeQuest_blank_repeat_no_successor :
    (∃ q, selectQuest 1 7 exBlankRepeat.db = some q ∧ q.status = "active" ∧
      q.repeat_type = some "" ∧ q.repeat_type ≠ none ∧ q.repeat_type ≠ some "none") ∧
    (∃ quest character,
      (handle exEnv (Request.completeQuest 7 1) exBlankRepeat).1
        = some (Response.ok (Reply.completed quest character none))) := by
  have hq : selectQuest 1 7 exBlankRepeat.db
      = some { exQuest with repeat_type := some "", updated_at := 1000 } := by decide
  refine ⟨⟨_, hq, by decide, by decide, by decide, by decide⟩, ?_⟩
  rw [completeQuest_run_plain exEnv (fun _ => rfl) exBlankRepeat 7 1 _ exCharacter hq
    (by decide) (by decide) (by decide)]
  exact ⟨_, _, rfl⟩

/-- C4 (amended). Completing (with no storage failure) an active owned quest whose
character exists: when `repeat_type = 'none'` no quest row and no step row is
inserted and `nextQuest` is null; and `nextQuest` is non-null exactly when
`repeat_type` is a non-empty string different from `'none'`. -/
theorem completeQuest_nextQuest (env : Env) (hf : ∀ k, env.fail k = false) (s : Server)
    (userId questId : Nat) (q : Quest) (ch : Character)
    (hq : selectQuest questId userId s.db = some q) (hact : q.status = "active")
    (hc : selectCharacter q.character_id s.db = some ch) :
    (q.repeat_type = some "none" →
      (handle env (Request.completeQuest userId questId) s).2.db.quests
        = (markQuestDone questId env.dbNow s.db).quests ∧
      (handle env (Request.completeQuest userId questId) s).2.db.quests.length
        = s.db.quests.length ∧
      (handle env (Request.completeQuest userId questId) s).2.db.quest_steps
        = s.db.quest_steps ∧
      ∃ quest character,
        (handle env (Request.completeQuest userId questId) s).1
          = some (Response.ok (Reply.completed quest character none))) ∧
    (∃ quest character next,
      (handle env (Request.completeQuest userId questId) s).1
        = some (Response.ok (Reply.completed quest character next)) ∧
      (next ≠ none ↔ ∃ rt, q.repeat_type = some rt ∧ rt ≠ "" ∧ rt ≠ "none")) := by
  have hnd : q.status ≠ "done" := by rw [hact]; decide
  constructor
  · intro hnone
    have hrep : repeats q = false := by
      rw [Bool.eq_false_iff, Ne, repeats_iff]
      rintro ⟨rt, h1, _, h3⟩
      rw [hnone] at h1
      exact h3 (Option.some.inj h1).symm
    rw [completeQuest_run_plain env hf s userId questId q ch hq hnd hc hrep]
    exact ⟨rfl, by simp [markQuestDone], rfl, _, _, rfl⟩
  · cases hrep : repeats q with
    | false =>
      rw [completeQuest_run_plain env hf s userId questId q ch hq hnd hc hrep]
      refine ⟨_, _, none, rfl, ?_⟩
      rw [← repeats_iff, hrep]
      simp
    | true =>
      rw [completeQuest_run_repeat env hf s userId questId q ch hq hnd hc hrep]
      refine ⟨_, _, _, rfl, ?_⟩
      rw [← repeats_iff, hrep]
      simp

/-- C4 (amended) on the store `exBlankRepeat`. -/
theorem completeQuest_nextQuest_witness :
    ∃ quest character next,
      (handle exEnv (Request.completeQuest 7 1) exBlankRepeat).1
        = some (Response.ok (Reply.completed quest character next)) ∧
      (next ≠ none ↔ ∃ rt, (some "" : Option String) = some rt ∧ rt ≠ "" ∧ rt ≠ "none") :=
  (completeQuest_nextQuest exEnv (fun _ => rfl) exBlankRepeat 7 1
    { exQuest with repeat_type := some "", updated_at := 1000 } exCharacter
    (by decide) (by decide) (by decide)).2

/-! ## Theorems: steps supplied at creation -/

/-- The step insertion loop of quest creation, when no insert is rejected, appends
one numbered row per entry with a truthy title. -/
theorem createQuest.insertSteps_ok (fail : Nat → Bool) (hf : ∀ k, fail k = false)
    (questId : Nat) (steps : List StepInput) (index : Int) (cm w : Db) (sq : Seqs) (n : Nat) :
    createQuest.insertSteps fail questId steps index
        { committed := cm, tx := some w, seqs := sq, issued := n }
      = (some (),
          { committed := cm,
            tx := some { w with quest_steps := (w.quest_steps ++
              numberedSteps questId sq.step index (keptTitles steps)) },
            seqs := { sq with step := sq.step + (keptTitles steps).length },
            issued := n + (keptTitles steps).length }) := by
  induction steps generalizing index w sq n with
  | nil => simp [createQuest.insertSteps, numberedSteps, keptTitles]
  | cons step rest ih =>
    unfold createQuest.insertSteps
    cases ht : truthy step.title with
    | false =>
      have hk : keptTitles (step :: rest) = keptTitles rest := by
        simp [keptTitles, List.filter_cons, ht]
      simp only [Bool.not_false, if_true, ih, hk]
    | true =>
      have hk : keptTitles (step :: rest) = step.title.getD "" :: keptTitles rest := by
        simp [keptTitles, List.filter_cons, ht]
      simp only [Bool.not_true, Bool.false_eq_true, if_false, Conn.query_tx fail hf,
        andThen_some, ih, hk]
      simp only [insertStep, numberedSteps, List.length_cons, List.append_assoc,
        List.singleton_append]
      have h1 : sq.step + 1 + (keptTitles rest).length
          = sq.step + ((keptTitles rest).length + 1) := by omega
      have h2 : n + 1 + (keptTitles rest).length = n + ((keptTitles rest).length + 1) := by omega
      rw [h1, h2]

/-- Creation of a quest from a valid body, with no storage failure: the reply and
the state afterwards. -/
theorem createQuest_run (env : Env) (hf : ∀ k, env.fail k = false) (s : Server)
    (userId : Nat) (body : QuestPayload) (hv : validateQuestPayload body = none) :
    handle env (Request.createQuest userId body) s
      = (some (Response.ok (Reply.quest
            (insertQuest userId (characterIdOf userId s.db) (body.title.getD "")
              (if truthy body.description then body.description else none)
              (body.xp_reward.getD 10) body.due_at
              (some (if truthy body.repeat_type then body.repeat_type.getD "" else "none"))
              (body.repeat_interval.getD 1) env.dbNow s.db s.seqs).1)),
          { db :=
              { characters := s.db.characters,
                quests := s.db.quests ++
                  [(insertQuest userId (characterIdOf userId s.db) (body.title.getD "")
                    (if truthy body.description then body.description else none)
                    (body.xp_reward.getD 10) body.due_at
                    (some (if truthy body.repeat_type then body.repeat_type.getD "" else "none"))
                    (body.repeat_interval.getD 1) env.dbNow s.db s.seqs).1],
                quest_steps := s.db.quest_steps ++
                  numberedSteps s.seqs.quest s.seqs.step 0 (keptTitles (body.steps.getD [])) },
            seqs := { quest := s.seqs.quest + 1,
                      step := s.seqs.step + (keptTitles (body.steps.getD [])).length } }) := by
  simp only [handle, Request.run, createQuest, hv, createQuest.body, Server.connect,
    Conn.begin_ok _ hf, andThen_some, Conn.query_tx _ hf, tryCatchRollback]
  cases hs : body.steps with
  | none =>
    simp only [andThen_some, Conn.commit_ok _ hf, Conn.release, Option.getD_none]
    simp [insertQuest, keptTitles, numberedSteps]
  | some steps =>
    by_cases hlen : steps.length > 0
    · simp only [if_pos hlen, createQuest.insertSteps_ok _ hf, andThen_some,
        Conn.commit_ok _ hf, Conn.release, Option.getD_some]
      simp [insertQuest]
    · have hnil : steps = [] := by
        cases steps with
        | nil => rfl
        | cons a b => simp at hlen
      subst hnil
      simp only [if_neg hlen, andThen_some, Conn.commit_ok _ hf, Conn.release,
        Option.getD_some]
      simp [insertQuest, keptTitles, numberedSteps]

/-- C5. Creating a quest (with no storage failure, in a store whose keys are well
formed) from a valid body whose `steps` field is a list persists, as the steps of
the new quest, exactly the entries with a non-empty title in their original
order: row `i` carries the title of the `i`-th kept entry, is not done and has
order index `i`. For the steps `a`, empty, `b` the rows are `a` at index 0 and `b`
at index 1. -/
theorem createQuest_steps (env : Env) (hf : ∀ k, env.fail k = false) (s : Server)
    (hwf : s.WF) (userId : Nat) (body : QuestPayload) (steps : List StepInput)
    (hv : validateQuestPayload body = none) (hsteps : body.steps = some steps) :
    (∃ quest,
      (handle env (Request.createQuest userId body) s).1
        = some (Response.ok (Reply.quest quest)) ∧ quest.id = s.seqs.quest ∧
      quest ∈ (handle env (Request.createQuest userId body) s).2.db.quests) ∧
    (handle env (Request.createQuest userId body) s).2.db.quest_steps
      = s.db.quest_steps
          ++ stepsOf s.seqs.quest (handle env (Request.createQuest userId body) s).2.db ∧
    (stepsOf s.seqs.quest (handle env (Request.createQuest userId body) s).2.db).length
      = (steps.filter (fun e => truthy e.title)).length ∧
    (∀ i : Nat,
      (stepsOf s.seqs.quest (handle env (Request.createQuest userId body) s).2.db)[i]?
        = (steps.filter (fun e => truthy e.title))[i]?.map (fun e =>
            { id := s.seqs.step + i, quest_id := s.seqs.quest, title := e.title.getD "",
              is_done := false, order_index := (i : Int) })) ∧
    (∀ e : StepInput, e ∈ steps.filter (fun e => truthy e.title) ↔
      e ∈ steps ∧ ∃ t, e.title = some t ∧ t ≠ "") ∧
    (handle exEnv (Request.createQuest 7 exPayload) exStart).2.db.quest_steps
      = [{ id := 1, quest_id := 1, title := "a", is_done := false, order_index := 0 },
         { id := 2, quest_id := 1, title := "b", is_done := false, order_index := 1 }] := by
  obtain ⟨_, _, _, hst, _⟩ := hwf
  have hfresh : ∀ st ∈ s.db.quest_steps, st.quest_id < s.seqs.quest :=
    fun st h => (hst st h).2
  have hso := fun quests => stepsOf_append_fresh s.seqs.quest s.seqs.step 0
    (keptTitles steps) s.db.characters quests s.db.quest_steps hfresh
  rw [createQuest_run env hf s userId body hv, hsteps]
  simp only [Option.getD_some, hso]
  refine ⟨⟨_, rfl, rfl, by simp⟩, trivial, ?_, ?_, ?_, by decide⟩
  · simp [numberedSteps_length, keptTitles]
  · intro i
    rw [numberedSteps_getElem?]
    simp only [keptTitles, List.getElem?_map, Option.map_map]
    congr 1
    funext e
    simp
  · intro e
    rw [List.mem_filter, truthy_iff]

/-- C5 for the body `exPayload` (steps `a`, empty, `b`) on the store `exStart`. -/
theorem createQuest_steps_witness :
    (stepsOf exStart.seqs.quest
        (handle exEnv (Request.createQuest 7 exPayload) exStart).2.db).length
      = ([{ title := some "a" }, { title := some "" }, { title := some "b" }].filter
          (fun e : StepInput => truthy e.title)).length :=
  (createQuest_steps exEnv (fun _ => rfl) exStart (by decide) 7 exPayload
    [{ title := some "a" }, { title := some "" }, { title := some "b" }]
    (by decide) (by decide)).2.2.1

/-! ## Theorems: atomic completion -/

/-- C8. Whenever the complete operation replies with an error (quest not found,
already completed, character not found for quest, or a storage failure at any
statement), the committed store after the call is the store before it and no
transaction is left open; the same holds for the committed store when the
handler throws without replying. So a store in which the quest is marked done
but the character is not updated is never committed. -/
theorem completeQuest_error_leaves_store :
    (∀ (env : Env) (s : Server) (userId questId : Nat) (status : Nat) (code message : String),
      (handle env (Request.completeQuest userId questId) s).1
          = some (Response.error status code message) →
      (handle env (Request.completeQuest userId questId) s).2.db = s.db ∧
      (completeQuest env userId questId s.connect).2.tx = none) ∧
    (∀ (env : Env) (s : Server) (userId questId : Nat),
      (handle env (Request.completeQuest userId questId) s).1 = none →
      (handle env (Request.completeQuest userId questId) s).2.db = s.db) := by
  constructor
  · intro env s userId questId status code message h
    have hu := completeQuest_unchanged env userId questId s.connect
    simp only [handle, Request.run] at h ⊢
    unfold Unchanged at hu
    rw [h] at hu
    exact ⟨hu.1, hu.2⟩
  · intro env s userId questId h
    have hu := completeQuest_unchanged env userId questId s.connect
    simp only [handle, Request.run] at h ⊢
    unfold Unchanged at hu
    rw [h] at hu
    exact hu

/-- C8 on the store `exServer` with the character update rejected: the reply is a
server error and the committed store is the one before the call. -/
theorem completeQuest_error_leaves_store_witness :
    (handle exEnvFail (Request.completeQuest 7 1) exServer).2.db = exServer.db ∧
    (completeQuest exEnvFail 7 1 exServer.connect).2.tx = none :=
  completeQuest_error_leaves_store.1 exEnvFail exServer 7 1 500 "server_error"
    "Failed to complete quest" (by decide)

/-! ## Theorems: patching -/

theorem head?_filter_eq_find? {α : Type} (p : α → Bool) (l : List α) :
    (l.filter p).head? = l.find? p := by
  induction l with
  | nil => rfl
  | cons x rest ih =>
    cases hx : p x <;> simp [List.filter_cons, List.find?_cons, hx, ih]

theorem map_ite_eq_self {α : Type} (p : α → Prop) [DecidablePred p] (g : α → α) (l : List α)
    (h : ∀ x ∈ l, ¬ p x) : l.map (fun x => if p x then g x else x) = l := by
  induction l with
  | nil => rfl
  | cons x rest ih =>
    simp only [List.map_cons, if_neg (h x (List.mem_cons_self _ _))]
    rw [ih (fun y hy => h y (List.mem_cons_of_mem _ hy))]

theorem map_ite_congr {α : Type} (p q : α → Prop) [DecidablePred p] [DecidablePred q]
    (g h : α → α) (l : List α) (hpq : ∀ x ∈ l, (p x ↔ q x)) (hgh : ∀ x ∈ l, p x → g x = h x) :
    l.map (fun x => if p x then g x else x) = l.map (fun x => if q x then h x else x) := by
  apply List.map_congr_left
  intro x hx
  by_cases hp : p x
  · rw [if_pos hp, if_pos ((hpq x hx).1 hp), hgh x hx hp]
  · rw [if_neg hp, if_neg (fun hq => hp ((hpq x hx).2 hq))]

theorem questPatch_updates_length_eq_zero_iff (body : QuestPatch) :
    body.updates.length = 0 ↔
      (body.title = none ∧ body.description = none ∧ body.xp_reward = none ∧
        body.due_at = none ∧ body.repeat_type = none ∧ body.repeat_interval = none ∧
        body.status = none) := by
  obtain ⟨t, d, x, du, rt, ri, st⟩ := body
  cases t <;> cases d <;> cases x <;> cases du <;> cases rt <;> cases ri <;> cases st <;>
    simp [QuestPatch.updates, QuestPatch.supplied, List.filter]

theorem stepPatch_updates_length_eq_zero_iff (body : StepPatch) :
    body.updates.length = 0 ↔ (body.title = none ∧ body.is_done = none) := by
  obtain ⟨t, d⟩ := body
  cases t <;> cases d <;> simp [StepPatch.updates, StepPatch.supplied, List.filter]

theorem patchQuest_run (env : Env) (hf : env.fail 0 = false) (s : Server)
    (userId questId : Nat) (body : QuestPatch) (hu : body.updates.length ≠ 0) :
    handle env (Request.patchQuest userId questId body) s
      = (match (selectQuest questId userId s.db).map (body.apply env.dbNow) with
          | none => some (Response.error 404 "not_found" "Quest not found")
          | some quest => some (Response.ok (Reply.quest quest)),
          { db := { s.db with quests := s.db.quests.map (fun q =>
              if q.id = questId ∧ q.user_id = userId then body.apply env.dbNow q else q) },
            seqs := s.seqs }) := by
  simp only [handle, Request.run, patchQuest, if_neg hu, Server.connect, Conn.query, hf,
    Bool.false_eq_true, if_false, andThen, tryCatch, Conn.release, Conn.store, Conn.view,
    updateQuest, List.head?_map, head?_filter_eq_find?, selectQuest]
  cases List.find? (fun q => decide (q.id = questId ∧ q.user_id = userId)) s.db.quests <;> rfl

theorem stepOwned_iff (stepId userId : Nat) (db : Db) (st : QuestStep) :
    stepOwned stepId userId db st = true ↔
      st.id = stepId ∧ ∃ q ∈ db.quests, q.id = st.quest_id ∧ q.user_id = userId := by
  unfold stepOwned
  simp only [Bool.and_eq_true, decide_eq_true_eq, List.any_eq_true, List.mem_filter]
  constructor
  · rintro ⟨h1, q, ⟨hq, hu⟩, hid⟩
    exact ⟨h1, q, hq, hid, hu⟩
  · rintro ⟨h1, q, hq, hid, hu⟩
    exact ⟨h1, q, ⟨hq, hu⟩, hid⟩

theorem patchStep_run (env : Env) (hf : env.fail 0 = false) (s : Server)
    (userId stepId : Nat) (body : StepPatch) (hu : body.updates.length ≠ 0) :
    handle env (Request.patchStep userId stepId body) s
      = (match (s.db.quest_steps.find? (stepOwned stepId userId s.db)).map body.apply with
          | none => some (Response.error 404 "not_found" "Step not found")
          | some step => some (Response.ok (Reply.step step)),
          { db := { s.db with quest_steps := s.db.quest_steps.map (fun st =>
              if stepOwned stepId userId s.db st then body.apply st else st) },
            seqs := s.seqs }) := by
  simp only [handle, Request.run, patchStep, if_neg hu, Server.connect, Conn.query, hf,
    Bool.false_eq_true, if_false, andThen, tryCatch, Conn.release, Conn.store, Conn.view,
    updateStep, List.head?_map, head?_filter_eq_find?]
  cases List.find? (stepOwned stepId userId s.db) s.db.quest_steps <;> rfl

/-- C6. A quest patch, and likewise a step patch, whose body supplies none of the
patchable fields replies with the validation error `No fields to update` without
issuing a storage round trip, so the store is unchanged. A patch that supplies a
field, on an id that no row owned by the caller has, replies `not_found` and
leaves the store unchanged. Otherwise (keys well formed, the statement not
rejected) the reply is the patched row and the store differs from the one before
in that one row only, whose supplied columns take the supplied values, whose
`updated_at` (quests) is the store time, and whose other columns are kept. -/
theorem patch_changes_supplied_fields :
    (∀ (env : Env) (userId questId : Nat) (body : QuestPatch) (c : Conn),
      body.title = none → body.description = none → body.xp_reward = none →
      body.due_at = none → body.repeat_type = none → body.repeat_interval = none →
      body.status = none →
      patchQuest env userId questId body c
        = (some (Response.error 400 "validation_error" "No fields to update"), c)) ∧
    (∀ (env : Env) (userId stepId : Nat) (body : StepPatch) (c : Conn),
      body.title = none → body.is_done = none →
      patchStep env userId stepId body c
        = (some (Response.error 400 "validation_error" "No fields to update"), c)) ∧
    (∀ (env : Env) (s : Server) (userId questId : Nat) (body : QuestPatch),
      env.fail 0 = false →
      ¬ (body.title = none ∧ body.description = none ∧ body.xp_reward = none ∧
        body.due_at = none ∧ body.repeat_type = none ∧ body.repeat_interval = none ∧
        body.status = none) →
      (∀ q ∈ s.db.quests, ¬ (q.id = questId ∧ q.user_id = userId)) →
      handle env (Request.patchQuest userId questId body) s
        = (some (Response.error 404 "not_found" "Quest not found"), s)) ∧
    (∀ (env : Env) (s : Server) (userId stepId : Nat) (body : StepPatch),
      env.fail 0 = false → ¬ (body.title = none ∧ body.is_done = none) →
      (∀ st ∈ s.db.quest_steps,
        ¬ (st.id = stepId ∧ ∃ q ∈ s.db.quests, q.id = st.quest_id ∧ q.user_id = userId)) →
      handle env (Request.patchStep userId stepId body) s
        = (some (Response.error 404 "not_found" "Step not found"), s)) ∧
    (∀ (env : Env) (s : Server) (userId questId : Nat) (body : QuestPatch) (q0 : Quest),
      env.fail 0 = false → s.WF →
      ¬ (body.title = none ∧ body.description = none ∧ body.xp_reward = none ∧
        body.due_at = none ∧ body.repeat_type = none ∧ body.repeat_interval = none ∧
        body.status = none) →
      q0 ∈ s.db.quests → q0.id = questId → q0.user_id = userId →
      handle env (Request.patchQuest userId questId body) s
        = (some (Response.ok (Reply.quest (body.apply env.dbNow q0))),
            { db := { s.db with quests := s.db.quests.map (fun r =>
                if r = q0 then body.apply env.dbNow q0 else r) },
              seqs := s.seqs }) ∧
      body.apply env.dbNow q0 =
        { id := q0.id, user_id := q0.user_id, character_id := q0.character_id,
          title := body.title.getD q0.title,
          description := body.description.getD q0.description,
          xp_reward := body.xp_reward.getD q0.xp_reward,
          status := body.status.getD q0.status,
          due_at := body.due_at.getD q0.due_at,
          repeat_type := body.repeat_type.getD q0.repeat_type,
          repeat_interval := body.repeat_interval.getD q0.repeat_interval,
          completed_at := q0.completed_at, created_at := q0.created_at,
          updated_at := env.dbNow }) ∧
    (∀ (env : Env) (s : Server) (userId stepId : Nat) (body : StepPatch) (st0 : QuestStep),
      env.fail 0 = false → s.WF → ¬ (body.title = none ∧ body.is_done = none) →
      st0 ∈ s.db.quest_steps → st0.id = stepId →
      (∃ q ∈ s.db.quests, q.id = st0.quest_id ∧ q.user_id = userId) →
      handle env (Request.patchStep userId stepId body) s
        = (some (Response.ok (Reply.step (body.apply st0))),
            { db := { s.db with quest_steps := s.db.quest_steps.map (fun r =>
                if r = st0 then body.apply st0 else r) },
              seqs := s.seqs }) ∧
      body.apply st0 =
        { id := st0.id, quest_id := st0.quest_id, title := body.title.getD st0.title,
          is_done := body.is_done.getD st0.is_done, order_index := st0.order_index }) := by
  refine ⟨?_, ?_, ?_, ?_, ?_, ?_⟩
  · intro env userId questId body c h1 h2 h3 h4 h5 h6 h7
    have hz := (questPatch_updates_length_eq_zero_iff body).2 ⟨h1, h2, h3, h4, h5, h6, h7⟩
    simp only [patchQuest, if_pos hz]
  · intro env userId stepId body c h1 h2
    have hz := (stepPatch_updates_length_eq_zero_iff body).2 ⟨h1, h2⟩
    simp only [patchStep, if_pos hz]
  · intro env s userId questId body hf hsup hno
    have hu : body.updates.length ≠ 0 :=
      fun h => hsup ((questPatch_updates_length_eq_zero_iff body).1 h)
    rw [patchQuest_run env hf s userId questId body hu]
    have hfind : selectQuest questId userId s.db = none := by
      unfold selectQuest
      rw [List.find?_eq_none]
      intro q hq
      simpa using hno q hq
    rw [hfind, map_ite_eq_self _ _ _ hno]
    rfl
  · intro env s userId stepId body hf hsup hno
    have hu : body.updates.length ≠ 0 :=
      fun h => hsup ((stepPatch_updates_length_eq_zero_iff body).1 h)
    rw [patchStep_run env hf s userId stepId body hu]
    have hno2 : ∀ st ∈ s.db.quest_steps, ¬ (stepOwned stepId userId s.db st = true) := by
      intro st hst h
      exact hno st hst ((stepOwned_iff _ _ _ _).1 h)
    have hfind : s.db.quest_steps.find? (stepOwned stepId userId s.db) = none := by
      rw [List.find?_eq_none]
      exact hno2
    rw [hfind, map_ite_eq_self _ _ _ hno2]
    rfl
  · intro env s userId questId body q0 hf hwf hsup hq0 hid huser
    have hu : body.updates.length ≠ 0 :=
      fun h => hsup ((questPatch_updates_length_eq_zero_iff body).1 h)
    obtain ⟨hn, _, _, _, _⟩ := hwf
    rw [patchQuest_run env hf s userId questId body hu]
    have hfind : selectQuest questId userId s.db = some q0 := by
      unfold selectQuest
      apply find?_eq_some_of_unique (fun q => q.id) _ _ hn q0 hq0
      · simp [hid, huser]
      · intro y _ hy
        simp only [decide_eq_true_eq] at hy
        rw [hy.1, hid]
    have hmap : s.db.quests.map (fun q =>
          if q.id = questId ∧ q.user_id = userId then body.apply env.dbNow q else q)
        = s.db.quests.map (fun r => if r = q0 then body.apply env.dbNow q0 else r) := by
      apply map_ite_congr
      · intro x hx
        constructor
        · rintro ⟨h1, _⟩
          exact eq_of_id_eq (fun q => q.id) _ hn hx hq0 (by simp only; rw [h1, hid])
        · rintro rfl
          exact ⟨hid, huser⟩
      · rintro x hx ⟨h1, _⟩
        rw [eq_of_id_eq (fun q => q.id) _ hn hx hq0 (by simp only; rw [h1, hid])]
    rw [hfind, hmap]
    exact ⟨rfl, rfl⟩
  · intro env s userId stepId body st0 hf hwf hsup hst0 hid hown
    have hu : body.updates.length ≠ 0 :=
      fun h => hsup ((stepPatch_updates_length_eq_zero_iff body).1 h)
    obtain ⟨_, _, hn, _, _⟩ := hwf
    rw [patchStep_run env hf s userId stepId body hu]
    have hp0 : stepOwned stepId userId s.db st0 = true := (stepOwned_iff _ _ _ _).2 ⟨hid, hown⟩
    have hfind : s.db.quest_steps.find? (stepOwned stepId userId s.db) = some st0 := by
      apply find?_eq_some_of_unique (fun st => st.id) _ _ hn st0 hst0 hp0
      intro y _ hy
      rw [((stepOwned_iff _ _ _ _).1 hy).1, hid]
    have hmap : s.db.quest_steps.map (fun st =>
          if stepOwned stepId userId s.db st = true then body.apply st else st)
        = s.db.quest_steps.map (fun r => if r = st0 then body.apply st0 else r) := by
      apply map_ite_congr
      · intro x hx
        constructor
        · intro h
          exact eq_of_id_eq (fun st => st.id) _ hn hx hst0
            (by simp only; rw [((stepOwned_iff _ _ _ _).1 h).1, hid])
        · rintro rfl
          exact hp0
      · intro x hx h
        rw [eq_of_id_eq (fun st => st.id) _ hn hx hst0
          (by simp only; rw [((stepOwned_iff _ _ _ _).1 h).1, hid])]
    rw [hfind, hmap]
    exact ⟨rfl, rfl⟩

/-- C6 on the store `exServer`: patching only the title of quest 1 as its owner
changes that row alone, and so does marking step 2 done; a step patch on an id
that no step of user 7 has replies `not_found`. -/
theorem patch_changes_supplied_fields_witness :
    handle exEnv (Request.patchQuest 7 1 { QuestPatch.empty with title := some "Walk" }) exServer
      = (some (Response.ok (Reply.quest
            (QuestPatch.apply { QuestPatch.empty with title := some "Walk" } exEnv.dbNow exQuest))),
          { db := { exServer.db with quests := exServer.db.quests.map (fun r =>
              if r = exQuest then
                QuestPatch.apply { QuestPatch.empty with title := some "Walk" } exEnv.dbNow exQuest
              else r) },
            seqs := exServer.seqs }) ∧
    handle exEnv (Request.patchStep 7 2 { title := none, is_done := some true }) exServer
      = (some (Response.ok (Reply.step
            { id := 2, quest_id := 1, title := "warm up", is_done := true, order_index := 2 })),
          { db := { exServer.db with quest_steps := exServer.db.quest_steps.map (fun r =>
              if r = { id := 2, quest_id := 1, title := "warm up", is_done := false,
                       order_index := 2 } then
                { id := 2, quest_id := 1, title := "warm up", is_done := true, order_index := 2 }
              else r) },
            seqs := exServer.seqs }) ∧
    handle exEnv (Request.patchStep 7 9 { title := some "x", is_done := none }) exServer
      = (some (Response.error 404 "not_found" "Step not found"), exServer) :=
  ⟨(patch_changes_supplied_fields.2.2.2.2.1 exEnv exServer 7 1
      { QuestPatch.empty with title := some "Walk" } exQuest (by decide) (by decide) (by decide)
      (by decide) (by decide) (by decide)).1,
    (patch_changes_supplied_fields.2.2.2.2.2 exEnv exServer 7 2
      { title := none, is_done := some true }
      { id := 2, quest_id := 1, title := "warm up", is_done := false, order_index := 2 }
      (by decide) (by decide) (by decide) (by decide) (by decide) (by decide)).1,
    patch_changes_supplied_fields.2.2.2.1 exEnv exServer 7 9
      { title := some "x", is_done := none } (by decide) (by decide) (by decide)⟩

/-! ## Theorems: outcomes under arbitrary storage failures -/

theorem Conn.query_tx_ok {α : Type} (fail : Nat → Bool) (cm w : Db) (sq : Seqs) (n : Nat)
    (stmt : Db → Seqs → α × Db × Seqs) (hf : fail n = false) :
    Conn.query { committed := cm, tx := some w, seqs := sq, issued := n } fail stmt
      = (some (stmt w sq).1,
          { committed := cm, tx := some (stmt w sq).2.1, seqs := (stmt w sq).2.2,
            issued := n + 1 }) := by
  simp [Conn.query, hf, Conn.view, Conn.store]

theorem Conn.query_failed {α : Type} (fail : Nat → Bool) (c : Conn)
    (stmt : Db → Seqs → α × Db × Seqs) (hf : fail c.issued = true) :
    c.query fail stmt = (none, { c with issued := c.issued + 1 }) := by
  simp [Conn.query, hf]

theorem Conn.query_auto_ok {α : Type} (fail : Nat → Bool) (cm : Db) (sq : Seqs) (n : Nat)
    (stmt : Db → Seqs → α × Db × Seqs) (hf : fail n = false) :
    Conn.query { committed := cm, tx := none, seqs := sq, issued := n } fail stmt
      = (some (stmt cm sq).1,
          { committed := (stmt cm sq).2.1, tx := none, seqs := (stmt cm sq).2.2,
            issued := n + 1 }) := by
  simp [Conn.query, hf, Conn.view, Conn.store]

/-- Whatever the `catch` block of a transactional handler does after an
exception, the connection is released with the committed tables it had. -/
theorem tryCatchRollback_none_release (fail : Nat → Bool) (c : Conn) (r : Response) :
    (tryCatchRollback fail (none, c) r).2.release = { db := c.committed, seqs := c.seqs } := by
  by_cases hf : fail c.issued = true <;>
    simp [tryCatchRollback, Conn.rollback, andThen, hf, Conn.release]

theorem tryCatchRollback_none_reply (fail : Nat → Bool) (c : Conn) (r : Response) :
    (tryCatchRollback fail (none, c) r).1 = none ∨ (tryCatchRollback fail (none, c) r).1 = some r := by
  by_cases hf : fail c.issued = true <;>
    simp [tryCatchRollback, Conn.rollback, andThen, hf]

/-- The step cloning loop under arbitrary failures: it either throws, with the
committed tables and the quest id generator untouched, or inserts all rows. -/
theorem completeQuest.cloneSteps_outcome (fail : Nat → Bool)
    (nextQuestId : Nat) (steps : List QuestStep) (index : Int) (cm w : Db) (sq : Seqs)
    (n : Nat) :
    (∃ c2 : Conn, completeQuest.cloneSteps fail nextQuestId steps index
        { committed := cm, tx := some w, seqs := sq, issued := n } = (none, c2) ∧
      c2.committed = cm ∧ c2.seqs.quest = sq.quest ∧ sq.step ≤ c2.seqs.step) ∨
    completeQuest.cloneSteps fail nextQuestId steps index
        { committed := cm, tx := some w, seqs := sq, issued := n }
      = (some (),
          { committed := cm,
            tx := some { w with quest_steps := (w.quest_steps ++
              numberedSteps nextQuestId sq.step index (steps.map (fun st => st.title))) },
            seqs := { sq with step := sq.step + steps.length },
            issued := n + steps.length }) := by
  induction steps generalizing index w sq n with
  | nil => right; simp [completeQuest.cloneSteps, numberedSteps]
  | cons step rest ih =>
    unfold completeQuest.cloneSteps
    cases hf : fail n with
    | true =>
      left
      rw [Conn.query_failed fail _ _ hf, andThen_none]
      exact ⟨_, rfl, rfl, rfl, le_refl _⟩
    | false =>
      rw [Conn.query_tx_ok fail cm w sq n _ hf, andThen_some]
      rcases ih (index + 1) (insertStep nextQuestId step.title index w sq).2.1
        (insertStep nextQuestId step.title index w sq).2.2 (n + 1) with ⟨c2, h, h1, h2, h3⟩ | h
      · left
        refine ⟨c2, h, h1, h2, ?_⟩
        simp only [insertStep] at h3
        omega
      · right
        rw [h]
        simp only [insertStep, List.map_cons, numberedSteps, List.length_cons, List.append_assoc,
          List.singleton_append]
        have h1 : sq.step + 1 + rest.length = sq.step + (rest.length + 1) := by omega
        have h2 : n + 1 + rest.length = n + (rest.length + 1) := by omega
        rw [h1, h2]

/-- The step insertion loop of creation under arbitrary failures. -/
theorem createQuest.insertSteps_outcome (fail : Nat → Bool)
    (questId : Nat) (steps : List StepInput) (index : Int) (cm w : Db) (sq : Seqs) (n : Nat) :
    (∃ c2 : Conn, createQuest.insertSteps fail questId steps index
        { committed := cm, tx := some w, seqs := sq, issued := n } = (none, c2) ∧
      c2.committed = cm ∧ c2.seqs.quest = sq.quest ∧ sq.step ≤ c2.seqs.step) ∨
    createQuest.insertSteps fail questId steps index
        { committed := cm, tx := some w, seqs := sq, issued := n }
      = (some (),
          { committed := cm,
            tx := some { w with quest_steps := (w.quest_steps ++
              numberedSteps questId sq.step index (keptTitles steps)) },
            seqs := { sq with step := sq.step + (keptTitles steps).length },
            issued := n + (keptTitles steps).length }) := by
  induction steps generalizing index w sq n with
  | nil => right; simp [createQuest.insertSteps, numberedSteps, keptTitles]
  | cons step rest ih =>
    unfold createQuest.insertSteps
    cases ht : truthy step.title with
    | false =>
      have hk : keptTitles (step :: rest) = keptTitles rest := by
        simp [keptTitles, List.filter_cons, ht]
      simp only [Bool.not_false, if_true, hk]
      exact ih index w sq n
    | true =>
      have hk : keptTitles (step :: rest) = step.title.getD "" :: keptTitles rest := by
        simp [keptTitles, List.filter_cons, ht]
      simp only [Bool.not_true, Bool.false_eq_true, if_false, hk]
      cases hf : fail n with
      | true =>
        left
        rw [Conn.query_failed fail _ _ hf, andThen_none]
        exact ⟨_, rfl, rfl, rfl, le_refl _⟩
      | false =>
        rw [Conn.query_tx_ok fail cm w sq n _ hf, andThen_some]
        rcases ih (index + 1) (insertStep questId (step.title.getD "") index w sq).2.1
          (insertStep questId (step.title.getD "") index w sq).2.2 (n + 1)
          with ⟨c2, h, h1, h2, h3⟩ | h
        · left
          refine ⟨c2, h, h1, h2, ?_⟩
          simp only [insertStep] at h3
          omega
        · right
          rw [h]
          simp only [insertStep, numberedSteps, List.length_cons, List.append_assoc,
            List.singleton_append]
          have h1 : sq.step + 1 + (keptTitles rest).length
              = sq.step + ((keptTitles rest).length + 1) := by omega
          have h2 : n + 1 + (keptTitles rest).length
              = n + ((keptTitles rest).length + 1) := by omega
          rw [h1, h2]

theorem Conn.begin_ok_at (fail : Nat → Bool) (cm : Db) (sq : Seqs) (n : Nat)
    (hf : fail n = false) :
    Conn.begin { committed := cm, tx := none, seqs := sq, issued := n } fail
      = (some (), { committed := cm, tx := some cm, seqs := sq, issued := n + 1 }) := by
  simp [Conn.begin, hf, Conn.view]

theorem Conn.commit_ok_at (fail : Nat → Bool) (cm w : Db) (sq : Seqs) (n : Nat)
    (hf : fail n = false) :
    Conn.commit { committed := cm, tx := some w, seqs := sq, issued := n } fail
      = (some (), { committed := w, tx := none, seqs := sq, issued := n + 1 }) := by
  simp [Conn.commit, hf, Conn.view]

/-- An explicit `ROLLBACK` and error reply inside the `try` block, followed by the
`catch` block and the release of the connection: nothing is committed. -/
theorem rollback_reply_release (fail : Nat → Bool) (c : Conn) (r r2 : Response) :
    (tryCatchRollback fail (andThen (c.rollback fail) fun _ c => (some r, c)) r2).2.release
      = { db := c.committed, seqs := c.seqs } := by
  cases hf : fail c.issued with
  | true =>
    have : c.rollback fail = (none, { c with issued := c.issued + 1 }) := by
      simp [Conn.rollback, hf]
    rw [this, andThen_none, tryCatchRollback_none_release]
  | false =>
    have : c.rollback fail = (some (), { c with tx := none, issued := c.issued + 1 }) := by
      simp [Conn.rollback, hf]
    rw [this, andThen_some]
    rfl

theorem Server.KeptBy.refl (s : Server) : s.KeptBy s := ⟨rfl, le_refl _, le_refl _⟩

theorem completeQuest.spawnNext_outcome (env : Env) (questId : Nat) (quest : Quest)
    (cm w : Db) (sq : Seqs) (n : Nat) (hrep : repeats quest = true) :
    (∃ c2 : Conn, completeQuest.spawnNext env questId quest
        { committed := cm, tx := some w, seqs := sq, issued := n } = (none, c2) ∧
      c2.committed = cm ∧ sq.quest ≤ c2.seqs.quest ∧ sq.step ≤ c2.seqs.step) ∨
    completeQuest.spawnNext env questId quest
        { committed := cm, tx := some w, seqs := sq, issued := n }
      = (some (some (successorOf env quest sq.quest)),
          { committed := cm,
            tx := some
              { characters := w.characters,
                quests := w.quests ++ [successorOf env quest sq.quest],
                quest_steps := w.quest_steps ++
                  numberedSteps sq.quest sq.step 0
                    ((selectSteps questId w).map (fun st => st.title)) },
            seqs := { quest := sq.quest + 1, step := sq.step + (selectSteps questId w).length },
            issued := n + 1 + 1 + (selectSteps questId w).length }) := by
  have hcond : (truthy quest.repeat_type && decide (quest.repeat_type ≠ some "none")) = true :=
    hrep
  simp only [completeQuest.spawnNext, hcond, if_true]
  cases h0 : env.fail n with
  | true =>
    left
    rw [Conn.query_failed _ _ _ h0, andThen_none]
    exact ⟨_, rfl, rfl, le_refl _, le_refl _⟩
  | false =>
    rw [Conn.query_tx_ok _ _ _ _ _ _ h0, andThen_some]
    cases h1 : env.fail (n + 1) with
    | true =>
      left
      rw [Conn.query_failed _ _ _ h1, andThen_none]
      exact ⟨_, rfl, rfl, by simp [insertQuest], by simp [insertQuest]⟩
    | false =>
      rw [Conn.query_tx_ok _ _ _ _ _ _ h1, andThen_some]
      simp only
      rcases completeQuest.cloneSteps_outcome env.fail
        (insertQuest quest.user_id quest.character_id quest.title quest.description
          quest.xp_reward
          (some (computeNextDueAt.fixedOffset env.tza env.jsNow quest.due_at (quest.repeat_type.getD "")))
          quest.repeat_type quest.repeat_interval env.dbNow w sq).1.id
        (selectSteps questId
          (insertQuest quest.user_id quest.character_id quest.title quest.description
            quest.xp_reward
            (some (computeNextDueAt.fixedOffset env.tza env.jsNow quest.due_at (quest.repeat_type.getD "")))
            quest.repeat_type quest.repeat_interval env.dbNow w sq).2.1)
        0 cm
        (insertQuest quest.user_id quest.character_id quest.title quest.description
          quest.xp_reward
          (some (computeNextDueAt.fixedOffset env.tza env.jsNow quest.due_at (quest.repeat_type.getD "")))
          quest.repeat_type quest.repeat_interval env.dbNow w sq).2.1
        (insertQuest quest.user_id quest.character_id quest.title quest.description
          quest.xp_reward
          (some (computeNextDueAt.fixedOffset env.tza env.jsNow quest.due_at (quest.repeat_type.getD "")))
          quest.repeat_type quest.repeat_interval env.dbNow w sq).2.2
        (n + 1 + 1) with ⟨c2, h, hc1, hc2, hc3⟩ | h
      · left
        rw [h, andThen_none]
        refine ⟨c2, rfl, hc1, ?_, ?_⟩
        · rw [hc2]; simp [insertQuest]
        · exact hc3
      · right
        rw [h, andThen_some]
        simp [insertQuest, successorOf, selectSteps]

/-- Completion under arbitrary storage failures ends in one of three ways: nothing
is committed; or the quest and its character were found, the quest was not done,
and the committed state is that of the failure-free run (without or with a
successor). -/
theorem completeQuest_outcome (env : Env) (s : Server) (userId questId : Nat) :
    s.KeptBy (handle env (Request.completeQuest userId questId) s).2 ∨
    (∃ q ch, selectQuest questId userId s.db = some q ∧ q.status ≠ "done" ∧
      selectCharacter q.character_id s.db = some ch ∧ repeats q = false ∧
      (handle env (Request.completeQuest userId questId) s).2
        = { db :=
              { characters := awardXp ch q.xp_reward env.dbNow s.db.characters,
                quests := (markQuestDone questId env.dbNow s.db).quests,
                quest_steps := s.db.quest_steps },
            seqs := s.seqs }) ∨
    (∃ q ch, selectQuest questId userId s.db = some q ∧ q.status ≠ "done" ∧
      selectCharacter q.character_id s.db = some ch ∧ repeats q = true ∧
      (handle env (Request.completeQuest userId questId) s).2
        = { db :=
              { characters := awardXp ch q.xp_reward env.dbNow s.db.characters,
                quests := (markQuestDone questId env.dbNow s.db).quests ++
                  [successorOf env q s.seqs.quest],
                quest_steps := s.db.quest_steps ++
                  numberedSteps s.seqs.quest s.seqs.step 0
                    ((selectSteps questId s.db).map (fun st => st.title)) },
            seqs := { quest := s.seqs.quest + 1,
                      step := s.seqs.step + (selectSteps questId s.db).length } }) := by
  simp only [handle, Request.run, completeQuest, completeQuest.body, Server.connect]
  cases h0 : env.fail 0 with
  | true =>
    left
    rw [Conn.begin, if_pos h0, andThen_none, tryCatchRollback_none_release]
    exact Server.KeptBy.refl s
  | false =>
    rw [Conn.begin_ok_at _ _ _ _ h0, andThen_some]
    cases h1 : env.fail 1 with
    | true =>
      left
      rw [Conn.query_failed _ _ _ h1, andThen_none, tryCatchRollback_none_release]
      exact Server.KeptBy.refl s
    | false =>
      rw [Conn.query_tx_ok _ _ _ _ _ _ h1, andThen_some]
      cases hq : selectQuest questId userId s.db with
      | none =>
        left
        simp only
        rw [rollback_reply_release]
        exact Server.KeptBy.refl s
      | some q =>
        simp only
        by_cases hd : q.status = "done"
        · left
          rw [if_pos hd, rollback_reply_release]
          exact Server.KeptBy.refl s
        · rw [if_neg hd]
          cases h2 : env.fail 2 with
          | true =>
            left
            rw [Conn.query_failed _ _ _ h2, andThen_none, tryCatchRollback_none_release]
            exact Server.KeptBy.refl s
          | false =>
            rw [Conn.query_tx_ok _ _ _ _ _ _ h2, andThen_some]
            cases h3 : env.fail 3 with
            | true =>
              left
              rw [Conn.query_failed _ _ _ h3, andThen_none, tryCatchRollback_none_release]
              exact Server.KeptBy.refl s
            | false =>
              rw [Conn.query_tx_ok _ _ _ _ _ _ h3, andThen_some]
              simp only [selectCharacter_markQuestDone]
              cases hc : selectCharacter q.character_id s.db with
              | none =>
                left
                simp only
                rw [rollback_reply_release]
                exact Server.KeptBy.refl s
              | some ch =>
                simp only
                cases h4 : env.fail 4 with
                | true =>
                  left
                  rw [Conn.query_failed _ _ _ h4, andThen_none, tryCatchRollback_none_release]
                  exact Server.KeptBy.refl s
                | false =>
                  rw [Conn.query_tx_ok _ _ _ _ _ _ h4, andThen_some]
                  simp only
                  cases hrep : repeats q with
                  | false =>
                    rw [completeQuest.spawnNext_plain _ _ _ _ hrep, andThen_some]
                    cases h5 : env.fail 5 with
                    | true =>
                      left
                      rw [Conn.commit, if_pos h5, andThen_none, tryCatchRollback_none_release]
                      exact Server.KeptBy.refl s
                    | false =>
                      right; left
                      rw [Conn.commit_ok_at _ _ _ _ _ h5, andThen_some]
                      exact ⟨q, ch, rfl, hd, hc, hrep, rfl⟩
                  | true =>
                    rcases completeQuest.spawnNext_outcome env questId q s.db
                      (updateCharacterLevel
                        (calculateLevel { level := ch.level, xp := ch.xp } q.xp_reward).level
                        (calculateLevel { level := ch.level, xp := ch.xp } q.xp_reward).xp
                        ch.id env.dbNow (markQuestDone questId env.dbNow s.db)).2
                      s.seqs (0 + 1 + 1 + 1 + 1 + 1) hrep with ⟨c2, h, hc1, hc2, hc3⟩ | h
                    · left
                      rw [h, andThen_none, tryCatchRollback_none_release]
                      exact ⟨hc1, hc2, hc3⟩
                    · rw [h, andThen_some]
                      cases h5 : env.fail (0 + 1 + 1 + 1 + 1 + 1 + 1 + 1 +
                          (selectSteps questId (updateCharacterLevel
                            (calculateLevel { level := ch.level, xp := ch.xp } q.xp_reward).level
                            (calculateLevel { level := ch.level, xp := ch.xp } q.xp_reward).xp
                            ch.id env.dbNow (markQuestDone questId env.dbNow s.db)).2).length) with
                      | true =>
                        left
                        rw [Conn.commit, if_pos h5, andThen_none, tryCatchRollback_none_release]
                        exact ⟨rfl, by simp, by simp⟩
                      | false =>
                        right; right
                        rw [Conn.commit_ok_at _ _ _ _ _ h5, andThen_some]
                        exact ⟨q, ch, rfl, hd, hc, hrep, rfl⟩

theorem insertQuest_created (env : Env) (userId : Nat) (body : QuestPayload) (s : Server) :
    insertQuest userId (characterIdOf userId s.db) (body.title.getD "")
      (if truthy body.description then body.description else none)
      (body.xp_reward.getD 10) body.due_at
      (some (if truthy body.repeat_type then body.repeat_type.getD "" else "none"))
      (body.repeat_interval.getD 1) env.dbNow s.db s.seqs
    = (createdQuest env userId body s,
        { s.db with quests := s.db.quests ++ [createdQuest env userId body s] },
        { s.seqs with quest := s.seqs.quest + 1 }) := rfl

theorem createdQuest_id (env : Env) (userId : Nat) (body : QuestPayload) (s : Server) :
    (createdQuest env userId body s).id = s.seqs.quest := rfl

theorem createdQuest_status (env : Env) (userId : Nat) (body : QuestPayload) (s : Server) :
    (createdQuest env userId body s).status = "active" := rfl

/-- A `COMMIT` and success reply at the end of a `try` block, followed by the
`catch` block and the release of the connection: the transaction's tables are
committed, or nothing is. -/
theorem commit_reply_release (fail : Nat → Bool) (cm w : Db) (sq : Seqs) (n : Nat)
    (reply : Reply) (r2 : Response) :
    (tryCatchRollback fail
        (andThen (Conn.commit { committed := cm, tx := some w, seqs := sq, issued := n } fail)
          fun _ c => (some (Response.ok reply), c)) r2).2.release = { db := cm, seqs := sq } ∨
    (tryCatchRollback fail
        (andThen (Conn.commit { committed := cm, tx := some w, seqs := sq, issued := n } fail)
          fun _ c => (some (Response.ok reply), c)) r2).2.release = { db := w, seqs := sq } := by
  cases hf : fail n with
  | true =>
    left
    rw [Conn.commit, if_pos hf, andThen_none, tryCatchRollback_none_release]
  | false =>
    right
    rw [Conn.commit_ok_at _ _ _ _ _ hf, andThen_some]
    rfl

/-- Creation under arbitrary storage failures: nothing is committed, or the body
was valid and the committed state is that of the failure-free run. -/
theorem createQuest_outcome (env : Env) (s : Server) (userId : Nat) (body : QuestPayload) :
    s.KeptBy (handle env (Request.createQuest userId body) s).2 ∨
    (validateQuestPayload body = none ∧
      (handle env (Request.createQuest userId body) s).2
        = { db :=
              { characters := s.db.characters,
                quests := s.db.quests ++ [createdQuest env userId body s],
                quest_steps := s.db.quest_steps ++
                  numberedSteps s.seqs.quest s.seqs.step 0 (keptTitles (body.steps.getD [])) },
            seqs := { quest := s.seqs.quest + 1,
                      step := s.seqs.step + (keptTitles (body.steps.getD [])).length } }) := by
  simp only [handle, Request.run, createQuest]
  cases hv : validateQuestPayload body with
  | some msg => left; exact Server.KeptBy.refl s
  | none =>
    simp only [createQuest.body, Server.connect]
    cases h0 : env.fail 0 with
    | true =>
      left
      rw [Conn.begin, if_pos h0, andThen_none, tryCatchRollback_none_release]
      exact Server.KeptBy.refl s
    | false =>
      rw [Conn.begin_ok_at _ _ _ _ h0, andThen_some]
      cases h1 : env.fail 1 with
      | true =>
        left
        rw [Conn.query_failed _ _ _ h1, andThen_none, tryCatchRollback_none_release]
        exact Server.KeptBy.refl s
      | false =>
        rw [Conn.query_tx_ok _ _ _ _ _ _ h1, andThen_some, insertQuest_created]
        simp only [createdQuest_id]
        cases hsteps : body.steps with
        | none =>
          simp only [andThen_some, Option.getD_none]
          rcases commit_reply_release env.fail s.db
            { characters := s.db.characters,
              quests := s.db.quests ++ [createdQuest env userId body s],
              quest_steps := s.db.quest_steps }
            { quest := s.seqs.quest + 1, step := s.seqs.step } (0 + 1 + 1)
            (Reply.quest (createdQuest env userId body s))
            (Response.error 500 "server_error" "Failed to create quest") with h | h
          · left
            rw [h]
            exact ⟨rfl, by simp, by simp⟩
          · right
            rw [h]
            simp [keptTitles, numberedSteps]
        | some steps =>
          simp only [Option.getD_some]
          by_cases hlen : steps.length > 0
          · rw [if_pos hlen]
            rcases createQuest.insertSteps_outcome env.fail s.seqs.quest steps 0 s.db
              { characters := s.db.characters,
                quests := s.db.quests ++ [createdQuest env userId body s],
                quest_steps := s.db.quest_steps }
              { quest := s.seqs.quest + 1, step := s.seqs.step } (0 + 1 + 1)
              with ⟨c2, h, hc1, hc2, hc3⟩ | h
            · left
              rw [h, andThen_none, tryCatchRollback_none_release]
              exact ⟨hc1, by rw [hc2]; simp, hc3⟩
            · rw [h, andThen_some]
              rcases commit_reply_release env.fail s.db
                { characters := s.db.characters,
                  quests := s.db.quests ++ [createdQuest env userId body s],
                  quest_steps := s.db.quest_steps ++
                    numberedSteps s.seqs.quest s.seqs.step 0 (keptTitles steps) }
                { quest := s.seqs.quest + 1, step := s.seqs.step + (keptTitles steps).length }
                (0 + 1 + 1 + (keptTitles steps).length)
                (Reply.quest (createdQuest env userId body s))
                (Response.error 500 "server_error" "Failed to create quest") with h | h
              · left
                rw [h]
                exact ⟨rfl, by simp, by simp⟩
              · right
                rw [h]
                exact ⟨trivial, rfl⟩
          · have hnil : steps = [] := by
              cases steps with
              | nil => rfl
              | cons a b => simp at hlen
            subst hnil
            rw [if_neg hlen, andThen_some]
            rcases commit_reply_release env.fail s.db
              { characters := s.db.characters,
                quests := s.db.quests ++ [createdQuest env userId body s],
                quest_steps := s.db.quest_steps }
              { quest := s.seqs.quest + 1, step := s.seqs.step } (0 + 1 + 1)
              (Reply.quest (createdQuest env userId body s))
              (Response.error 500 "server_error" "Failed to create quest") with h | h
            · left
              rw [h]
              exact ⟨rfl, by simp, by simp⟩
            · right
              rw [h]
              simp [keptTitles, numberedSteps]

theorem listQuests_state (env : Env) (s : Server) (userId : Nat) (status : Option String) :
    (handle env (Request.listQuests userId status) s).2 = s := by
  simp only [handle, Request.run, listQuests, Server.connect]
  generalize (if truthy status = true then status.getD "" else "active") = st
  by_cases hst : (!(["active", "done"].contains st)) = true
  · rw [if_pos hst]
    rfl
  · rw [if_neg hst]
    cases h0 : env.fail 0 with
    | true => rw [Conn.query_failed _ _ _ h0, andThen_none]; rfl
    | false => rw [Conn.query_auto_ok _ _ _ _ _ h0, andThen_some]; rfl

theorem patchQuest_outcome (env : Env) (s : Server) (userId questId : Nat) (body : QuestPatch) :
    (handle env (Request.patchQuest userId questId body) s).2 = s ∨
    (body.updates.length ≠ 0 ∧
      (handle env (Request.patchQuest userId questId body) s).2
        = { db := { s.db with quests := s.db.quests.map (fun q =>
              if q.id = questId ∧ q.user_id = userId then body.apply env.dbNow q else q) },
            seqs := s.seqs }) := by
  by_cases hu : body.updates.length = 0
  · left
    simp only [handle, Request.run, patchQuest, if_pos hu]
    rfl
  · cases h0 : env.fail 0 with
    | true =>
      left
      simp only [handle, Request.run, patchQuest, if_neg hu, Server.connect]
      rw [Conn.query_failed _ _ _ h0, andThen_none]
      rfl
    | false =>
      right
      rw [patchQuest_run env h0 s userId questId body hu]
      exact ⟨hu, rfl⟩

theorem deleteQuest_outcome (env : Env) (s : Server) (userId questId : Nat) :
    (handle env (Request.deleteQuest userId questId) s).2 = s ∨
    (handle env (Request.deleteQuest userId questId) s).2
      = { db := (deleteQuestRow questId userId s.db).2, seqs := s.seqs } := by
  simp only [handle, Request.run, deleteQuest, Server.connect]
  cases h0 : env.fail 0 with
  | true =>
    left
    rw [Conn.query_failed _ _ _ h0, andThen_none]
    rfl
  | false =>
    right
    rw [Conn.query_auto_ok _ _ _ _ _ h0, andThen_some]
    cases (deleteQuestRow questId userId s.db).1 <;> rfl

theorem patchStep_outcome (env : Env) (s : Server) (userId stepId : Nat) (body : StepPatch) :
    (handle env (Request.patchStep userId stepId body) s).2 = s ∨
    (handle env (Request.patchStep userId stepId body) s).2
      = { db := { s.db with quest_steps := s.db.quest_steps.map (fun st =>
            if stepOwned stepId userId s.db st then body.apply st else st) },
          seqs := s.seqs } := by
  by_cases hu : body.updates.length = 0
  · left
    simp only [handle, Request.run, patchStep, if_pos hu]
    rfl
  · cases h0 : env.fail 0 with
    | true =>
      left
      simp only [handle, Request.run, patchStep, if_neg hu, Server.connect]
      rw [Conn.query_failed _ _ _ h0, andThen_none]
      rfl
    | false =>
      right
      rw [patchStep_run env h0 s userId stepId body hu]

theorem deleteStep_outcome (env : Env) (s : Server) (userId stepId : Nat) :
    (handle env (Request.deleteStep userId stepId) s).2 = s ∨
    (handle env (Request.deleteStep userId stepId) s).2
      = { db := { s.db with quest_steps :=
            s.db.quest_steps.filter (fun st => !stepOwned stepId userId s.db st) },
          seqs := s.seqs } := by
  simp only [handle, Request.run, deleteStep, Server.connect]
  cases h0 : env.fail 0 with
  | true =>
    left
    rw [Conn.query_failed _ _ _ h0, andThen_none]
    rfl
  | false =>
    right
    rw [Conn.query_auto_ok _ _ _ _ _ h0, andThen_some]
    cases (deleteStepRow stepId userId s.db).1 <;> rfl

/-- Adding a step under arbitrary storage failures: the state is unchanged and the
reply is not a step, or the title was non-empty, the quest is the caller's, and
one row was appended with the next order index of the quest. -/
theorem addStep_outcome (env : Env) (s : Server) (userId questId : Nat)
    (title : Option String) :
    ((handle env (Request.addStep userId questId title) s).2 = s ∧
      ∀ st, (handle env (Request.addStep userId questId title) s).1
        ≠ some (Response.ok (Reply.step st))) ∨
    (truthy title = true ∧ (∃ q, selectQuest questId userId s.db = some q) ∧
      (handle env (Request.addStep userId questId title) s).1
        = some (Response.ok (Reply.step
            { id := s.seqs.step, quest_id := questId, title := title.getD "",
              is_done := false, order_index := nextOrderIndex questId s.db })) ∧
      (handle env (Request.addStep userId questId title) s).2
        = { db := { s.db with quest_steps := s.db.quest_steps ++
              [{ id := s.seqs.step, quest_id := questId, title := title.getD "",
                 is_done := false, order_index := nextOrderIndex questId s.db }] },
            seqs := { s.seqs with step := s.seqs.step + 1 } }) := by
  simp only [handle, Request.run, addStep, Server.connect]
  cases ht : truthy title with
  | false => left; exact ⟨rfl, by intro st h; simp at h⟩
  | true =>
    simp only [Bool.not_true, Bool.false_eq_true, if_false]
    cases h0 : env.fail 0 with
    | true =>
      left
      rw [Conn.query_failed _ _ _ h0, andThen_none]
      exact ⟨rfl, by intro st h; simp [tryCatch] at h⟩
    | false =>
      rw [Conn.query_auto_ok _ _ _ _ _ h0, andThen_some]
      cases hq : selectQuest questId userId s.db with
      | none => left; exact ⟨rfl, by intro st h; simp [tryCatch] at h⟩
      | some q =>
        simp only
        cases h1 : env.fail 1 with
        | true =>
          left
          rw [Conn.query_failed _ _ _ h1, andThen_none]
          exact ⟨rfl, by intro st h; simp [tryCatch] at h⟩
        | false =>
          rw [Conn.query_auto_ok _ _ _ _ _ h1, andThen_some]
          cases h2 : env.fail 2 with
          | true =>
            left
            rw [Conn.query_failed _ _ _ h2, andThen_none]
            exact ⟨rfl, by intro st h; simp [tryCatch] at h⟩
          | false =>
            right
            rw [Conn.query_auto_ok _ _ _ _ _ h2, andThen_some]
            exact ⟨trivial, ⟨q, rfl⟩, rfl, rfl⟩

/-! ## Theorems: the status of a done quest -/

theorem mem_markQuestDone_status {questId : Nat} {now : Int} {db : Db} {q2 : Quest}
    (h : q2 ∈ (markQuestDone questId now db).quests) :
    ∃ q1 ∈ db.quests, q2.id = q1.id ∧ (q2.status = q1.status ∨ q2.status = "done") := by
  unfold markQuestDone at h
  obtain ⟨q1, hq1, rfl⟩ := List.mem_map.1 h
  refine ⟨q1, hq1, ?_⟩
  by_cases hid : q1.id = questId
  · simp [hid]
  · simp [hid]

/-- Where the rows of `quests` after a request come from: a row is the newly
inserted active quest, or it continues a row from before with the same status,
or with status done, or with the status a quest patch supplied. -/
theorem quest_status_after (env : Env) (req : Request) (s : Server) (q2 : Quest)
    (h : q2 ∈ (handle env req s).2.db.quests) :
    (q2.id = s.seqs.quest ∧ q2.status = "active") ∨
    ∃ q1 ∈ s.db.quests, q2.id = q1.id ∧
      (q2.status = q1.status ∨ q2.status = "done" ∨
        ∃ userId questId body, req = Request.patchQuest userId questId body ∧
          body.status = some q2.status) := by
  have hsame : q2 ∈ s.db.quests →
      ((q2.id = s.seqs.quest ∧ q2.status = "active") ∨
      ∃ q1 ∈ s.db.quests, q2.id = q1.id ∧
        (q2.status = q1.status ∨ q2.status = "done" ∨
          ∃ userId questId body, req = Request.patchQuest userId questId body ∧
            body.status = some q2.status)) :=
    fun hm => Or.inr ⟨q2, hm, rfl, Or.inl rfl⟩
  cases req with
  | listQuests userId status =>
    rw [listQuests_state] at h
    exact hsame h
  | createQuest userId body =>
    rcases createQuest_outcome env s userId body with hk | ⟨_, hk⟩
    · rw [hk.1] at h; exact hsame h
    · rw [hk] at h
      simp only [List.mem_append, List.mem_singleton] at h
      rcases h with h | h
      · exact hsame h
      · left; subst h; exact ⟨rfl, rfl⟩
  | patchQuest userId questId body =>
    rcases patchQuest_outcome env s userId questId body with hk | ⟨_, hk⟩
    · rw [hk] at h; exact hsame h
    · rw [hk] at h
      obtain ⟨q1, hq1, rfl⟩ := List.mem_map.1 h
      right
      refine ⟨q1, hq1, ?_⟩
      by_cases hm : q1.id = questId ∧ q1.user_id = userId
      · rw [if_pos hm]
        refine ⟨rfl, ?_⟩
        cases hst : body.status with
        | none => left; simp [QuestPatch.apply, hst]
        | some st =>
          right; right
          exact ⟨userId, questId, body, rfl, by simp [QuestPatch.apply, hst]⟩
      · rw [if_neg hm]
        exact ⟨rfl, Or.inl rfl⟩
  | deleteQuest userId questId =>
    rcases deleteQuest_outcome env s userId questId with hk | hk
    · rw [hk] at h; exact hsame h
    · rw [hk] at h
      unfold deleteQuestRow at h
      split at h
      · exact hsame h
      · exact hsame (List.mem_of_mem_filter h)
  | completeQuest userId questId =>
    rcases completeQuest_outcome env s userId questId with hk | ⟨q, ch, _, _, _, _, hk⟩ |
      ⟨q, ch, _, _, _, _, hk⟩
    · rw [hk.1] at h; exact hsame h
    · rw [hk] at h
      obtain ⟨q1, hq1, hid, hst⟩ := mem_markQuestDone_status h
      right
      refine ⟨q1, hq1, hid, ?_⟩
      rcases hst with hst | hst
      · exact Or.inl hst
      · exact Or.inr (Or.inl hst)
    · rw [hk] at h
      simp only [List.mem_append, List.mem_singleton] at h
      rcases h with h | h
      · obtain ⟨q1, hq1, hid, hst⟩ := mem_markQuestDone_status h
        right
        refine ⟨q1, hq1, hid, ?_⟩
        rcases hst with hst | hst
        · exact Or.inl hst
        · exact Or.inr (Or.inl hst)
      · left; subst h; exact ⟨rfl, rfl⟩
  | addStep userId questId title =>
    rcases addStep_outcome env s userId questId title with ⟨hk, _⟩ | ⟨_, _, _, hk⟩
    · rw [hk] at h; exact hsame h
    · rw [hk] at h; exact hsame h
  | patchStep userId stepId body =>
    rcases patchStep_outcome env s userId stepId body with hk | hk
    · rw [hk] at h; exact hsame h
    · rw [hk] at h; exact hsame h
  | deleteStep userId stepId =>
    rcases deleteStep_outcome env s userId stepId with hk | hk
    · rw [hk] at h; exact hsame h
    · rw [hk] at h; exact hsame h

/-- C7 (counterexample). After user 7 completed quest 1 (store `exCompleted`) the
quest is done; the owner's patch with `status: 'active'` then leaves it active. -/
theorem patchQuest_reopens_done :
    (∃ q ∈ exCompleted.db.quests, q.id = 1 ∧ q.status = "done") ∧
    (∃ q ∈ (handle exEnv (Request.patchQuest 7 1
          { QuestPatch.empty with status := some "active" }) exCompleted).2.db.quests,
      q.id = 1 ∧ q.status = "active") := by
  decide

/-- C7 (amended). In a store whose keys are well formed, every exposed operation
other than a quest patch that supplies `status` leaves each done quest done, under
any storage failures; a quest patch that supplies a status other than `'active'`
does not make a done quest active; and a quest patch assigns the supplied status
to the caller's quest. -/
theorem done_stays_done :
    (∀ (env : Env) (req : Request) (s : Server), s.WF →
      (∀ userId questId body, req = Request.patchQuest userId questId body →
        body.status = none) →
      ∀ q ∈ s.db.quests, q.status = "done" →
      ∀ q2 ∈ (handle env req s).2.db.quests, q2.id = q.id → q2.status = "done") ∧
    (∀ (env : Env) (req : Request) (s : Server), s.WF →
      (∀ userId questId body, req = Request.patchQuest userId questId body →
        body.status ≠ some "active") →
      ∀ q ∈ s.db.quests, q.status = "done" →
      ∀ q2 ∈ (handle env req s).2.db.quests, q2.id = q.id → q2.status ≠ "active") ∧
    (∀ (env : Env) (s : Server) (userId questId : Nat) (body : QuestPatch) (status : String),
      env.fail 0 = false → body.status = some status →
      ∀ q ∈ s.db.quests, q.id = questId → q.user_id = userId →
      ∃ q2 ∈ (handle env (Request.patchQuest userId questId body) s).2.db.quests,
        q2.id = questId ∧ q2.status = status) := by
  refine ⟨?_, ?_, ?_⟩
  · intro env req s hwf hreq q hq hdone q2 hq2 hid
    obtain ⟨hn, hlt, _⟩ := hwf
    rcases quest_status_after env req s q2 hq2 with ⟨hnew, _⟩ | ⟨q1, hq1, hid1, hst⟩
    · have := hlt q hq
      omega
    · have hq1q : q1 = q := eq_of_id_eq (fun q => q.id) _ hn hq1 hq (by simp only; omega)
      subst hq1q
      rcases hst with hst | hst | ⟨u, qid, body, hr, hb⟩
      · rw [hst, hdone]
      · exact hst
      · rw [hreq u qid body hr] at hb
        exact absurd hb (by simp)
  · intro env req s hwf hreq q hq hdone q2 hq2 hid
    obtain ⟨hn, hlt, _⟩ := hwf
    rcases quest_status_after env req s q2 hq2 with ⟨hnew, _⟩ | ⟨q1, hq1, hid1, hst⟩
    · have := hlt q hq
      omega
    · have hq1q : q1 = q := eq_of_id_eq (fun q => q.id) _ hn hq1 hq (by simp only; omega)
      subst hq1q
      rcases hst with hst | hst | ⟨u, qid, body, hr, hb⟩
      · rw [hst, hdone]; decide
      · rw [hst]; decide
      · intro hact
        rw [hact] at hb
        exact hreq u qid body hr hb
  · intro env s userId questId body status hf hb q hq hid huser
    have hu : body.updates.length ≠ 0 := by
      intro h0
      have := ((questPatch_updates_length_eq_zero_iff body).1 h0).2.2.2.2.2.2
      rw [hb] at this
      exact absurd this (by simp)
    rw [patchQuest_run env hf s userId questId body hu]
    refine ⟨body.apply env.dbNow q, ?_, ?_, ?_⟩
    · apply List.mem_map.2
      exact ⟨q, hq, by simp [hid, huser]⟩
    · exact hid
    · simp [QuestPatch.apply, hb]

/-- C7 (amended) on the store `exDone`: adding a step to the done quest 1 leaves it
done. -/
theorem done_stays_done_witness :
    ∀ q2 ∈ (handle exEnv (Request.addStep 7 1 (some "cool down")) exDone).2.db.quests,
      q2.id = 1 → q2.status = "done" :=
  done_stays_done.1 exEnv (Request.addStep 7 1 (some "cool down")) exDone (by decide)
    (by intro _ _ _ h; cases h)
    { exQuest with status := "done", completed_at := some 500 } (by decide) (by decide)


/-! ## Theorems: order indices -/

theorem numberedSteps_pairwise (questId firstId : Nat) (index : Int) (titles : List String) :
    (numberedSteps questId firstId index titles).Pairwise
      (fun a b => a.quest_id = b.quest_id → a.order_index ≠ b.order_index) := by
  induction titles generalizing firstId index with
  | nil => exact List.Pairwise.nil
  | cons t rest ih =>
    simp only [numberedSteps, List.pairwise_cons]
    refine ⟨?_, ih _ _⟩
    intro b hb _
    have := (numberedSteps_mem hb).2.2.2.2.1
    omega

/-- Appending rows numbered for a quest id that no existing step refers to keeps
order indices unique within each quest. -/
theorem pairwise_append_numbered (old : List QuestStep) (questId firstId : Nat)
    (titles : List String)
    (hold : old.Pairwise (fun a b => a.quest_id = b.quest_id → a.order_index ≠ b.order_index))
    (hfresh : ∀ st ∈ old, st.quest_id < questId) :
    (old ++ numberedSteps questId firstId 0 titles).Pairwise
      (fun a b => a.quest_id = b.quest_id → a.order_index ≠ b.order_index) := by
  rw [List.pairwise_append]
  refine ⟨hold, numberedSteps_pairwise _ _ _ _, ?_⟩
  intro a ha b hb hab
  have h1 := hfresh a ha
  have h2 := (numberedSteps_mem hb).1
  omega

theorem maxOrderIndex_none {l : List QuestStep} : maxOrderIndex l = none ↔ l = [] := by
  cases l with
  | nil => simp [maxOrderIndex]
  | cons s rest =>
    simp only [maxOrderIndex]
    cases maxOrderIndex rest <;> simp

/-- The value of `MAX(order_index)` is attained and bounds every row. -/
theorem maxOrderIndex_some {l : List QuestStep} {m : Int} (h : maxOrderIndex l = some m) :
    (∃ st ∈ l, st.order_index = m) ∧ ∀ st ∈ l, st.order_index ≤ m := by
  induction l generalizing m with
  | nil => simp [maxOrderIndex] at h
  | cons s rest ih =>
    simp only [maxOrderIndex] at h
    cases hr : maxOrderIndex rest with
    | none =>
      rw [hr] at h
      have hnil := maxOrderIndex_none.1 hr
      subst hnil
      simp only [Option.some.injEq] at h
      subst h
      exact ⟨⟨s, List.mem_cons_self _ _, rfl⟩, by simp⟩
    | some m2 =>
      rw [hr] at h
      simp only [Option.some.injEq] at h
      obtain ⟨⟨st, hst, hm⟩, hle⟩ := ih hr
      constructor
      · by_cases hc : s.order_index ≤ m2
        · exact ⟨st, List.mem_cons_of_mem _ hst, by rw [hm, ← h]; exact (max_eq_right hc).symm⟩
        · exact ⟨s, List.mem_cons_self _ _, by rw [← h]; exact (max_eq_left (by omega)).symm⟩
      · intro x hx
        rcases List.mem_cons.1 hx with rfl | hx
        · rw [← h]; exact le_max_left _ _
        · rw [← h]; exact le_trans (hle x hx) (le_max_right _ _)

theorem nextOrderIndex_gt (questId : Nat) (db : Db) (st : QuestStep)
    (hst : st ∈ db.quest_steps) (hq : st.quest_id = questId) :
    st.order_index < nextOrderIndex questId db := by
  unfold nextOrderIndex
  have hmem : st ∈ db.quest_steps.filter (fun s => decide (s.quest_id = questId)) :=
    List.mem_filter.2 ⟨hst, by simp [hq]⟩
  cases hm : maxOrderIndex (db.quest_steps.filter (fun s => decide (s.quest_id = questId))) with
  | none =>
    rw [maxOrderIndex_none.1 hm] at hmem
    simp at hmem
  | some m =>
    have := (maxOrderIndex_some hm).2 st hmem
    simp only
    omega

theorem nextOrderIndex_nonneg (questId : Nat) (db : Db)
    (h : ∀ st ∈ db.quest_steps, 0 ≤ st.order_index) : 0 ≤ nextOrderIndex questId db := by
  unfold nextOrderIndex
  cases hm : maxOrderIndex (db.quest_steps.filter (fun s => decide (s.quest_id = questId))) with
  | none => simp
  | some m =>
    obtain ⟨⟨st, hst, hidx⟩, _⟩ := maxOrderIndex_some hm
    have := h st (List.mem_of_mem_filter hst)
    simp only
    omega

/-- Serving a request keeps the numbering of steps well formed, whatever the
request and whatever storage failures occur. -/
theorem stepsNumbered_handle (env : Env) (req : Request) (s : Server)
    (h : s.StepsNumbered) : (handle env req s).2.StepsNumbered := by
  obtain ⟨hq, hs, hu⟩ := h
  have hkept : ∀ s2 : Server, s.KeptBy s2 → s2.StepsNumbered := by
    rintro s2 ⟨hdb, h1, h2⟩
    refine ⟨?_, ?_, ?_⟩
    · intro q hq2; rw [hdb] at hq2; have := hq q hq2; omega
    · intro st hst; rw [hdb] at hst; have := hs st hst; exact ⟨by omega, this.2⟩
    · unfold OrderIndexUnique; rw [hdb]; exact hu
  cases req with
  | listQuests userId status =>
    rw [listQuests_state]
    exact ⟨hq, hs, hu⟩
  | createQuest userId body =>
    rcases createQuest_outcome env s userId body with hk | ⟨_, hk⟩
    · exact hkept _ hk
    · rw [hk]
      refine ⟨?_, ?_, ?_⟩
      · intro q hq2
        simp only [List.mem_append, List.mem_singleton] at hq2
        rcases hq2 with hq2 | rfl
        · have := hq q hq2; simp only; omega
        · simp [createdQuest_id]
      · intro st hst
        simp only [List.mem_append] at hst
        rcases hst with hst | hst
        · have := hs st hst; exact ⟨by simp only; omega, this.2⟩
        · have := numberedSteps_mem hst
          exact ⟨by simp only; omega, by omega⟩
      · exact pairwise_append_numbered _ _ _ _ hu (fun st hst => (hs st hst).1)
  | patchQuest userId questId body =>
    rcases patchQuest_outcome env s userId questId body with hk | ⟨_, hk⟩
    · rw [hk]; exact ⟨hq, hs, hu⟩
    · rw [hk]
      refine ⟨?_, hs, hu⟩
      intro q2 hq2
      obtain ⟨q1, hq1, rfl⟩ := List.mem_map.1 hq2
      have := hq q1 hq1
      by_cases hm : q1.id = questId ∧ q1.user_id = userId
      · rw [if_pos hm]; exact this
      · rw [if_neg hm]; exact this
  | deleteQuest userId questId =>
    rcases deleteQuest_outcome env s userId questId with hk | hk
    · rw [hk]; exact ⟨hq, hs, hu⟩
    · rw [hk]
      unfold deleteQuestRow cascadeDeleteSteps
      split
      · exact ⟨hq, hs, hu⟩
      · refine ⟨?_, ?_, ?_⟩
        · intro q hq2; exact hq q (List.mem_of_mem_filter hq2)
        · intro st hst; exact hs st (List.mem_of_mem_filter hst)
        · exact List.Pairwise.sublist (List.filter_sublist _) hu
  | completeQuest userId questId =>
    rcases completeQuest_outcome env s userId questId with hk | ⟨q, ch, _, _, _, _, hk⟩ |
      ⟨q, ch, _, _, _, _, hk⟩
    · exact hkept _ hk
    · rw [hk]
      refine ⟨?_, hs, hu⟩
      intro q2 hq2
      obtain ⟨q1, hq1, hid, _⟩ := mem_markQuestDone_status hq2
      have := hq q1 hq1
      simp only
      omega
    · rw [hk]
      refine ⟨?_, ?_, ?_⟩
      · intro q2 hq2
        simp only [List.mem_append, List.mem_singleton] at hq2
        rcases hq2 with hq2 | rfl
        · obtain ⟨q1, hq1, hid, _⟩ := mem_markQuestDone_status hq2
          have := hq q1 hq1
          simp only
          omega
        · simp [successorOf]
      · intro st hst
        simp only [List.mem_append] at hst
        rcases hst with hst | hst
        · have := hs st hst; exact ⟨by simp only; omega, this.2⟩
        · have := numberedSteps_mem hst
          exact ⟨by simp only; omega, by omega⟩
      · exact pairwise_append_numbered _ _ _ _ hu (fun st hst => (hs st hst).1)
  | addStep userId questId title =>
    rcases addStep_outcome env s userId questId title with ⟨hk, _⟩ | ⟨_, ⟨q, hsel⟩, _, hk⟩
    · rw [hk]; exact ⟨hq, hs, hu⟩
    · rw [hk]
      obtain ⟨hqm, hqid, _⟩ := selectQuest_mem hsel
      have hlt := hq q hqm
      refine ⟨hq, ?_, ?_⟩
      · intro st hst
        simp only [List.mem_append, List.mem_singleton] at hst
        rcases hst with hst | rfl
        · exact hs st hst
        · exact ⟨by simp only; omega, nextOrderIndex_nonneg _ _ (fun st hst => (hs st hst).2)⟩
      · unfold OrderIndexUnique
        simp only
        rw [List.pairwise_append]
        refine ⟨hu, List.pairwise_singleton _ _, ?_⟩
        intro a ha b hb hab
        rw [List.mem_singleton] at hb
        subst hb
        have := nextOrderIndex_gt questId s.db a ha hab
        simp only
        omega
  | patchStep userId stepId body =>
    rcases patchStep_outcome env s userId stepId body with hk | hk
    · rw [hk]; exact ⟨hq, hs, hu⟩
    · rw [hk]
      have hkeep : ∀ st : QuestStep,
          (if stepOwned stepId userId s.db st = true then body.apply st else st).quest_id
              = st.quest_id ∧
          (if stepOwned stepId userId s.db st = true then body.apply st else st).order_index
              = st.order_index := by
        intro st
        split <;> exact ⟨rfl, rfl⟩
      refine ⟨hq, ?_, ?_⟩
      · intro st2 hst2
        obtain ⟨st, hst, rfl⟩ := List.mem_map.1 hst2
        rw [(hkeep st).1, (hkeep st).2]
        exact hs st hst
      · unfold OrderIndexUnique
        simp only
        rw [List.pairwise_map]
        refine List.Pairwise.imp ?_ hu
        intro a b hab
        rw [(hkeep a).1, (hkeep a).2, (hkeep b).1, (hkeep b).2]
        exact hab
  | deleteStep userId stepId =>
    rcases deleteStep_outcome env s userId stepId with hk | hk
    · rw [hk]; exact ⟨hq, hs, hu⟩
    · rw [hk]
      refine ⟨hq, ?_, ?_⟩
      · intro st hst; exact hs st (List.mem_of_mem_filter hst)
      · exact List.Pairwise.sublist (List.filter_sublist _) hu

theorem numberedSteps_order_index (questId firstId : Nat) (titles : List String) :
    (numberedSteps questId firstId 0 titles).map (fun st => st.order_index)
      = (List.range titles.length).map (fun i : Nat => (i : Int)) := by
  apply List.ext_getElem?
  intro j
  rw [List.getElem?_map, numberedSteps_getElem?, List.getElem?_map]
  by_cases hj : j < titles.length
  · rw [List.getElem?_eq_getElem hj, List.getElem?_range hj]
    simp
  · rw [List.getElem?_eq_none (by omega), List.getElem?_eq_none (by simp; omega)]
    rfl

theorem stepsOf_append (questId : Nat) (chars : List Character) (quests : List Quest)
    (old extra : List QuestStep) :
    stepsOf questId { characters := chars, quests := quests, quest_steps := old ++ extra }
      = old.filter (fun s => decide (s.quest_id = questId))
        ++ extra.filter (fun s => decide (s.quest_id = questId)) := by
  simp [stepsOf, List.filter_append]

theorem stepsOf_append_other (questId other firstId : Nat) (index : Int) (titles : List String)
    (chars : List Character) (quests : List Quest) (old : List QuestStep)
    (hne : questId ≠ other) :
    stepsOf questId
        { characters := chars, quests := quests,
          quest_steps := old ++ numberedSteps other firstId index titles }
      = old.filter (fun s => decide (s.quest_id = questId)) := by
  rw [stepsOf_append]
  have : (numberedSteps other firstId index titles).filter
      (fun s => decide (s.quest_id = questId)) = [] := by
    rw [List.filter_eq_nil_iff]
    intro st hst
    have := (numberedSteps_mem hst).1
    simp only [decide_eq_true_eq]
    omega
  rw [this, List.append_nil]

/-- When the steps of a quest carry the indices `0 .. n - 1`, the next order index
is `n`. -/
theorem nextOrderIndex_of_inOrder (questId : Nat) (db : Db)
    (h : (stepsOf questId db).map (fun st => st.order_index)
      = (List.range (stepsOf questId db).length).map (fun i : Nat => (i : Int))) :
    nextOrderIndex questId db = ((stepsOf questId db).length : Int) := by
  unfold nextOrderIndex
  unfold stepsOf at h ⊢
  cases hm : maxOrderIndex (db.quest_steps.filter (fun s => decide (s.quest_id = questId))) with
  | none =>
    rw [maxOrderIndex_none.1 hm]
    simp
  | some m =>
    obtain ⟨⟨st, hst, hidx⟩, hle⟩ := maxOrderIndex_some hm
    have hmem : m ∈ (db.quest_steps.filter (fun s => decide (s.quest_id = questId))).map
        (fun st => st.order_index) := List.mem_map.2 ⟨st, hst, hidx⟩
    rw [h] at hmem
    obtain ⟨k, hk, hkm⟩ := List.mem_map.1 hmem
    rw [List.mem_range] at hk
    have hlast : ((((db.quest_steps.filter
          (fun s => decide (s.quest_id = questId))).length - 1 : Nat)) : Int)
        ∈ (List.range (db.quest_steps.filter
          (fun s => decide (s.quest_id = questId))).length).map (fun i : Nat => (i : Int)) :=
      List.mem_map.2 ⟨(db.quest_steps.filter
        (fun s => decide (s.quest_id = questId))).length - 1,
        by rw [List.mem_range]; omega, rfl⟩
    rw [← h] at hlast
    obtain ⟨st2, hst2, hidx2⟩ := List.mem_map.1 hlast
    have := hle st2 hst2
    simp only at hidx2 hkm ⊢
    omega

theorem filter_map_comm {α : Type} (p : α → Bool) (f : α → α) (l : List α)
    (hp : ∀ x, p (f x) = p x) : (l.map f).filter p = (l.filter p).map f := by
  induction l with
  | nil => rfl
  | cons x rest ih =>
    simp only [List.map_cons, List.filter_cons, hp x]
    split
    · rw [List.map_cons, ih]
    · exact ih

theorem inOrder_append_numbered (s : Server) (chars : List Character) (quests : List Quest)
    (titles : List String) (questId : Nat)
    (hs : ∀ st ∈ s.db.quest_steps, st.quest_id < s.seqs.quest)
    (ho : ∀ questId : Nat,
      (stepsOf questId s.db).map (fun st => st.order_index)
        = (List.range (stepsOf questId s.db).length).map (fun i : Nat => (i : Int))) :
    (stepsOf questId
        { characters := chars, quests := quests,
          quest_steps := s.db.quest_steps ++
            numberedSteps s.seqs.quest s.seqs.step 0 titles }).map
      (fun st => st.order_index)
    = (List.range (stepsOf questId
        { characters := chars, quests := quests,
          quest_steps := s.db.quest_steps ++
            numberedSteps s.seqs.quest s.seqs.step 0 titles }).length).map
      (fun i : Nat => (i : Int)) := by
  by_cases hid : questId = s.seqs.quest
  · subst hid
    rw [stepsOf_append_fresh _ _ _ _ _ _ _ (fun st hst => hs st hst),
      numberedSteps_order_index, numberedSteps_length]
  · rw [stepsOf_append_other _ _ _ _ _ _ _ _ hid]
    exact ho questId

/-- Serving a request other than a step deletion keeps the steps of every quest
numbered `0 .. n - 1` in table order. -/
theorem stepsInOrder_handle (env : Env) (req : Request) (s : Server)
    (hreq : req.keepsSteps) (h : s.StepsInOrder) : (handle env req s).2.StepsInOrder := by
  obtain ⟨hq, hs, ho⟩ := h
  have hkept : ∀ s2 : Server, s.KeptBy s2 → s2.StepsInOrder := by
    rintro s2 ⟨hdb, h1, h2⟩
    refine ⟨?_, ?_, ?_⟩
    · intro q hq2; rw [hdb] at hq2; have := hq q hq2; omega
    · intro st hst; rw [hdb] at hst; have := hs st hst; omega
    · rw [hdb]; exact ho
  have hfreshold : (s.db.quest_steps.filter (fun st => decide (st.quest_id = s.seqs.quest))) = [] := by
    rw [List.filter_eq_nil_iff]
    intro st hst
    have := hs st hst
    simp only [decide_eq_true_eq]
    omega
  have hspawn := fun chars quests titles questId =>
    inOrder_append_numbered s chars quests titles questId hs ho
  cases req with
  | listQuests userId status =>
    rw [listQuests_state]
    exact ⟨hq, hs, ho⟩
  | createQuest userId body =>
    rcases createQuest_outcome env s userId body with hk | ⟨_, hk⟩
    · exact hkept _ hk
    · rw [hk]
      refine ⟨?_, ?_, hspawn _ _ _⟩
      · intro q hq2
        simp only [List.mem_append, List.mem_singleton] at hq2
        rcases hq2 with hq2 | rfl
        · have := hq q hq2; simp only; omega
        · simp [createdQuest_id]
      · intro st hst
        simp only [List.mem_append] at hst
        rcases hst with hst | hst
        · have := hs st hst; simp only; omega
        · have := numberedSteps_mem hst
          simp only; omega
  | patchQuest userId questId body =>
    rcases patchQuest_outcome env s userId questId body with hk | ⟨_, hk⟩
    · rw [hk]; exact ⟨hq, hs, ho⟩
    · rw [hk]
      refine ⟨?_, hs, ho⟩
      intro q2 hq2
      obtain ⟨q1, hq1, rfl⟩ := List.mem_map.1 hq2
      have := hq q1 hq1
      by_cases hm : q1.id = questId ∧ q1.user_id = userId
      · rw [if_pos hm]; exact this
      · rw [if_neg hm]; exact this
  | deleteQuest userId questId =>
    rcases deleteQuest_outcome env s userId questId with hk | hk
    · rw [hk]; exact ⟨hq, hs, ho⟩
    · rw [hk]
      unfold deleteQuestRow cascadeDeleteSteps
      split
      · exact ⟨hq, hs, ho⟩
      · refine ⟨?_, ?_, ?_⟩
        · intro q hq2; exact hq q (List.mem_of_mem_filter hq2)
        · intro st hst; exact hs st (List.mem_of_mem_filter hst)
        · intro qid
          simp only [stepsOf, List.filter_filter]
          by_cases hid : qid = questId
          · subst hid
            have : s.db.quest_steps.filter
                (fun a => decide (a.quest_id = qid) && !decide (a.quest_id = qid)) = [] := by
              rw [List.filter_eq_nil_iff]
              intro a _
              simp
            rw [this]
            rfl
          · have : s.db.quest_steps.filter
                (fun a => decide (a.quest_id = qid) && !decide (a.quest_id = questId))
                = s.db.quest_steps.filter (fun a => decide (a.quest_id = qid)) := by
              apply List.filter_congr
              intro a _
              by_cases ha : a.quest_id = qid
              · simp [ha, hid]
              · simp [ha]
            rw [this]
            exact ho qid
  | completeQuest userId questId =>
    rcases completeQuest_outcome env s userId questId with hk | ⟨q, ch, _, _, _, _, hk⟩ |
      ⟨q, ch, _, _, _, _, hk⟩
    · exact hkept _ hk
    · rw [hk]
      refine ⟨?_, hs, ho⟩
      intro q2 hq2
      obtain ⟨q1, hq1, hid, _⟩ := mem_markQuestDone_status hq2
      have := hq q1 hq1
      simp only
      omega
    · rw [hk]
      refine ⟨?_, ?_, hspawn _ _ _⟩
      · intro q2 hq2
        simp only [List.mem_append, List.mem_singleton] at hq2
        rcases hq2 with hq2 | rfl
        · obtain ⟨q1, hq1, hid, _⟩ := mem_markQuestDone_status hq2
          have := hq q1 hq1
          simp only
          omega
        · simp [successorOf]
      · intro st hst
        simp only [List.mem_append] at hst
        rcases hst with hst | hst
        · have := hs st hst; simp only; omega
        · have := numberedSteps_mem hst
          simp only; omega
  | addStep userId questId title =>
    rcases addStep_outcome env s userId questId title with ⟨hk, _⟩ | ⟨_, ⟨q, hsel⟩, _, hk⟩
    · rw [hk]; exact ⟨hq, hs, ho⟩
    · rw [hk]
      obtain ⟨hqm, hqid, _⟩ := selectQuest_mem hsel
      have hlt := hq q hqm
      refine ⟨hq, ?_, ?_⟩
      · intro st hst
        simp only [List.mem_append, List.mem_singleton] at hst
        rcases hst with hst | rfl
        · exact hs st hst
        · simp only; omega
      · intro qid
        rw [stepsOf_append]
        by_cases hid : qid = questId
        · subst hid
          have hnew := nextOrderIndex_of_inOrder qid s.db (ho qid)
          have hold := ho qid
          unfold stepsOf at hold hnew
          simp only [List.filter_cons, decide_True, if_true, List.filter_nil, List.map_append,
            List.map_cons, List.map_nil, List.length_append, List.length_singleton,
            List.range_succ, hold, hnew]
        · rw [List.filter_cons, if_neg (by simpa using Ne.symm hid), List.filter_nil,
            List.append_nil]
          exact ho qid
  | patchStep userId stepId body =>
    rcases patchStep_outcome env s userId stepId body with hk | hk
    · rw [hk]; exact ⟨hq, hs, ho⟩
    · rw [hk]
      have hkeep : ∀ st : QuestStep,
          (if stepOwned stepId userId s.db st = true then body.apply st else st).quest_id
              = st.quest_id ∧
          (if stepOwned stepId userId s.db st = true then body.apply st else st).order_index
              = st.order_index := by
        intro st
        split <;> exact ⟨rfl, rfl⟩
      refine ⟨hq, ?_, ?_⟩
      · intro st2 hst2
        obtain ⟨st, hst, rfl⟩ := List.mem_map.1 hst2
        rw [(hkeep st).1]
        exact hs st hst
      · intro qid
        unfold stepsOf
        simp only
        rw [filter_map_comm _ _ _ (fun st => by rw [(hkeep st).1]), List.map_map,
          List.length_map]
        have := ho qid
        unfold stepsOf at this
        rw [← this]
        apply List.map_congr_left
        intro st _
        exact (hkeep st).2
  | deleteStep userId stepId => exact absurd hreq (by simp [Request.keepsSteps])

theorem stepsInOrder_dense {s : Server} (h : s.StepsInOrder) : OrderIndexDense s.db := by
  intro questId i
  have ho := h.2.2 questId
  constructor
  · rintro ⟨h0, h1⟩
    have hmem : i ∈ (List.range (stepsOf questId s.db).length).map (fun k : Nat => (k : Int)) :=
      List.mem_map.2 ⟨i.toNat, by rw [List.mem_range]; omega, by omega⟩
    rw [← ho] at hmem
    obtain ⟨st, hst, hidx⟩ := List.mem_map.1 hmem
    exact ⟨st, hst, hidx⟩
  · rintro ⟨st, hst, hidx⟩
    have hmem : i ∈ (stepsOf questId s.db).map (fun st => st.order_index) :=
      List.mem_map.2 ⟨st, hst, hidx⟩
    rw [ho] at hmem
    obtain ⟨k, hk, hki⟩ := List.mem_map.1 hmem
    rw [List.mem_range] at hk
    omega

theorem stepsNumbered_reachable {allow : Request → Prop} {s0 s : Server}
    (h0 : s0.StepsNumbered) (h : ReachableBy allow s0 s) : s.StepsNumbered := by
  induction h with
  | init => exact h0
  | step env req _ _ ih => exact stepsNumbered_handle env req _ ih

theorem stepsInOrder_reachable {s0 s : Server} (h0 : s0.StepsInOrder)
    (h : ReachableBy Request.keepsSteps s0 s) : s.StepsInOrder := by
  induction h with
  | init => exact h0
  | step env req hreq _ ih => exact stepsInOrder_handle env req _ hreq ih

/-- C10 (counterexample). From a store with no quests and no steps, creating a
quest with three steps and deleting the middle one reaches a store in which the
quest's two steps have the order indices 0 and 2, which are not dense. -/
theorem deleteStep_leaves_gap :
    exStart.db.quests = [] ∧ exStart.db.quest_steps = [] ∧
    Reachable exStart exGap ∧
    (stepsOf 1 exGap.db).map (fun st => st.order_index) = [0, 2] ∧
    ¬ OrderIndexDense exGap.db := by
  refine ⟨rfl, rfl, ?_, by decide, ?_⟩
  · exact ReachableBy.step exEnv (Request.deleteStep 7 2) trivial
      (ReachableBy.step exEnv (Request.createQuest 7 exPayloadThree) trivial ReachableBy.init)
  · intro h
    obtain ⟨st, hst, hidx⟩ := (h 1 1).1 ⟨by decide, by decide⟩
    have hall : ∀ st ∈ stepsOf 1 exGap.db, st.order_index ≠ 1 := by decide
    exact hall st hst hidx

/-- C10 (amended). In every store state reachable from a store without quests and
steps by the exposed operations, under any storage failures, the order indices of
each quest's steps are unique and not negative. They are dense (exactly
`0 .. n - 1`) as long as no step deletion is among the operations; deleting a step
leaves a gap. Add step assigns the current maximum index plus 1, or 0 when the
quest has no steps. -/
theorem order_index_unique :
    (∀ s0 s : Server, s0.db.quests = [] → s0.db.quest_steps = [] → Reachable s0 s →
      OrderIndexUnique s.db ∧ ∀ st ∈ s.db.quest_steps, 0 ≤ st.order_index) ∧
    (∀ s0 s : Server, s0.db.quests = [] → s0.db.quest_steps = [] →
      ReachableBy Request.keepsSteps s0 s → OrderIndexDense s.db) ∧
    (∀ (env : Env) (s : Server) (userId questId : Nat) (title : Option String)
      (st : QuestStep),
      (handle env (Request.addStep userId questId title) s).1
        = some (Response.ok (Reply.step st)) →
      st.quest_id = questId ∧
      st.order_index = (match maxOrderIndex (stepsOf questId s.db) with
        | some m => m + 1
        | none => 0) ∧
      (handle env (Request.addStep userId questId title) s).2.db.quest_steps
        = s.db.quest_steps ++ [st]) ∧
    (∀ l : List QuestStep,
      (maxOrderIndex l = none ↔ l = []) ∧
      ∀ m, maxOrderIndex l = some m →
        (∃ st ∈ l, st.order_index = m) ∧ ∀ st ∈ l, st.order_index ≤ m) := by
  refine ⟨?_, ?_, ?_, ?_⟩
  · intro s0 s hq hs hr
    have h0 : s0.StepsNumbered := by
      refine ⟨?_, ?_, ?_⟩
      · rw [hq]; intro q hq; cases hq
      · rw [hs]; intro st hst; cases hst
      · unfold OrderIndexUnique; rw [hs]; exact List.Pairwise.nil
    have := stepsNumbered_reachable h0 hr
    exact ⟨this.2.2, fun st hst => (this.2.1 st hst).2⟩
  · intro s0 s hq hs hr
    have h0 : s0.StepsInOrder := by
      refine ⟨?_, ?_, ?_⟩
      · rw [hq]; intro q hq; cases hq
      · rw [hs]; intro st hst; cases hst
      · intro questId
        simp [stepsOf, hs]
    exact stepsInOrder_dense (stepsInOrder_reachable h0 hr)
  · intro env s userId questId title st hreply
    rcases addStep_outcome env s userId questId title with ⟨_, hno⟩ | ⟨_, _, hrep, hk⟩
    · exact absurd hreply (hno st)
    · rw [hrep] at hreply
      simp only [Option.some.injEq, Response.ok.injEq, Reply.step.injEq] at hreply
      subst hreply
      rw [hk]
      refine ⟨rfl, ?_, rfl⟩
      simp only [nextOrderIndex, stepsOf]
      cases maxOrderIndex (s.db.quest_steps.filter (fun s => decide (s.quest_id = questId))) with
      | none => rfl
      | some m => rfl
  · intro l
    exact ⟨maxOrderIndex_none, fun m hm => maxOrderIndex_some hm⟩

/-- C10 (amended) on the store `exGap`, reached by a creation and a step deletion:
its order indices are unique and not negative. -/
theorem order_index_unique_witness :
    OrderIndexUnique exGap.db ∧ ∀ st ∈ exGap.db.quest_steps, 0 ≤ st.order_index :=
  order_index_unique.1 exStart exGap rfl rfl
    (ReachableBy.step exEnv (Request.deleteStep 7 2) trivial
      (ReachableBy.step exEnv (Request.createQuest 7 exPayloadThree) trivial ReachableBy.init))

/-! ## Theorems: the key constraints are an invariant -/

theorem numberedSteps_ids_nodup (questId firstId : Nat) (index : Int) (titles : List String) :
    ((numberedSteps questId firstId index titles).map (fun st => st.id)).Nodup := by
  induction titles generalizing firstId index with
  | nil => exact List.nodup_nil
  | cons t rest ih =>
    simp only [numberedSteps, List.map_cons, List.nodup_cons]
    refine ⟨?_, ih _ _⟩
    intro hmem
    obtain ⟨st, hst, hid⟩ := List.mem_map.1 hmem
    have := (numberedSteps_mem hst).2.2.1
    omega

theorem nodup_append_fresh {α : Type} (f : α → Nat) (old extra : List α) (bound : Nat)
    (hold : (old.map f).Nodup) (hextra : (extra.map f).Nodup)
    (hlt : ∀ x ∈ old, f x < bound) (hge : ∀ x ∈ extra, bound ≤ f x) :
    ((old ++ extra).map f).Nodup := by
  rw [List.map_append, List.nodup_append]
  refine ⟨hold, hextra, ?_⟩
  intro a ha hb
  obtain ⟨x, hx, rfl⟩ := List.mem_map.1 ha
  obtain ⟨y, hy, hxy⟩ := List.mem_map.1 hb
  have := hlt x hx
  have := hge y hy
  omega

theorem nodup_map_of_ids {α : Type} (f : α → Nat) (g : α → α) (l : List α)
    (hg : ∀ x, f (g x) = f x) (h : (l.map f).Nodup) : ((l.map g).map f).Nodup := by
  rw [List.map_map]
  have : (f ∘ g) = f := funext hg
  rw [this]
  exact h

theorem nodup_filter_ids {α : Type} (f : α → Nat) (p : α → Bool) (l : List α)
    (h : (l.map f).Nodup) : ((l.filter p).map f).Nodup :=
  List.Nodup.sublist ((List.filter_sublist l).map f) h

theorem markQuestDone_ids (questId : Nat) (now : Int) (db : Db) :
    (markQuestDone questId now db).quests.map (fun q => q.id) = db.quests.map (fun q => q.id) := by
  unfold markQuestDone
  simp only [List.map_map]
  apply List.map_congr_left
  intro q _
  simp only [Function.comp]
  split <;> rfl

theorem awardXp_ids (character : Character) (earnedXp now : Int) (rows : List Character) :
    (awardXp character earnedXp now rows).map (fun ch => ch.id) = rows.map (fun ch => ch.id) := by
  unfold awardXp
  simp only [List.map_map]
  apply List.map_congr_left
  intro ch _
  simp only [Function.comp]
  split <;> rfl

/-- Serving a request keeps the keys well formed, whatever the request and
whatever storage failures occur. -/
theorem wf_handle (env : Env) (req : Request) (s : Server) (h : s.WF) :
    (handle env req s).2.WF := by
  obtain ⟨hqn, hql, hsn, hsl, hcn⟩ := h
  have hkept : ∀ s2 : Server, s.KeptBy s2 → s2.WF := by
    rintro s2 ⟨hdb, h1, h2⟩
    unfold Server.WF
    rw [hdb]
    refine ⟨hqn, ?_, hsn, ?_, hcn⟩
    · intro q hq; have := hql q hq; omega
    · intro st hst; have := hsl st hst; omega
  cases req with
  | listQuests userId status =>
    rw [listQuests_state]
    exact ⟨hqn, hql, hsn, hsl, hcn⟩
  | createQuest userId body =>
    rcases createQuest_outcome env s userId body with hk | ⟨_, hk⟩
    · exact hkept _ hk
    · rw [hk]
      refine ⟨?_, ?_, ?_, ?_, hcn⟩
      · exact nodup_append_fresh (fun q : Quest => q.id) _ _ s.seqs.quest hqn (by simp) hql
          (by intro x hx; rw [List.mem_singleton] at hx; subst hx; exact le_refl _)
      · intro q hq
        simp only [List.mem_append, List.mem_singleton] at hq
        rcases hq with hq | rfl
        · have := hql q hq; simp only; omega
        · simp [createdQuest_id]
      · exact nodup_append_fresh (fun st : QuestStep => st.id) _ _ s.seqs.step hsn
          (numberedSteps_ids_nodup _ _ _ _) (fun st hst => (hsl st hst).1)
          (fun st hst => (numberedSteps_mem hst).2.2.1)
      · intro st hst
        simp only [List.mem_append] at hst
        rcases hst with hst | hst
        · have := hsl st hst; simp only; omega
        · have := numberedSteps_mem hst
          simp only; omega
  | patchQuest userId questId body =>
    rcases patchQuest_outcome env s userId questId body with hk | ⟨_, hk⟩
    · rw [hk]; exact ⟨hqn, hql, hsn, hsl, hcn⟩
    · rw [hk]
      have hid : ∀ q : Quest,
          (if q.id = questId ∧ q.user_id = userId then body.apply env.dbNow q else q).id = q.id := by
        intro q; split <;> rfl
      refine ⟨nodup_map_of_ids (fun q : Quest => q.id) _ _ hid hqn, ?_, hsn, hsl, hcn⟩
      intro q2 hq2
      obtain ⟨q1, hq1, rfl⟩ := List.mem_map.1 hq2
      rw [hid q1]
      exact hql q1 hq1
  | deleteQuest userId questId =>
    rcases deleteQuest_outcome env s userId questId with hk | hk
    · rw [hk]; exact ⟨hqn, hql, hsn, hsl, hcn⟩
    · rw [hk]
      unfold deleteQuestRow cascadeDeleteSteps
      split
      · exact ⟨hqn, hql, hsn, hsl, hcn⟩
      · exact ⟨nodup_filter_ids _ _ _ hqn, fun q hq => hql q (List.mem_of_mem_filter hq),
          nodup_filter_ids _ _ _ hsn, fun st hst => hsl st (List.mem_of_mem_filter hst), hcn⟩
  | completeQuest userId questId =>
    rcases completeQuest_outcome env s userId questId with hk | ⟨q, ch, _, _, _, _, hk⟩ |
      ⟨q, ch, _, _, _, _, hk⟩
    · exact hkept _ hk
    · rw [hk]
      unfold Server.WF
      simp only [markQuestDone_ids, awardXp_ids]
      refine ⟨hqn, ?_, hsn, hsl, hcn⟩
      intro q2 hq2
      obtain ⟨q1, hq1, hid, _⟩ := mem_markQuestDone_status hq2
      have := hql q1 hq1
      omega
    · rw [hk]
      unfold Server.WF
      simp only [awardXp_ids]
      refine ⟨?_, ?_, ?_, ?_, hcn⟩
      · apply nodup_append_fresh (fun q : Quest => q.id) _ _ s.seqs.quest
        · rw [markQuestDone_ids]; exact hqn
        · simp
        · intro q2 hq2
          obtain ⟨q1, hq1, hid, _⟩ := mem_markQuestDone_status hq2
          have := hql q1 hq1
          omega
        · intro x hx; rw [List.mem_singleton] at hx; subst hx; exact le_refl _
      · intro q2 hq2
        simp only [List.mem_append, List.mem_singleton] at hq2
        rcases hq2 with hq2 | rfl
        · obtain ⟨q1, hq1, hid, _⟩ := mem_markQuestDone_status hq2
          have := hql q1 hq1
          omega
        · simp [successorOf]
      · exact nodup_append_fresh (fun st : QuestStep => st.id) _ _ s.seqs.step hsn
          (numberedSteps_ids_nodup _ _ _ _) (fun st hst => (hsl st hst).1)
          (fun st hst => (numberedSteps_mem hst).2.2.1)
      · intro st hst
        simp only [List.mem_append] at hst
        rcases hst with hst | hst
        · have := hsl st hst; omega
        · have := numberedSteps_mem hst
          simp only [List.length_map] at this
          omega
  | addStep userId questId title =>
    rcases addStep_outcome env s userId questId title with ⟨hk, _⟩ | ⟨_, ⟨q, hsel⟩, _, hk⟩
    · rw [hk]; exact ⟨hqn, hql, hsn, hsl, hcn⟩
    · rw [hk]
      obtain ⟨hqm, hqid, _⟩ := selectQuest_mem hsel
      have hlt := hql q hqm
      refine ⟨hqn, hql, ?_, ?_, hcn⟩
      · exact nodup_append_fresh (fun st : QuestStep => st.id) _ _ s.seqs.step hsn (by simp)
          (fun st hst => (hsl st hst).1)
          (by intro x hx; rw [List.mem_singleton] at hx; subst hx; exact le_refl _)
      · intro st hst
        simp only [List.mem_append, List.mem_singleton] at hst
        rcases hst with hst | rfl
        · have := hsl st hst; simp only; omega
        · simp only; omega
  | patchStep userId stepId body =>
    rcases patchStep_outcome env s userId stepId body with hk | hk
    · rw [hk]; exact ⟨hqn, hql, hsn, hsl, hcn⟩
    · rw [hk]
      have hid : ∀ st : QuestStep,
          (if stepOwned stepId userId s.db st = true then body.apply st else st).id = st.id ∧
          (if stepOwned stepId userId s.db st = true then body.apply st else st).quest_id
            = st.quest_id := by
        intro st; split <;> exact ⟨rfl, rfl⟩
      refine ⟨hqn, hql, nodup_map_of_ids (fun st : QuestStep => st.id) _ _ (fun st => (hid st).1) hsn, ?_,
        hcn⟩
      intro st2 hst2
      obtain ⟨st, hst, rfl⟩ := List.mem_map.1 hst2
      rw [(hid st).1, (hid st).2]
      exact hsl st hst
  | deleteStep userId stepId =>
    rcases deleteStep_outcome env s userId stepId with hk | hk
    · rw [hk]; exact ⟨hqn, hql, hsn, hsl, hcn⟩
    · rw [hk]
      exact ⟨hqn, hql, nodup_filter_ids _ _ _ hsn,
        fun st hst => hsl st (List.mem_of_mem_filter hst), hcn⟩

/-- Every state reachable from a state with well-formed keys has well-formed keys. -/
theorem wf_reachable {allow : Request → Prop} {s0 s : Server} (h0 : s0.WF)
    (h : ReachableBy allow s0 s) : s.WF := by
  induction h with
  | init => exact h0
  | step env req _ _ ih => exact wf_handle env req _ ih

/-! ## Theorems: the quest field rules -/

theorem dropWhile_reverse_dropWhile_eq_nil (p : Char → Bool) (l : List Char) :
    (l.dropWhile p).reverse.dropWhile p = [] ↔ l.all p = true := by
  rw [List.dropWhile_eq_nil_iff, List.all_eq_true]
  constructor
  · intro h
    have hnil : l.dropWhile p = [] := by
      by_contra hne
      have hh := List.head_dropWhile_not p l hne
      have := h ((l.dropWhile p).head hne) (List.mem_reverse.mpr (List.head_mem hne))
      simp [hh] at this
    exact List.dropWhile_eq_nil_iff.mp hnil
  · intro h x hx
    have : l.dropWhile p = [] := List.dropWhile_eq_nil_iff.mpr h
    simp [this] at hx

theorem trimmedIsEmpty_iff (s : String) : trimmedIsEmpty s = true ↔ jsTrim s = "" := by
  unfold trimmedIsEmpty jsTrim
  rw [← dropWhile_reverse_dropWhile_eq_nil]
  constructor
  · intro h; rw [h]; rfl
  · intro h
    have := congrArg String.data h
    simpa using this


theorem titleOk_iff (body : QuestPayload) :
    body.titleOk ↔ (!truthy body.title || trimmedIsEmpty (body.title.getD "")) = false := by
  unfold QuestPayload.titleOk
  cases ht : body.title with
  | none => simp [truthy]
  | some t =>
    have h := trimmedIsEmpty_iff t
    by_cases he : t = ""
    · subst he
      simp [truthy]
      decide
    · simp only [Option.some.injEq, exists_eq_left', truthy, Option.getD_some, Bool.or_eq_false_iff,
        Bool.not_eq_false', decide_eq_true_eq, ne_eq, he, not_false_eq_true, true_and]
      rw [← h]
      simp

theorem repeatOrNone_eq (body : QuestPayload) :
    body.repeatOrNone = if truthy body.repeat_type then body.repeat_type.getD "" else "none" := by
  unfold QuestPayload.repeatOrNone truthy
  cases body.repeat_type with
  | none => rfl
  | some r => by_cases h : r = "" <;> simp [h]

/-- C12, as stated, fails: a body whose `repeat_type` is the empty string passes
validation (the check reads `body.repeat_type || 'none'`), although its title and
xp are in order and the empty string is not one of none, daily, weekly, monthly. -/
theorem validateQuestPayload_accepts_blank_repeat :
    validateQuestPayload exBlankRepeatPayload = none ∧
    exBlankRepeatPayload.titleOk ∧ exBlankRepeatPayload.xpOk ∧
    ¬ exBlankRepeatPayload.repeatOk := by
  refine ⟨by decide, ⟨"Read", rfl, by decide⟩, by unfold QuestPayload.xpOk; decide,
    by unfold QuestPayload.repeatOk; decide⟩


/-- C12, amended: `validateQuestPayload` returns no error exactly when the title
is non-empty after trimming, xp_reward (10 when omitted) is in [1,1000] and
repeat_type (`none` when omitted or empty) is one of none, daily, weekly, monthly;
otherwise it returns the message of the first violated rule in the order title,
xp_reward, repeat_type; and quest creation answers an invalid body with that
message as a 400 reply without issuing a storage round trip, so the connection and
the server state are left as they were. -/
theorem validateQuestPayload_rules (body : QuestPayload) :
    (validateQuestPayload body = none ↔
      body.titleOk ∧ body.xpOk ∧ body.repeatOkOrBlank) ∧
    (¬ body.titleOk → validateQuestPayload body = some "title is required") ∧
    (body.titleOk → ¬ body.xpOk →
      validateQuestPayload body = some "xp_reward must be between 1 and 1000") ∧
    (body.titleOk → body.xpOk → ¬ body.repeatOkOrBlank →
      validateQuestPayload body = some "Invalid repeat_type") ∧
    (∀ msg, validateQuestPayload body = some msg → ∀ (env : Env) (userId : Nat),
      (∀ c : Conn, createQuest env userId body c
        = (some (Response.error 400 "validation_error" msg), c)) ∧
      ∀ s : Server, handle env (Request.createQuest userId body) s
        = (some (Response.error 400 "validation_error" msg), s)) := by
  have ht : body.titleOk ↔
      ¬ (!truthy body.title || trimmedIsEmpty (body.title.getD "")) = true := by
    rw [titleOk_iff]; simp
  have hx : body.xpOk ↔ ¬ (body.xp_reward.getD 10 < 1 ∨ body.xp_reward.getD 10 > 1000) := by
    unfold QuestPayload.xpOk; omega
  have hrep : body.repeatOkOrBlank ↔
      ¬ (!(["none", "daily", "weekly", "monthly"].contains
        (if truthy body.repeat_type then body.repeat_type.getD "" else "none"))) = true := by
    unfold QuestPayload.repeatOkOrBlank
    rw [repeatOrNone_eq]
    generalize (if truthy body.repeat_type then body.repeat_type.getD "" else "none") = r
    simp only [Bool.not_eq_true', Bool.not_eq_false]
    constructor <;> intro h <;> simpa using h
  have hc : ∀ msg, validateQuestPayload body = some msg → ∀ (env : Env) (userId : Nat) (c : Conn),
      createQuest env userId body c
        = (some (Response.error 400 "validation_error" msg), c) := by
    intro msg hmsg env userId c
    unfold createQuest
    rw [hmsg]
  rw [ht, hx, hrep]
  unfold validateQuestPayload
  refine ⟨?_, ?_, ?_, ?_, ?_⟩
  · by_cases h1 : (!truthy body.title || trimmedIsEmpty (body.title.getD "")) = true
    · simp [h1]
    · by_cases h2 : body.xp_reward.getD 10 < 1 ∨ body.xp_reward.getD 10 > 1000
      · simp only [h1, h2]; simp
      · by_cases h3 : (!(["none", "daily", "weekly", "monthly"].contains
          (if truthy body.repeat_type then body.repeat_type.getD "" else "none"))) = true
        · simp only [h1, h2, h3]; simp
        · simp only [h1, h2, h3]; simp
  · intro h1
    rw [not_not] at h1
    rw [if_pos h1]
  · intro h1 h2
    rw [not_not] at h2
    simp only [h1, h2]
    simp
  · intro h1 h2 h3
    rw [not_not] at h3
    simp only [h1, h2, h3]
    simp
  · intro msg hmsg env userId
    refine ⟨hc msg hmsg env userId, fun s => ?_⟩
    have h := hc msg hmsg env userId s.connect
    simp only [handle, Request.run]
    rw [h]
    rfl

/-- C12 at a body with xp 0 and an unknown repeat type: the xp message is the
reply and the store is untouched. -/
theorem validateQuestPayload_rules_witness :
    validateQuestPayload exZeroXp = some "xp_reward must be between 1 and 1000" ∧
    handle exEnv (Request.createQuest 7 exZeroXp) exStart
      = (some (Response.error 400 "validation_error" "xp_reward must be between 1 and 1000"),
          exStart) :=
  ⟨(validateQuestPayload_rules exZeroXp).2.2.1 ⟨" Read ", rfl, by decide⟩
      (by unfold QuestPayload.xpOk; decide),
    ((validateQuestPayload_rules exZeroXp).2.2.2.2 _ (by decide) exEnv 7).2 exStart⟩

/-! ## Theorems: owner isolation -/

theorem stepOfUser_iff (userId : Nat) (db : Db) (st : QuestStep) :
    stepOfUser userId db st = true ↔
      ∃ q ∈ db.quests, q.user_id = userId ∧ q.id = st.quest_id := by
  simp [stepOfUser, and_assoc]

theorem stepOfUser_congr {userId : Nat} {db db2 : Db}
    (h : db2.quests.filter (fun q => decide (q.user_id = userId))
      = db.quests.filter (fun q => decide (q.user_id = userId))) :
    stepOfUser userId db2 = stepOfUser userId db := by
  funext st
  unfold stepOfUser
  rw [h]

theorem stepOfUser_exclusive (s : Server) (hwf : s.WF) {userA userB : Nat} (hAB : userA ≠ userB)
    (st : QuestStep) (h : stepOfUser userA s.db st = true) : stepOfUser userB s.db st = false := by
  cases hb : stepOfUser userB s.db st with
  | false => rfl
  | true =>
    obtain ⟨qa, hqa, hua, hia⟩ := (stepOfUser_iff _ _ _).mp h
    obtain ⟨qb, hqb, hub, hib⟩ := (stepOfUser_iff _ _ _).mp hb
    have := eq_of_id_eq (fun q : Quest => q.id) s.db.quests hwf.1 hqa hqb (by simp [hia, hib])
    subst this
    exact absurd (hua.symm.trans hub) hAB

theorem filter_map_fixed {α : Type} (p : α → Bool) (f : α → α) (l : List α)
    (h : ∀ x ∈ l, (p x = true → f x = x) ∧ (p x = false → p (f x) = false)) :
    (l.map f).filter p = l.filter p := by
  induction l with
  | nil => rfl
  | cons a rest ih =>
    have ha := h a (List.mem_cons_self _ _)
    have ih2 := ih (fun x hx => h x (List.mem_cons_of_mem _ hx))
    cases hp : p a with
    | true => rw [List.map_cons, ha.1 hp, List.filter_cons, List.filter_cons, hp, ih2]
    | false =>
      rw [List.map_cons, List.filter_cons, List.filter_cons, hp, ha.2 hp, ih2]
      simp

theorem filter_filter_keep {α : Type} (p q : α → Bool) (l : List α)
    (h : ∀ x ∈ l, q x = true → p x = true) : (l.filter p).filter q = l.filter q := by
  rw [List.filter_filter]
  apply List.filter_congr
  intro x hx
  cases hq : q x with
  | false => simp
  | true => simp [h x hx hq]

theorem filter_append_none {α : Type} (p : α → Bool) (l extra : List α)
    (h : ∀ x ∈ extra, p x = false) : (l ++ extra).filter p = l.filter p := by
  rw [List.filter_append]
  have : extra.filter p = [] := by
    rw [List.filter_eq_nil_iff]
    intro x hx
    simp [h x hx]
  rw [this, List.append_nil]

theorem rowsOf_eq_of {userId : Nat} {db db2 : Db}
    (hc : db2.characters.filter (fun ch => decide (ch.user_id = userId))
      = db.characters.filter (fun ch => decide (ch.user_id = userId)))
    (hq : db2.quests.filter (fun q => decide (q.user_id = userId))
      = db.quests.filter (fun q => decide (q.user_id = userId)))
    (hs : db2.quest_steps.filter (stepOfUser userId db)
      = db.quest_steps.filter (stepOfUser userId db)) :
    rowsOf userId db2 = rowsOf userId db := by
  unfold rowsOf
  rw [hc, hq, stepOfUser_congr hq, hs]

theorem stepOwned_eq (stepId userId : Nat) (db : Db) (st : QuestStep) :
    stepOwned stepId userId db st = (decide (st.id = stepId) && stepOfUser userId db st) := rfl

theorem stepOfUser_of_selectQuest {questId userId : Nat} {db : Db} {q : Quest}
    (hq : selectQuest questId userId db = some q) (st : QuestStep) (hst : st.quest_id = questId) :
    stepOfUser userId db st = true := by
  obtain ⟨hm, hid, hu⟩ := selectQuest_mem hq
  exact (stepOfUser_iff _ _ _).mpr ⟨q, hm, hu, by rw [hid, hst]⟩

theorem stepOfUser_fresh (s : Server) (hwf : s.WF) (userId : Nat) (st : QuestStep)
    (hst : st.quest_id = s.seqs.quest) : stepOfUser userId s.db st = false := by
  cases h : stepOfUser userId s.db st with
  | false => rfl
  | true =>
    obtain ⟨q, hq, _, hid⟩ := (stepOfUser_iff _ _ _).mp h
    have := hwf.2.1 q hq
    omega

theorem awardXp_filter_other (s : Server) (hco : CharactersOwned s.db) {userA userB : Nat}
    (hAB : userA ≠ userB) {questId : Nat} {q : Quest} {ch : Character}
    (hq : selectQuest questId userA s.db = some q)
    (hc : selectCharacter q.character_id s.db = some ch) (earnedXp now : Int) :
    (awardXp ch earnedXp now s.db.characters).filter (fun c => decide (c.user_id = userB))
      = s.db.characters.filter (fun c => decide (c.user_id = userB)) := by
  obtain ⟨hqm, _, hqu⟩ := selectQuest_mem hq
  obtain ⟨_, hcid⟩ := selectCharacter_mem hc
  unfold awardXp
  apply filter_map_fixed
  intro x hx
  by_cases hid : x.id = ch.id
  · have hxu : x.user_id = userA := by
      rw [← hqu]
      exact hco q hqm x hx (by rw [hcid, hid])
    have hne : x.user_id ≠ userB := by rw [hxu]; exact hAB
    simp [hid, hne]
  · simp [hid]

theorem markQuestDone_filter_other (s : Server) (hwf : s.WF) {userA userB : Nat}
    (hAB : userA ≠ userB) {questId : Nat} {q : Quest}
    (hq : selectQuest questId userA s.db = some q) (now : Int) :
    (markQuestDone questId now s.db).quests.filter (fun x => decide (x.user_id = userB))
      = s.db.quests.filter (fun x => decide (x.user_id = userB)) := by
  obtain ⟨hqm, hqid, hqu⟩ := selectQuest_mem hq
  unfold markQuestDone
  apply filter_map_fixed
  intro x hx
  by_cases hid : x.id = questId
  · have hxq : x = q :=
      eq_of_id_eq (fun y : Quest => y.id) s.db.quests hwf.1 hx hqm (by simp [hid, hqid])
    have hne : x.user_id ≠ userB := by rw [hxq, hqu]; exact hAB
    simp [hid, hne]
  · simp [hid]

theorem rowsOf_handle (userA userB : Nat) (hAB : userA ≠ userB) (env : Env) (req : Request)
    (hreq : req.userId = userA) (s : Server) (hwf : s.WF) (hco : CharactersOwned s.db) :
    rowsOf userB (handle env req s).2.db = rowsOf userB s.db := by
  cases req with
  | listQuests u status => rw [listQuests_state]
  | createQuest u body =>
    simp only [Request.userId] at hreq; subst hreq
    rcases createQuest_outcome env s u body with h | ⟨_, h⟩
    · rw [h.1]
    · rw [h]
      apply rowsOf_eq_of
      · rfl
      · apply filter_append_none
        intro x hx
        rw [List.mem_singleton] at hx
        subst hx
        simpa [createdQuest, insertQuest] using hAB
      · apply filter_append_none
        intro st hst
        exact stepOfUser_fresh s hwf userB st (numberedSteps_mem hst).1
  | patchQuest u questId body =>
    simp only [Request.userId] at hreq; subst hreq
    rcases patchQuest_outcome env s u questId body with h | ⟨_, h⟩
    · rw [h]
    · rw [h]
      apply rowsOf_eq_of
      · rfl
      · apply filter_map_fixed
        intro x _
        by_cases hc : x.id = questId ∧ x.user_id = u
        · have hne : x.user_id ≠ userB := by rw [hc.2]; exact hAB
          have hne2 : (body.apply env.dbNow x).user_id ≠ userB := hne
          simp only [hc, and_self, if_true]
          exact ⟨fun h => absurd (of_decide_eq_true h) hAB, fun _ => decide_eq_false hne2⟩
        · simp [hc]
      · rfl
  | deleteQuest u questId =>
    simp only [Request.userId] at hreq; subst hreq
    rcases deleteQuest_outcome env s u questId with h | h
    · rw [h]
    · rw [h]
      unfold deleteQuestRow
      cases hq : selectQuest questId u s.db with
      | none => rfl
      | some q =>
        apply rowsOf_eq_of
        · rfl
        · apply filter_filter_keep
          intro x _ hx
          have hxu : x.user_id = userB := by simpa using hx
          have hne : ¬ x.user_id = u := by rw [hxu]; exact fun h => hAB h.symm
          simp [hne]
        · apply filter_filter_keep
          intro st _ hst
          by_cases hid : st.quest_id = questId
          · have := stepOfUser_exclusive s hwf hAB st (stepOfUser_of_selectQuest hq st hid)
            rw [this] at hst
            exact absurd hst (by simp)
          · simp [hid]
  | completeQuest u questId =>
    simp only [Request.userId] at hreq; subst hreq
    rcases completeQuest_outcome env s u questId with
      h | ⟨q, ch, hq, _, hc, _, h⟩ | ⟨q, ch, hq, _, hc, _, h⟩
    · rw [h.1]
    · rw [h]
      apply rowsOf_eq_of
      · exact awardXp_filter_other s hco hAB hq hc _ _
      · exact markQuestDone_filter_other s hwf hAB hq _
      · rfl
    · rw [h]
      apply rowsOf_eq_of
      · exact awardXp_filter_other s hco hAB hq hc _ _
      · show (((markQuestDone questId env.dbNow s.db).quests ++
            [successorOf env q s.seqs.quest]).filter _) = _
        rw [filter_append_none, markQuestDone_filter_other s hwf hAB hq]
        intro x hx
        rw [List.mem_singleton] at hx
        subst hx
        have hne : ¬ q.user_id = userB := by rw [(selectQuest_mem hq).2.2]; exact hAB
        simp [successorOf, hne]
      · apply filter_append_none
        intro st hst
        exact stepOfUser_fresh s hwf userB st (numberedSteps_mem hst).1
  | addStep u questId title =>
    simp only [Request.userId] at hreq; subst hreq
    rcases addStep_outcome env s u questId title with ⟨h, _⟩ | ⟨_, ⟨q, hq⟩, _, h⟩
    · rw [h]
    · rw [h]
      apply rowsOf_eq_of
      · rfl
      · rfl
      · apply filter_append_none
        intro st hst
        rw [List.mem_singleton] at hst
        exact stepOfUser_exclusive s hwf hAB st
          (stepOfUser_of_selectQuest hq st (by rw [hst]))
  | patchStep u stepId body =>
    simp only [Request.userId] at hreq; subst hreq
    rcases patchStep_outcome env s u stepId body with h | h
    · rw [h]
    · rw [h]
      apply rowsOf_eq_of
      · rfl
      · rfl
      · apply filter_map_fixed
        intro st _
        by_cases hc : stepOwned stepId u s.db st = true
        · have hA : stepOfUser u s.db st = true := by
            rw [stepOwned_eq] at hc; simp at hc; exact hc.2
          have hB := stepOfUser_exclusive s hwf hAB st hA
          have hB2 : stepOfUser userB s.db (body.apply st) = false := by
            rw [← hB]; rfl
          simp [hc, hB, hB2]
        · simp [hc]
  | deleteStep u stepId =>
    simp only [Request.userId] at hreq; subst hreq
    rcases deleteStep_outcome env s u stepId with h | h
    · rw [h]
    · rw [h]
      apply rowsOf_eq_of
      · rfl
      · rfl
      · apply filter_filter_keep
        intro st _ hst
        cases hc : stepOwned stepId u s.db st with
        | false => rfl
        | true =>
          have hA : stepOfUser u s.db st = true := by
            rw [stepOwned_eq] at hc; simp at hc; exact hc.2
          rw [stepOfUser_exclusive s hwf hAB st hA] at hst
          exact absurd hst (by simp)

theorem Conn.view_store (c : Conn) (db : Db) : (c.store db).view = db := by
  unfold Conn.store Conn.view
  cases c.tx <;> rfl

theorem Conn.query_rel {α : Type} (fail : Nat → Bool) {R : Db → Db → Prop}
    (R2 : α → Db → Db → Prop) {c1 c2 : Conn} (h : Conn.Rel R c1 c2)
    (stmt1 stmt2 : Db → Seqs → α × Db × Seqs)
    (hs : ∀ db1 db2 sq, R db1 db2 →
      (stmt1 db1 sq).1 = (stmt2 db2 sq).1 ∧ (stmt1 db1 sq).2.2 = (stmt2 db2 sq).2.2 ∧
      R2 (stmt1 db1 sq).1 (stmt1 db1 sq).2.1 (stmt2 db2 sq).2.1) :
    OutRel R2 (c1.query fail stmt1) (c2.query fail stmt2) := by
  obtain ⟨hi, hsq, hR⟩ := h
  obtain ⟨h1, h2, h3⟩ := hs c1.view c2.view c1.seqs hR
  unfold Conn.query
  rw [← hi, ← hsq]
  cases hf : fail c1.issued with
  | true =>
    refine ⟨rfl, ?_, ?_⟩
    · simp [hi]
    · intro a ha; simp at ha
  | false =>
    refine ⟨?_, ?_, ?_⟩
    · simp [h1]
    · simp [hi]
    · intro a ha
      simp only [Bool.false_eq_true, if_false, Option.some.injEq] at ha
      subst ha
      refine ⟨by simp [hi], by simp [h2], ?_⟩
      have e1 : ∀ (c : Conn) (db : Db) (sq : Seqs) (n : Nat),
          Conn.view { c.store db with seqs := sq, issued := n } = db := by
        intro c db sq n
        have := Conn.view_store c db
        unfold Conn.view at this ⊢
        exact this
      simp only [Bool.false_eq_true, if_false]
      rw [e1, e1]
      exact h3

theorem Conn.begin_rel (fail : Nat → Bool) {R : Db → Db → Prop} {c1 c2 : Conn}
    (h : Conn.Rel R c1 c2) : OutRel (fun _ => R) (c1.begin fail) (c2.begin fail) := by
  obtain ⟨hi, hsq, hR⟩ := h
  unfold Conn.begin
  rw [← hi]
  cases hf : fail c1.issued with
  | true => exact ⟨rfl, by simp [hi], by intro a ha; simp at ha⟩
  | false =>
    refine ⟨rfl, by simp [hi], ?_⟩
    intro a _
    exact ⟨by simp [hi], hsq, hR⟩

theorem Conn.commit_rel (fail : Nat → Bool) {R : Db → Db → Prop} {c1 c2 : Conn}
    (h : Conn.Rel R c1 c2) : OutRel (fun _ => R) (c1.commit fail) (c2.commit fail) := by
  obtain ⟨hi, hsq, hR⟩ := h
  unfold Conn.commit
  rw [← hi]
  cases hf : fail c1.issued with
  | true => exact ⟨rfl, by simp [hi], by intro a ha; simp at ha⟩
  | false =>
    refine ⟨rfl, by simp [hi], ?_⟩
    intro a _
    exact ⟨by simp [hi], hsq, hR⟩

theorem Conn.rollback_rel (fail : Nat → Bool) {R : Db → Db → Prop} {c1 c2 : Conn}
    (h : Conn.Rel R c1 c2) :
    OutRel (fun _ _ _ => True) (c1.rollback fail) (c2.rollback fail) := by
  obtain ⟨hi, hsq, _⟩ := h
  unfold Conn.rollback
  rw [← hi]
  cases hf : fail c1.issued with
  | true => exact ⟨rfl, by simp [hi], by intro a ha; simp at ha⟩
  | false =>
    refine ⟨rfl, by simp [hi], ?_⟩
    intro a _
    exact ⟨by simp [hi], hsq, trivial⟩

theorem andThen_rel {α β : Type} {R : α → Db → Db → Prop} {R2 : β → Db → Db → Prop}
    {r1 r2 : Option α × Conn} (h : OutRel R r1 r2)
    (k1 k2 : α → Conn → Option β × Conn)
    (hk : ∀ a c1 c2, Conn.Rel (R a) c1 c2 → OutRel R2 (k1 a c1) (k2 a c2)) :
    OutRel R2 (GameLive.andThen r1 k1) (GameLive.andThen r2 k2) := by
  obtain ⟨h1, h2, h3⟩ := h
  unfold GameLive.andThen
  rw [← h1]
  cases hr : r1.1 with
  | none => exact ⟨rfl, h2, by intro a ha; simp at ha⟩
  | some a => exact hk a r1.2 r2.2 (h3 a hr)

theorem reply_rel {α : Type} {R2 : Db → Db → Prop} {c1 c2 : Conn}
    (h : Conn.Rel R2 c1 c2) (r : α) :
    OutRel (fun _ _ _ => True) (some r, c1) (some r, c2) :=
  ⟨rfl, h.1, fun _ _ => ⟨h.1, h.2.1, trivial⟩⟩

theorem tryCatch_rel {b1 b2 : Option Response × Conn}
    (h : OutRel (fun _ _ _ => True) b1 b2) (onError : Response) :
    (GameLive.tryCatch b1 onError).1 = (GameLive.tryCatch b2 onError).1 := by
  unfold GameLive.tryCatch
  rw [← h.1]
  cases b1.1 <;> rfl

theorem tryCatchRollback_rel (fail : Nat → Bool)
    {b1 b2 : Option Response × Conn} (h : OutRel (fun _ _ _ => True) b1 b2)
    (onError : Response) :
    (GameLive.tryCatchRollback fail b1 onError).1
      = (GameLive.tryCatchRollback fail b2 onError).1 := by
  unfold GameLive.tryCatchRollback
  rw [← h.1]
  cases b1.1 with
  | some r => rfl
  | none =>
    simp only [Conn.rollback, GameLive.andThen]
    rw [← h.2.1]
    cases fail b1.2.issued <;> rfl

theorem find?_filter_keep {α : Type} (p q : α → Bool) (l : List α)
    (h : ∀ x ∈ l, q x = true → p x = true) : (l.filter p).find? q = l.find? q := by
  induction l with
  | nil => rfl
  | cons a rest ih =>
    have ih2 := ih (fun x hx => h x (List.mem_cons_of_mem _ hx))
    cases hq : q a with
    | true =>
      have hp := h a (List.mem_cons_self _ _) hq
      rw [List.filter_cons, hp]
      simp [List.find?_cons, hq]
    | false =>
      cases hp : p a with
      | true =>
        rw [List.filter_cons, hp]
        simp only [if_true, List.find?_cons, hq]
        exact ih2
      | false =>
        rw [List.filter_cons, hp]
        simp only [Bool.false_eq_true, if_false, List.find?_cons, hq]
        exact ih2

theorem selectQuest_rowsOf (questId userId : Nat) (db : Db) :
    selectQuest questId userId (rowsOf userId db) = selectQuest questId userId db := by
  unfold selectQuest rowsOf
  apply find?_filter_keep
  intro x _ hx
  simp at hx
  simp [hx.2]

theorem stepOfUser_rowsOf (userId : Nat) (db : Db) :
    stepOfUser userId (rowsOf userId db) = stepOfUser userId db := by
  apply stepOfUser_congr
  unfold rowsOf
  apply filter_filter_keep
  intro x _ hx
  exact hx

theorem selectSteps_rowsOf (questId userId : Nat) (db : Db)
    (h : ∃ q ∈ db.quests, q.user_id = userId ∧ q.id = questId) :
    selectSteps questId (rowsOf userId db) = selectSteps questId db := by
  unfold selectSteps
  have : (rowsOf userId db).quest_steps.filter (fun s => decide (s.quest_id = questId))
      = db.quest_steps.filter (fun s => decide (s.quest_id = questId)) := by
    unfold rowsOf
    apply filter_filter_keep
    intro st _ hst
    obtain ⟨q, hq, hu, hid⟩ := h
    exact (stepOfUser_iff _ _ _).mpr ⟨q, hq, hu, by rw [hid]; exact (of_decide_eq_true hst).symm⟩
  rw [this]

theorem nextOrderIndex_rowsOf (questId userId : Nat) (db : Db)
    (h : ∃ q ∈ db.quests, q.user_id = userId ∧ q.id = questId) :
    nextOrderIndex questId (rowsOf userId db) = nextOrderIndex questId db := by
  unfold nextOrderIndex
  have : (rowsOf userId db).quest_steps.filter (fun s => decide (s.quest_id = questId))
      = db.quest_steps.filter (fun s => decide (s.quest_id = questId)) := by
    unfold rowsOf
    apply filter_filter_keep
    intro st _ hst
    obtain ⟨q, hq, hu, hid⟩ := h
    exact (stepOfUser_iff _ _ _).mpr ⟨q, hq, hu, by rw [hid]; exact (of_decide_eq_true hst).symm⟩
  rw [this]

theorem selectQuestsWithSteps_rowsOf (userId : Nat) (status : String) (db : Db) :
    selectQuestsWithSteps userId status (rowsOf userId db)
      = selectQuestsWithSteps userId status db := by
  unfold selectQuestsWithSteps
  have hq : (rowsOf userId db).quests.filter
        (fun q => decide (q.user_id = userId ∧ q.status = status))
      = db.quests.filter (fun q => decide (q.user_id = userId ∧ q.status = status)) := by
    unfold rowsOf
    apply filter_filter_keep
    intro x _ hx
    simp at hx
    simp [hx.1]
  rw [hq]
  apply List.map_congr_left
  intro q hqm
  have hm := (List.perm_insertionSort _ _).mem_iff.mp hqm
  rw [List.mem_filter] at hm
  have hu : q.user_id = userId := (of_decide_eq_true hm.2).1
  rw [selectSteps_rowsOf q.id userId db ⟨q, hm.1, hu, rfl⟩]

theorem updateQuest_rowsOf (questId userId : Nat) (body : QuestPatch) (now : Int) (db : Db) :
    (updateQuest questId userId body now (rowsOf userId db)).1
      = (updateQuest questId userId body now db).1 := by
  unfold updateQuest
  have : (rowsOf userId db).quests.filter
        (fun q => decide (q.id = questId ∧ q.user_id = userId))
      = db.quests.filter (fun q => decide (q.id = questId ∧ q.user_id = userId)) := by
    unfold rowsOf
    apply filter_filter_keep
    intro x _ hx
    simp at hx
    simp [hx.2]
  simp only [this]

theorem deleteQuestRow_rowsOf (questId userId : Nat) (db : Db) :
    (deleteQuestRow questId userId (rowsOf userId db)).1
      = (deleteQuestRow questId userId db).1 := by
  unfold deleteQuestRow
  rw [selectQuest_rowsOf]
  cases selectQuest questId userId db <;> rfl

theorem stepOwned_rowsOf (stepId userId : Nat) (db : Db) :
    (rowsOf userId db).quest_steps.filter (stepOwned stepId userId (rowsOf userId db))
      = db.quest_steps.filter (stepOwned stepId userId db) := by
  have e : stepOwned stepId userId (rowsOf userId db) = stepOwned stepId userId db := by
    funext st
    rw [stepOwned_eq, stepOwned_eq, stepOfUser_rowsOf]
  rw [e]
  unfold rowsOf
  apply filter_filter_keep
  intro st _ hst
  rw [stepOwned_eq] at hst
  simp at hst
  exact hst.2

theorem updateStep_rowsOf (stepId userId : Nat) (body : StepPatch) (db : Db) :
    (updateStep stepId userId body (rowsOf userId db)).1
      = (updateStep stepId userId body db).1 := by
  unfold updateStep
  simp only [stepOwned_rowsOf]

theorem deleteStepRow_rowsOf (stepId userId : Nat) (db : Db) :
    (deleteStepRow stepId userId (rowsOf userId db)).1
      = (deleteStepRow stepId userId db).1 := by
  unfold deleteStepRow
  simp only [stepOwned_rowsOf]

theorem characterIdOf_rowsOf (userId : Nat) (db : Db) :
    characterIdOf userId (rowsOf userId db) = characterIdOf userId db := by
  unfold characterIdOf rowsOf
  rw [find?_filter_keep]
  intro x _ hx
  exact hx

theorem selectCharacter_rowsOf (userId : Nat) (db : Db) (hco : CharactersOwned db)
    (q : Quest) (hq : q ∈ db.quests) (hu : q.user_id = userId) :
    selectCharacter q.character_id (rowsOf userId db) = selectCharacter q.character_id db := by
  unfold selectCharacter
  cases hc : q.character_id with
  | none => rfl
  | some cid =>
    simp only
    unfold rowsOf
    apply find?_filter_keep
    intro x hx hid
    have := hco q hq x hx (by rw [hc, of_decide_eq_true hid])
    simp [this, hu]

theorem agreeOn_quest {userId : Nat} {db1 db2 : Db} (h : AgreeOn userId db1 db2)
    (questId : Nat) : selectQuest questId userId db1 = selectQuest questId userId db2 := by
  rw [← selectQuest_rowsOf questId userId db1, ← selectQuest_rowsOf questId userId db2, h.1]

theorem listQuests_agree (env : Env) (userId : Nat) (status : Option String) {c1 c2 : Conn}
    (h : Conn.Rel (AgreeOn userId) c1 c2) :
    (listQuests env userId status c1).1 = (listQuests env userId status c2).1 := by
  unfold listQuests
  simp only
  generalize (if truthy status = true then status.getD "" else "active") = st
  by_cases hst : (!(["active", "done"].contains st)) = true
  · rw [if_pos hst, if_pos hst]
  · rw [if_neg hst, if_neg hst]
    refine tryCatch_rel (andThen_rel
      (Conn.query_rel env.fail (fun _ _ _ => True) h _ _ ?_) _ _ ?_) _
    · intro db1 db2 sq hdb
      refine ⟨?_, rfl, trivial⟩
      show selectQuestsWithSteps userId st db1 = selectQuestsWithSteps userId st db2
      rw [← selectQuestsWithSteps_rowsOf userId st db1,
        ← selectQuestsWithSteps_rowsOf userId st db2, hdb.1]
    · intro rows d1 d2 hd
      exact reply_rel hd _

theorem patchQuest_agree (env : Env) (userId questId : Nat) (body : QuestPatch) {c1 c2 : Conn}
    (h : Conn.Rel (AgreeOn userId) c1 c2) :
    (patchQuest env userId questId body c1).1 = (patchQuest env userId questId body c2).1 := by
  unfold patchQuest
  by_cases hu : body.updates.length = 0
  · rw [if_pos hu, if_pos hu]
  · rw [if_neg hu, if_neg hu]
    refine tryCatch_rel (andThen_rel
      (Conn.query_rel env.fail (fun _ _ _ => True) h _ _ ?_) _ _ ?_) _
    · intro db1 db2 sq hdb
      refine ⟨?_, rfl, trivial⟩
      show (updateQuest questId userId body env.dbNow db1).1
        = (updateQuest questId userId body env.dbNow db2).1
      rw [← updateQuest_rowsOf questId userId body env.dbNow db1,
        ← updateQuest_rowsOf questId userId body env.dbNow db2, hdb.1]
    · intro row d1 d2 hd
      cases row <;> exact reply_rel hd _

theorem deleteQuest_agree (env : Env) (userId questId : Nat) {c1 c2 : Conn}
    (h : Conn.Rel (AgreeOn userId) c1 c2) :
    (deleteQuest env userId questId c1).1 = (deleteQuest env userId questId c2).1 := by
  unfold deleteQuest
  refine tryCatch_rel (andThen_rel
    (Conn.query_rel env.fail (fun _ _ _ => True) h _ _ ?_) _ _ ?_) _
  · intro db1 db2 sq hdb
    refine ⟨?_, rfl, trivial⟩
    show (deleteQuestRow questId userId db1).1 = (deleteQuestRow questId userId db2).1
    rw [← deleteQuestRow_rowsOf questId userId db1,
      ← deleteQuestRow_rowsOf questId userId db2, hdb.1]
  · intro row d1 d2 hd
    cases row <;> exact reply_rel hd _

theorem patchStep_agree (env : Env) (userId stepId : Nat) (body : StepPatch) {c1 c2 : Conn}
    (h : Conn.Rel (AgreeOn userId) c1 c2) :
    (patchStep env userId stepId body c1).1 = (patchStep env userId stepId body c2).1 := by
  unfold patchStep
  by_cases hu : body.updates.length = 0
  · rw [if_pos hu, if_pos hu]
  · rw [if_neg hu, if_neg hu]
    refine tryCatch_rel (andThen_rel
      (Conn.query_rel env.fail (fun _ _ _ => True) h _ _ ?_) _ _ ?_) _
    · intro db1 db2 sq hdb
      refine ⟨?_, rfl, trivial⟩
      show (updateStep stepId userId body db1).1 = (updateStep stepId userId body db2).1
      rw [← updateStep_rowsOf stepId userId body db1,
        ← updateStep_rowsOf stepId userId body db2, hdb.1]
    · intro row d1 d2 hd
      cases row <;> exact reply_rel hd _

theorem deleteStep_agree (env : Env) (userId stepId : Nat) {c1 c2 : Conn}
    (h : Conn.Rel (AgreeOn userId) c1 c2) :
    (deleteStep env userId stepId c1).1 = (deleteStep env userId stepId c2).1 := by
  unfold deleteStep
  refine tryCatch_rel (andThen_rel
    (Conn.query_rel env.fail (fun _ _ _ => True) h _ _ ?_) _ _ ?_) _
  · intro db1 db2 sq hdb
    refine ⟨?_, rfl, trivial⟩
    show (deleteStepRow stepId userId db1).1 = (deleteStepRow stepId userId db2).1
    rw [← deleteStepRow_rowsOf stepId userId db1,
      ← deleteStepRow_rowsOf stepId userId db2, hdb.1]
  · intro row d1 d2 hd
    cases row <;> exact reply_rel hd _

theorem addStep_agree (env : Env) (userId questId : Nat) (title : Option String) {c1 c2 : Conn}
    (h : Conn.Rel (AgreeOn userId) c1 c2) :
    (addStep env userId questId title c1).1 = (addStep env userId questId title c2).1 := by
  unfold addStep
  by_cases ht : (!truthy title) = true
  · rw [if_pos ht, if_pos ht]
  · rw [if_neg ht, if_neg ht]
    refine tryCatch_rel (andThen_rel
      (Conn.query_rel env.fail
        (fun a db1 db2 => AgreeOn userId db1 db2 ∧ selectQuest questId userId db1 = a ∧
          selectQuest questId userId db2 = a) h _ _ ?_) _ _ ?_) _
    · intro db1 db2 sq hdb
      exact ⟨agreeOn_quest hdb questId, rfl, hdb, rfl, (agreeOn_quest hdb questId).symm⟩
    · intro row d1 d2 hd
      cases row with
      | none => exact reply_rel hd _
      | some q =>
        refine andThen_rel (Conn.query_rel env.fail (fun _ _ _ => True) hd _ _ ?_) _ _ ?_
        · intro db1 db2 sq hdb
          refine ⟨?_, rfl, trivial⟩
          obtain ⟨hag, hq1, hq2⟩ := hdb
          obtain ⟨hm1, hid1, hu1⟩ := selectQuest_mem hq1
          obtain ⟨hm2, hid2, hu2⟩ := selectQuest_mem hq2
          show nextOrderIndex questId db1 = nextOrderIndex questId db2
          rw [← nextOrderIndex_rowsOf questId userId db1 ⟨q, hm1, hu1, hid1⟩,
            ← nextOrderIndex_rowsOf questId userId db2 ⟨q, hm2, hu2, hid2⟩, hag.1]
        · intro orderIndex e1 e2 he
          refine andThen_rel (Conn.query_rel env.fail (fun _ _ _ => True) he _ _ ?_) _ _ ?_
          · intro db1 db2 sq _
            exact ⟨rfl, rfl, trivial⟩
          · intro step f1 f2 hf
            exact reply_rel hf _

theorem createQuest.insertSteps_rel (fail : Nat → Bool) (questId : Nat)
    (steps : List StepInput) (index : Int) {c1 c2 : Conn}
    (h : Conn.Rel (fun _ _ => True) c1 c2) :
    OutRel (fun _ _ _ => True) (createQuest.insertSteps fail questId steps index c1)
      (createQuest.insertSteps fail questId steps index c2) := by
  induction steps generalizing index c1 c2 with
  | nil => exact reply_rel h ()
  | cons step rest ih =>
    unfold createQuest.insertSteps
    by_cases ht : (!truthy step.title) = true
    · rw [if_pos ht, if_pos ht]
      exact ih index h
    · rw [if_neg ht, if_neg ht]
      refine andThen_rel (Conn.query_rel fail (fun _ _ _ => True) h _ _ ?_) _ _ ?_
      · intro db1 db2 sq _
        exact ⟨rfl, rfl, trivial⟩
      · intro _ d1 d2 hd
        exact ih (index + 1) hd

theorem completeQuest.cloneSteps_rel (fail : Nat → Bool) (nextQuestId : Nat)
    (steps : List QuestStep) (index : Int) {c1 c2 : Conn}
    (h : Conn.Rel (fun _ _ => True) c1 c2) :
    OutRel (fun _ _ _ => True) (completeQuest.cloneSteps fail nextQuestId steps index c1)
      (completeQuest.cloneSteps fail nextQuestId steps index c2) := by
  induction steps generalizing index c1 c2 with
  | nil => exact reply_rel h ()
  | cons step rest ih =>
    unfold completeQuest.cloneSteps
    refine andThen_rel (Conn.query_rel fail (fun _ _ _ => True) h _ _ ?_) _ _ ?_
    · intro db1 db2 sq _
      exact ⟨rfl, rfl, trivial⟩
    · intro _ d1 d2 hd
      exact ih (index + 1) hd

theorem createQuest_agree (env : Env) (userId : Nat) (body : QuestPayload) {c1 c2 : Conn}
    (h : Conn.Rel (AgreeOn userId) c1 c2) :
    (createQuest env userId body c1).1 = (createQuest env userId body c2).1 := by
  unfold createQuest
  cases validateQuestPayload body with
  | some msg => rfl
  | none =>
    simp only
    refine tryCatchRollback_rel env.fail ?_ _
    unfold createQuest.body
    refine andThen_rel (Conn.begin_rel env.fail h) _ _ ?_
    intro _ d1 d2 hd
    refine andThen_rel (Conn.query_rel env.fail (fun _ _ _ => True) hd _ _ ?_) _ _ ?_
    · intro db1 db2 sq hdb
      refine ⟨?_, rfl, trivial⟩
      have hc : characterIdOf userId db1 = characterIdOf userId db2 := by
        rw [← characterIdOf_rowsOf userId db1, ← characterIdOf_rowsOf userId db2, hdb.1]
      simp only [insertQuest, hc]
    · intro quest e1 e2 he
      have hsteps : OutRel (fun _ _ _ => True)
          (match body.steps with
            | some steps =>
              if steps.length > 0 then createQuest.insertSteps env.fail quest.id steps 0 e1
              else (some (), e1)
            | none => (some (), e1))
          (match body.steps with
            | some steps =>
              if steps.length > 0 then createQuest.insertSteps env.fail quest.id steps 0 e2
              else (some (), e2)
            | none => (some (), e2)) := by
        cases body.steps with
        | none => exact reply_rel he ()
        | some steps =>
          simp only
          by_cases hl : steps.length > 0
          · rw [if_pos hl, if_pos hl]
            exact createQuest.insertSteps_rel env.fail quest.id steps 0 he
          · rw [if_neg hl, if_neg hl]
            exact reply_rel he ()
      refine andThen_rel hsteps _ _ ?_
      intro _ f1 f2 hf
      refine andThen_rel (Conn.commit_rel env.fail hf) _ _ ?_
      intro _ g1 g2 hg
      exact reply_rel hg _

theorem completeQuest.spawnNext_rel (env : Env) (questId : Nat) (quest : Quest) {c1 c2 : Conn}
    (h : Conn.Rel (fun db1 db2 => selectSteps questId db1 = selectSteps questId db2) c1 c2) :
    OutRel (fun _ _ _ => True) (completeQuest.spawnNext env questId quest c1)
      (completeQuest.spawnNext env questId quest c2) := by
  unfold completeQuest.spawnNext
  by_cases hr : (truthy quest.repeat_type && decide (quest.repeat_type ≠ some "none")) = true
  · rw [if_pos hr, if_pos hr]
    refine andThen_rel (Conn.query_rel env.fail
      (fun _ db1 db2 => selectSteps questId db1 = selectSteps questId db2) h _ _ ?_) _ _ ?_
    · intro db1 db2 sq hdb
      refine ⟨rfl, rfl, ?_⟩
      exact hdb
    · intro nextQuest d1 d2 hd
      refine andThen_rel (Conn.query_rel env.fail (fun _ _ _ => True) hd _ _ ?_) _ _ ?_
      · intro db1 db2 sq hdb
        exact ⟨hdb, rfl, trivial⟩
      · intro steps e1 e2 he
        refine andThen_rel (completeQuest.cloneSteps_rel env.fail nextQuest.id steps 0 he) _ _ ?_
        intro _ f1 f2 hf
        exact reply_rel hf _
  · rw [if_neg hr, if_neg hr]
    exact reply_rel h _

theorem updateCharacterLevel_of_select {cid : Option Nat} {db : Db} {ch : Character}
    (h : selectCharacter cid db = some ch) (level xp now : Int) :
    (updateCharacterLevel level xp ch.id now db).1
      = some { ch with level := level, xp := xp, updated_at := now } := by
  obtain ⟨_, hcid⟩ := selectCharacter_mem h
  subst hcid
  unfold selectCharacter at h
  simp only at h
  unfold updateCharacterLevel
  simp only
  rw [find?_map_of (fun c : Character => decide (c.id = ch.id))
    (fun c => if c.id = ch.id then { c with level := level, xp := xp, updated_at := now } else c)
    (fun c => { c with level := level, xp := xp, updated_at := now }) db.characters
    (by intro x; by_cases hx : x.id = ch.id <;> simp [hx])
    (by intro x hx; simp [of_decide_eq_true hx]), h]
  rfl

theorem completeQuest_agree (env : Env) (userId questId : Nat) {c1 c2 : Conn}
    (h : Conn.Rel (AgreeOn userId) c1 c2) :
    (completeQuest env userId questId c1).1 = (completeQuest env userId questId c2).1 := by
  unfold completeQuest
  refine tryCatchRollback_rel env.fail ?_ _
  unfold completeQuest.body
  refine andThen_rel (Conn.begin_rel env.fail h) _ _ ?_
  intro _ d1 d2 hd
  refine andThen_rel (Conn.query_rel env.fail
    (fun a db1 db2 => AgreeOn userId db1 db2 ∧ selectQuest questId userId db1 = a ∧
      selectQuest questId userId db2 = a) hd _ _ ?_) _ _ ?_
  · intro db1 db2 sq hdb
    exact ⟨agreeOn_quest hdb questId, rfl, hdb, rfl, (agreeOn_quest hdb questId).symm⟩
  · intro questRow e1 e2 he
    cases questRow with
    | none =>
      refine andThen_rel (Conn.rollback_rel env.fail he) _ _ ?_
      intro _ f1 f2 hf
      exact reply_rel hf _
    | some quest =>
      simp only
      by_cases hdone : quest.status = "done"
      · rw [if_pos hdone, if_pos hdone]
        refine andThen_rel (Conn.rollback_rel env.fail he) _ _ ?_
        intro _ f1 f2 hf
        exact reply_rel hf _
      · rw [if_neg hdone, if_neg hdone]
        refine andThen_rel (Conn.query_rel env.fail
          (fun _ db1 db2 =>
            selectCharacter quest.character_id db1 = selectCharacter quest.character_id db2 ∧
            selectSteps questId db1 = selectSteps questId db2) he _ _ ?_) _ _ ?_
        · intro db1 db2 sq hdb
          obtain ⟨hag, hq1, hq2⟩ := hdb
          obtain ⟨hm1, hid1, hu1⟩ := selectQuest_mem hq1
          obtain ⟨hm2, hid2, hu2⟩ := selectQuest_mem hq2
          refine ⟨rfl, rfl, ?_, ?_⟩
          · simp only [selectCharacter_markQuestDone]
            rw [← selectCharacter_rowsOf userId db1 hag.2.1 quest hm1 hu1,
              ← selectCharacter_rowsOf userId db2 hag.2.2 quest hm2 hu2, hag.1]
          · show selectSteps questId db1 = selectSteps questId db2
            rw [← selectSteps_rowsOf questId userId db1 ⟨quest, hm1, hu1, hid1⟩,
              ← selectSteps_rowsOf questId userId db2 ⟨quest, hm2, hu2, hid2⟩, hag.1]
        · intro _ f1 f2 hf
          refine andThen_rel (Conn.query_rel env.fail
            (fun a db1 db2 =>
              (selectCharacter quest.character_id db1 = a ∧
                selectCharacter quest.character_id db2 = a) ∧
              selectSteps questId db1 = selectSteps questId db2) hf _ _ ?_) _ _ ?_
          · intro db1 db2 sq hdb
            exact ⟨hdb.1, rfl, ⟨rfl, hdb.1.symm⟩, hdb.2⟩
          · intro characterRow g1 g2 hg
            cases characterRow with
            | none =>
              refine andThen_rel (Conn.rollback_rel env.fail hg) _ _ ?_
              intro _ k1 k2 hk
              exact reply_rel hk _
            | some character =>
              simp only
              refine andThen_rel (Conn.query_rel env.fail
                (fun _ db1 db2 => selectSteps questId db1 = selectSteps questId db2)
                hg _ _ ?_) _ _ ?_
              · intro db1 db2 sq hdb
                obtain ⟨⟨hc1, hc2⟩, hst⟩ := hdb
                refine ⟨?_, rfl, ?_⟩
                · simp only
                  rw [updateCharacterLevel_of_select hc1, updateCharacterLevel_of_select hc2]
                · exact hst
              · intro characterUpdate k1 k2 hk
                refine andThen_rel (completeQuest.spawnNext_rel env questId quest hk) _ _ ?_
                intro nextQuest m1 m2 hm
                refine andThen_rel (Conn.commit_rel env.fail hm) _ _ ?_
                intro _ n1 n2 hn
                exact reply_rel hn _

theorem reply_agree (userId : Nat) (env : Env) (req : Request) (hreq : req.userId = userId)
    (s1 s2 : Server) (hseq : s1.seqs = s2.seqs) (h : AgreeOn userId s1.db s2.db) :
    (handle env req s1).1 = (handle env req s2).1 := by
  have hc : Conn.Rel (AgreeOn userId) s1.connect s2.connect := ⟨rfl, hseq, h⟩
  cases req with
  | listQuests u status =>
    simp only [Request.userId] at hreq; subst hreq
    exact listQuests_agree env u status hc
  | createQuest u body =>
    simp only [Request.userId] at hreq; subst hreq
    exact createQuest_agree env u body hc
  | patchQuest u questId body =>
    simp only [Request.userId] at hreq; subst hreq
    exact patchQuest_agree env u questId body hc
  | deleteQuest u questId =>
    simp only [Request.userId] at hreq; subst hreq
    exact deleteQuest_agree env u questId hc
  | completeQuest u questId =>
    simp only [Request.userId] at hreq; subst hreq
    exact completeQuest_agree env u questId hc
  | addStep u questId title =>
    simp only [Request.userId] at hreq; subst hreq
    exact addStep_agree env u questId title hc
  | patchStep u stepId body =>
    simp only [Request.userId] at hreq; subst hreq
    exact patchStep_agree env u stepId body hc
  | deleteStep u stepId =>
    simp only [Request.userId] at hreq; subst hreq
    exact deleteStep_agree env u stepId hc

theorem reply_seqs (env : Env) (req : Request) (hreq : ¬ req.inserts) (db : Db)
    (sq1 sq2 : Seqs) :
    (handle env req { db := db, seqs := sq1 }).1 = (handle env req { db := db, seqs := sq2 }).1 := by
  cases req with
  | createQuest u body => exact absurd trivial hreq
  | completeQuest u questId => exact absurd trivial hreq
  | addStep u questId title => exact absurd trivial hreq
  | listQuests u status =>
    simp only [handle, Request.run, listQuests, Server.connect]
    generalize (if truthy status = true then status.getD "" else "active") = st
    by_cases hst : (!(["active", "done"].contains st)) = true
    · rw [if_pos hst, if_pos hst]
    · rw [if_neg hst, if_neg hst]
      cases h0 : env.fail 0 with
      | true => rw [Conn.query_failed _ _ _ h0, Conn.query_failed _ _ _ h0]; rfl
      | false => rw [Conn.query_auto_ok _ _ _ _ _ h0, Conn.query_auto_ok _ _ _ _ _ h0]; rfl
  | patchQuest u questId body =>
    simp only [handle, Request.run, patchQuest, Server.connect]
    by_cases hu : body.updates.length = 0
    · rw [if_pos hu, if_pos hu]
    · rw [if_neg hu, if_neg hu]
      cases h0 : env.fail 0 with
      | true => rw [Conn.query_failed _ _ _ h0, Conn.query_failed _ _ _ h0]; rfl
      | false =>
        rw [Conn.query_auto_ok _ _ _ _ _ h0, Conn.query_auto_ok _ _ _ _ _ h0, andThen_some,
          andThen_some]
        cases (updateQuest questId u body env.dbNow db).1 <;> rfl
  | deleteQuest u questId =>
    simp only [handle, Request.run, deleteQuest, Server.connect]
    cases h0 : env.fail 0 with
    | true => rw [Conn.query_failed _ _ _ h0, Conn.query_failed _ _ _ h0]; rfl
    | false =>
      rw [Conn.query_auto_ok _ _ _ _ _ h0, Conn.query_auto_ok _ _ _ _ _ h0, andThen_some,
        andThen_some]
      cases (deleteQuestRow questId u db).1 <;> rfl
  | patchStep u stepId body =>
    simp only [handle, Request.run, patchStep, Server.connect]
    by_cases hu : body.updates.length = 0
    · rw [if_pos hu, if_pos hu]
    · rw [if_neg hu, if_neg hu]
      cases h0 : env.fail 0 with
      | true => rw [Conn.query_failed _ _ _ h0, Conn.query_failed _ _ _ h0]; rfl
      | false =>
        rw [Conn.query_auto_ok _ _ _ _ _ h0, Conn.query_auto_ok _ _ _ _ _ h0, andThen_some,
          andThen_some]
        cases (updateStep stepId u body db).1 <;> rfl
  | deleteStep u stepId =>
    simp only [handle, Request.run, deleteStep, Server.connect]
    cases h0 : env.fail 0 with
    | true => rw [Conn.query_failed _ _ _ h0, Conn.query_failed _ _ _ h0]; rfl
    | false =>
      rw [Conn.query_auto_ok _ _ _ _ _ h0, Conn.query_auto_ok _ _ _ _ _ h0, andThen_some,
        andThen_some]
      cases (deleteStepRow stepId u db).1 <;> rfl

/-- C11, as stated, fails in its second half: the stores `exStart` and
`exStartOther` have unique ids, each quest's character belongs to the quest's
user, and they hold the same rows of user 7, but in the second one user 8 has
created a quest, so the quest id generator stands at 3 instead of 1; the same
creation request of user 7 is answered with a quest of id 1 on the first store
and of id 3 on the second (`RETURNING *` gives back the id the store assigned). -/
theorem createQuest_reply_depends_on_generator :
    exStart.WF ∧ exStartOther.WF ∧
    CharactersOwned exStart.db ∧ CharactersOwned exStartOther.db ∧
    rowsOf 7 exStart.db = rowsOf 7 exStartOther.db ∧
    (handle exEnv (Request.createQuest 7 exPayload) exStart).1
      = some (Response.ok (Reply.quest (createdQuest exEnv 7 exPayload exStart))) ∧
    (handle exEnv (Request.createQuest 7 exPayload) exStartOther).1
      = some (Response.ok (Reply.quest (createdQuest exEnv 7 exPayload exStartOther))) ∧
    (createdQuest exEnv 7 exPayload exStart).id = 1 ∧
    (createdQuest exEnv 7 exPayload exStartOther).id = 3 ∧
    (handle exEnv (Request.createQuest 7 exPayload) exStart).1
      ≠ (handle exEnv (Request.createQuest 7 exPayload) exStartOther).1 := by
  refine ⟨by decide, by decide, by unfold CharactersOwned; decide,
    by unfold CharactersOwned; decide, by decide, by decide, by decide, rfl, rfl, by decide⟩

/-- C11, amended. In a store with unique ids in which each quest's character
belongs to the quest's user, a request issued by user A (quest list, create, patch,
delete, complete; step add, patch, delete), under any storage failures, leaves the
quests, steps and characters of every other user B exactly as they were; and its
reply is the same on any second store that has the same rows of A and in which,
too, each quest's character belongs to the quest's user, whatever the rows of the
other users are, provided that for the requests that insert rows (create,
complete, add step) the two stores also have the same id generators. -/
theorem owner_isolation (userA userB : Nat) (hAB : userA ≠ userB) (env : Env) (req : Request)
    (hreq : req.userId = userA) (s : Server) (hwf : s.WF) (hco : CharactersOwned s.db)
    (s2 : Server) (hco2 : CharactersOwned s2.db) (hseq : req.inserts → s.seqs = s2.seqs)
    (hrows : rowsOf userA s.db = rowsOf userA s2.db) :
    rowsOf userB (handle env req s).2.db = rowsOf userB s.db ∧
    (handle env req s).1 = (handle env req s2).1 := by
  refine ⟨rowsOf_handle userA userB hAB env req hreq s hwf hco, ?_⟩
  have hag : AgreeOn userA s.db s2.db := ⟨hrows, hco, hco2⟩
  by_cases hins : req.inserts
  · exact reply_agree userA env req hreq s s2 (hseq hins) hag
  · have h2 : (handle env req s2).1 = (handle env req { db := s2.db, seqs := s.seqs }).1 :=
      reply_seqs env req hins s2.db s2.seqs s.seqs
    rw [h2]
    exact reply_agree userA env req hreq s { db := s2.db, seqs := s.seqs } rfl hag

/-- C11 on the stores `exTwoUsers` and `exTwoUsersOther`: when user 7 completes
quest 1, the rows of user 8 stay as they were, and the reply is the same on the
store in which user 8 has other rows. -/
theorem owner_isolation_witness :
    rowsOf 8 (handle exEnv (Request.completeQuest 7 1) exTwoUsers).2.db
      = rowsOf 8 exTwoUsers.db ∧
    (handle exEnv (Request.completeQuest 7 1) exTwoUsers).1
      = (handle exEnv (Request.completeQuest 7 1) exTwoUsersOther).1 :=
  owner_isolation 7 8 (by decide) exEnv (Request.completeQuest 7 1) rfl exTwoUsers (by decide)
    (by unfold CharactersOwned; decide) exTwoUsersOther (by unfold CharactersOwned; decide)
    (fun _ => rfl) (by decide)

end GameLive
